import Mathlib

/-!
# Balance ledger and authorization gate of the companion platform backend

A shallow embedding of `backend/controllers/balance.go` (`AddBalance`,
`GetBalanceTransactions` and the pagination block of the read handlers),
`backend/controllers/studio.go` (`CreateStudio`, `UpdateStudio`,
`ApplyToJoinStudio`, `ProcessApplication`), the row types of
`backend/models/models.go` and the helpers of `backend/middleware/auth.go` and
`backend/utils/response.go`.

Modelling conventions.

* A table is the list of its visible rows in ascending primary key order, which is
  the order in which a gorm `First` scans it.  Nothing in the repository deletes
  a row, so the soft delete column of studios and relations is always NULL and is
  left out.
* `uint` identifiers are natural numbers.  Go `int` values are integers, and the
  arithmetic on them wraps at 64 bits.
* An amount is the rational value of a finite `float64`.  The handler is embedded
  once, over an arithmetic of amounts (`Arith`): `float64Arith` is IEEE 754
  binary64 with rounding to nearest, ties to even, which is what the program
  runs; `exactArith` takes amounts as exact decimals, the reading of the
  specification.  `AddBalanceWith` is the handler over an arithmetic,
  `AddBalanceFloat64` is the handler as the program runs it and `AddBalance` is
  its exact decimal reading.
* The JSON decoder turns the number of the body into the nearest `float64` and
  rejects a number whose nearest `float64` is infinite (`strconv.ParseFloat`).  A
  sum of two amounts that is infinite is not a value of the amount column (a
  MySQL double): the save of such a row is a failing save.
* The handlers of studio.go take the value that `strconv.ParseUint(id, 10, 32)`
  returned for the path parameter; `GetBalanceTransactions` takes the number that
  the text of the path parameter denotes and parses it with `ParseUint`.
* Timestamps maintained by the ORM and preloaded associations are left out.
* A database call can fail for reasons outside the program.  `Faults` records, for
  each database call of `AddBalance`, whether it returns such an error when it is
  executed.
* A transaction handle `Tx` carries the committed state it was begun on and its
  working state; `Rollback` gives back the former and a successful `Commit` the
  latter.
-/

namespace PlaymateTiming

/-! ## models/models.go -/

abbrev UserRole := String

def RolePlayer : UserRole := "player"

def RoleProvider : UserRole := "provider"

def RoleStudio : UserRole := "studio"

/-- Studio row: primary key, name and owner (descriptive columns are left out). -/
structure Studio where
  ID : Nat
  Name : String
  OwnerID : Nat
  deriving DecidableEq, Repr

abbrev RelationStatus := String

def StatusPending : RelationStatus := "pending"

def StatusApproved : RelationStatus := "approved"

def StatusRejected : RelationStatus := "rejected"

/-- ProviderStudioRelation row. -/
structure ProviderStudioRelation where
  ID : Nat
  ProviderID : Nat
  StudioID : Nat
  Status : RelationStatus
  AppliedAt : Nat
  ProcessedAt : Option Nat
  Notes : String
  deriving DecidableEq, Repr

abbrev BalanceType := String

def BalanceTypeMoney : BalanceType := "money"

def BalanceTypeTime : BalanceType := "time"

def BalanceTypePoint : BalanceType := "point"

/-- Balance row.  The column `type` is the field `Typ`. -/
structure Balance where
  ID : Nat
  PlayerID : Nat
  ProviderID : Nat
  StudioID : Nat
  Typ : BalanceType
  Amount : ℚ
  FrozenAmount : ℚ
  deriving DecidableEq, Repr

abbrev TransactionType := String

def TransactionTypeRecharge : TransactionType := "recharge"

def TransactionTypeConsume : TransactionType := "consume"

def TransactionTypeRefund : TransactionType := "refund"

def TransactionTypeFreeze : TransactionType := "freeze"

def TransactionTypeUnfreeze : TransactionType := "unfreeze"

/-- BalanceTransaction row.  The column `type` is the field `Typ`. -/
structure BalanceTransaction where
  ID : Nat
  BalanceID : Nat
  Typ : TransactionType
  Amount : ℚ
  BeforeAmount : ℚ
  AfterAmount : ℚ
  Description : String
  OperatorID : Nat
  deriving DecidableEq, Repr

/-! ## The database -/

/-- The four tables the ledger reads or writes. -/
structure DB where
  studios : List Studio
  provider_studio_relations : List ProviderStudioRelation
  balances : List Balance
  balance_transactions : List BalanceTransaction
  deriving DecidableEq, Repr

/-- Errors of a database call: gorm.ErrRecordNotFound or any other error. -/
inductive DBError where
  | ErrRecordNotFound
  | ErrOther
  deriving DecidableEq, Repr

deriving instance DecidableEq for Except

/-- The query `Where(p).First(&row)`: the matching row with the lowest primary
key, `ErrRecordNotFound` when there is none, another error when the call fails. -/
def First {α : Type} (fail : Bool) (rows : List α) (p : α → Bool) : Except DBError α :=
  if fail then .error .ErrOther
  else
    match rows.find? p with
    | some row => .ok row
    | none => .error .ErrRecordNotFound

/-- The auto-increment primary key of the next inserted row: above every key in
the table. -/
def nextID (ids : List Nat) : Nat :=
  ids.foldr max 0 + 1

/-- A transaction handle: the committed state it was begun on, and its working
state. -/
structure Tx where
  base : DB
  cur : DB
  deriving DecidableEq, Repr

/-- The call `db.Begin()`. -/
def Begin (db : DB) : Tx :=
  { base := db, cur := db }

/-- The call `tx.Rollback()`: the committed state is the one before `Begin`. -/
def Rollback (tx : Tx) : DB :=
  tx.base

/-- The call `tx.Commit()`: the working state becomes the committed state, unless
the call fails, and then nothing is committed. -/
def Commit (fail : Bool) (tx : Tx) : Except DBError DB :=
  if fail then .error .ErrOther else .ok tx.cur

/-- The call `tx.Create(&balance)`: the row gets the next primary key and is
appended. -/
def CreateBalance (fail : Bool) (tx : Tx) (balance : Balance) : Except DBError (Balance × Tx) :=
  if fail then .error .ErrOther
  else
    let balance := { balance with ID := nextID (tx.cur.balances.map (·.ID)) }
    .ok (balance, { tx with cur := { tx.cur with balances := tx.cur.balances ++ [balance] } })

/-- The call `tx.Save(&balance)`: the row with the primary key of `balance` is
overwritten with all its fields. -/
def SaveBalance (fail : Bool) (tx : Tx) (balance : Balance) : Except DBError Tx :=
  if fail then .error .ErrOther
  else
    .ok { tx with cur := { tx.cur with
      balances := tx.cur.balances.map (fun row => if row.ID = balance.ID then balance else row) } }

/-- The call `tx.Create(&transaction)`: the row gets the next primary key and is
appended. -/
def CreateTransaction (fail : Bool) (tx : Tx) (transaction : BalanceTransaction) :
    Except DBError (BalanceTransaction × Tx) :=
  if fail then .error .ErrOther
  else
    let transaction :=
      { transaction with ID := nextID (tx.cur.balance_transactions.map (·.ID)) }
    .ok (transaction, { tx with cur := { tx.cur with
      balance_transactions := tx.cur.balance_transactions ++ [transaction] } })

/-! ## utils/response.go -/

/-- The JSON response: a success with its message and data, or an error with its
code (also the HTTP status) and message. -/
inductive Response (α : Type) where
  | Success (message : String) (data : α)
  | Error (code : Nat) (message : String)
  deriving DecidableEq, Repr

def SuccessWithMessage {α : Type} (message : String) (data : α) : Response α :=
  .Success message data

def BadRequest {α : Type} (message : String) : Response α :=
  .Error 400 message

def Unauthorized {α : Type} (message : String) : Response α :=
  .Error 401 message

def Forbidden {α : Type} (message : String) : Response α :=
  .Error 403 message

def NotFound {α : Type} (message : String) : Response α :=
  .Error 404 message

def InternalServerError {α : Type} (message : String) : Response α :=
  .Error 500 message

/-- The error code of a response, `0` for a success. -/
def Response.code {α : Type} : Response α → Nat
  | .Success _ _ => 0
  | .Error code _ => code

/-! ## middleware/auth.go -/

/-- The request context: the keys `user_id` and `user_role`, each `none` when the
key is missing or holds a value of another type. -/
structure Context where
  user_id : Option Nat
  user_role : Option UserRole
  deriving DecidableEq, Repr

def GetCurrentUserID (c : Context) : Option Nat :=
  c.user_id

def GetCurrentUserRole (c : Context) : Option UserRole :=
  c.user_role

/-! ## The arithmetic of amounts -/

/-- The arithmetic of amounts: the value of a decoded JSON number and the sum of
two amounts, each `none` when the result is not a finite number. -/
structure Arith where
  ofDecimal : ℚ → Option ℚ
  add : ℚ → ℚ → Option ℚ

/-- Amounts taken as exact decimals. -/
def exactArith : Arith :=
  { ofDecimal := fun x => some x, add := fun a b => some (a + b) }

/-- The power of two with an integer exponent. -/
def pow2 (z : Int) : ℚ :=
  if 0 ≤ z then ((2 ^ z.toNat : Nat) : ℚ) else 1 / ((2 ^ (-z).toNat : Nat) : ℚ)

/-- The number of halvings that bring a natural number below 2, in at most `fuel`
steps. -/
def halvings : Nat → Nat → Nat
  | 0, _ => 0
  | fuel + 1, n => if n < 2 then 0 else halvings fuel (n / 2) + 1

/-- The floor of the binary logarithm of a natural number (0 for 0). -/
def floorLog2 (n : Nat) : Nat :=
  halvings n n

/-- The binary exponent of a non-zero rational: the `e` with 2^e ≤ |x| < 2^(e+1). -/
def ilog2 (x : ℚ) : Int :=
  let d : Int := (floorLog2 x.num.natAbs : Int) - (floorLog2 x.den : Int)
  if pow2 d ≤ |x| then d else d - 1

/-- Rounding of a rational to the nearest integer, ties to the even one. -/
def roundNearestEven (y : ℚ) : Int :=
  let n := Rat.floor y
  let r := y - n
  if r < 1 / 2 then n else if 1 / 2 < r then n + 1 else if n % 2 = 0 then n else n + 1

/-- Rounding of a rational to `float64` (IEEE 754 binary64: 53 bit significand,
exponents from -1022 to 1023, subnormal numbers), to nearest, ties to even;
`none` when the result is infinite. -/
def roundFloat64 (x : ℚ) : Option ℚ :=
  if x = 0 then some 0
  else
    let quantum := pow2 (max (ilog2 x) (-1022) - 52)
    let r := (roundNearestEven (x / quantum) : ℚ) * quantum
    if |r| < pow2 1024 then some r else none

/-- The arithmetic of Go `float64`: a JSON number decodes to the nearest
`float64` (a number out of range is a decoding error) and the sum is the rounded
sum (a sum out of range is infinite). -/
def float64Arith : Arith :=
  { ofDecimal := roundFloat64, add := fun a b => roundFloat64 (a + b) }

/-! ## controllers/balance.go -/

/-- AddBalanceRequest: the decoded JSON body (a missing key is the zero value).
As the body of a call over an arithmetic, Amount is the number written in the
JSON text; as the bound request, Amount is its value in the arithmetic. -/
structure AddBalanceRequest where
  PlayerID : Nat
  ProviderID : Nat
  StudioID : Nat
  Typ : BalanceType
  Amount : ℚ
  Description : String
  deriving DecidableEq, Repr

/-- The binding tags of AddBalanceRequest: `required` on PlayerID and ProviderID,
`required,oneof=money time point` on Type, `required,gt=0` on Amount. -/
def AddBalanceRequest.valid (req : AddBalanceRequest) : Bool :=
  req.PlayerID != 0 && req.ProviderID != 0 &&
  (req.Typ != "" &&
    (req.Typ == BalanceTypeMoney || req.Typ == BalanceTypeTime || req.Typ == BalanceTypePoint)) &&
  (req.Amount != 0 && decide (0 < req.Amount))

/-- The call `c.ShouldBindJSON(&req)`: the body is `none` when it does not decode
into the request type; a decoded body is checked against the binding tags.  The
text of the binding error is not modelled. -/
def ShouldBindJSON (body : Option AddBalanceRequest) : Except String AddBalanceRequest :=
  match body with
  | none => .error "invalid request body"
  | some req => if req.valid then .ok req else .error "validation failed"

/-- The call `c.ShouldBindJSON(&req)` over an arithmetic.  The field Amount of the
body is the number written in the JSON text; it is converted to an amount, and a
number that has no finite value does not decode. -/
def ShouldBindJSONWith (ar : Arith) (body : Option AddBalanceRequest) :
    Except String AddBalanceRequest :=
  match body with
  | none => .error "invalid request body"
  | some raw =>
    match ar.ofDecimal raw.Amount with
    | none => .error "invalid request body"
    | some amount =>
      if ({ raw with Amount := amount } : AddBalanceRequest).valid then
        .ok { raw with Amount := amount }
      else .error "validation failed"

/-- Which database calls of AddBalance fail, when executed, with an error that is
not ErrRecordNotFound: the studio lookup (line 138), the relation lookup (146),
the balance lookup (158), the balance insert (169), the balance update (186), the
transaction insert (203) and the commit (210). -/
structure Faults where
  studioFirst : Bool
  relationFirst : Bool
  balanceFirst : Bool
  balanceCreate : Bool
  balanceSave : Bool
  transactionCreate : Bool
  commit : Bool
  deriving DecidableEq, Repr

/-- No database call fails. -/
def noFaults : Faults :=
  { studioFirst := false, relationFirst := false, balanceFirst := false,
    balanceCreate := false, balanceSave := false, transactionCreate := false,
    commit := false }

/-- The permission check of AddBalance (balance.go lines 127 to 154), inside the
transaction: the denial, or the request with the studio id resolved. -/
def AddBalance.checkPermission (f : Faults) (tx : Tx) (userID : Nat) (userRole : UserRole)
    (req : AddBalanceRequest) : Except (Response Balance) AddBalanceRequest :=
  if userRole = RoleProvider then
    if req.ProviderID ≠ userID then
      .error (Forbidden "Providers can only add balance for themselves")
    else .ok req
  else if userRole = RoleStudio then
    match First f.studioFirst tx.cur.studios (fun s => s.OwnerID == userID) with
    | .error _ => .error (NotFound "Studio not found")
    | .ok studio =>
      match First f.relationFirst tx.cur.provider_studio_relations
          (fun r => r.ProviderID == req.ProviderID && r.StudioID == studio.ID &&
            r.Status == StatusApproved) with
      | .error _ => .error (Forbidden "Provider is not associated with your studio")
      | .ok _ => .ok { req with StudioID := studio.ID }
  else .ok req

/-- The row filter `player_id = ? AND provider_id = ? AND studio_id = ? AND type = ?`. -/
def AddBalance.sameTuple (req : AddBalanceRequest) (b : Balance) : Bool :=
  b.PlayerID == req.PlayerID && b.ProviderID == req.ProviderID &&
    b.StudioID == req.StudioID && b.Typ == req.Typ

/-- Find or create the balance row (balance.go lines 156 to 179). -/
def AddBalance.findOrCreate (f : Faults) (tx : Tx) (req : AddBalanceRequest) :
    Except (Response Balance) (Balance × Tx) :=
  match First f.balanceFirst tx.cur.balances (AddBalance.sameTuple req) with
  | .ok balance => .ok (balance, tx)
  | .error .ErrRecordNotFound =>
    match CreateBalance f.balanceCreate tx
        { ID := 0, PlayerID := req.PlayerID, ProviderID := req.ProviderID,
          StudioID := req.StudioID, Typ := req.Typ, Amount := 0, FrozenAmount := 0 } with
    | .error _ => .error (InternalServerError "Failed to create balance record")
    | .ok created => .ok created
  | .error .ErrOther => .error (InternalServerError "Database error")

/-- The ledger part of AddBalance (balance.go lines 156 to 219) over an
arithmetic: find or create the row, add the amount, save, log the transaction,
commit, reload the row.  An infinite sum cannot be stored in the amount column:
the save of such a row is a failing save. -/
def AddBalance.creditWith (ar : Arith) (f : Faults) (tx : Tx) (userID : Nat)
    (req : AddBalanceRequest) : Response Balance × DB :=
  match AddBalance.findOrCreate f tx req with
  | .error resp => (resp, Rollback tx)
  | .ok (balance, tx) =>
    let beforeAmount := balance.Amount
    match ar.add balance.Amount req.Amount with
    | none => (InternalServerError "Failed to update balance", Rollback tx)
    | some sum =>
      let balance := { balance with Amount := sum }
      match SaveBalance f.balanceSave tx balance with
      | .error _ => (InternalServerError "Failed to update balance", Rollback tx)
      | .ok tx =>
        let transaction : BalanceTransaction :=
          { ID := 0, BalanceID := balance.ID, Typ := TransactionTypeRecharge,
            Amount := req.Amount, BeforeAmount := beforeAmount, AfterAmount := balance.Amount,
            Description := req.Description, OperatorID := userID }
        match CreateTransaction f.transactionCreate tx transaction with
        | .error _ => (InternalServerError "Failed to create transaction record", Rollback tx)
        | .ok (_, tx) =>
          match Commit f.commit tx with
          | .error _ => (InternalServerError "Failed to commit transaction", tx.base)
          | .ok db =>
            let balance := (db.balances.find? (fun row => row.ID == balance.ID)).getD balance
            (SuccessWithMessage "Balance added successfully" balance, db)

/-- The ledger part of AddBalance with amounts taken as exact decimals. -/
def AddBalance.credit (f : Faults) (tx : Tx) (userID : Nat) (req : AddBalanceRequest) :
    Response Balance × DB :=
  AddBalance.creditWith exactArith f tx userID req

/-- AddBalance (balance.go lines 98 to 219) over an arithmetic: the response and
the committed database after the call. -/
def AddBalanceWith (ar : Arith) (f : Faults) (db : DB) (c : Context)
    (body : Option AddBalanceRequest) : Response Balance × DB :=
  match GetCurrentUserID c with
  | none => (Unauthorized "User not found", db)
  | some userID =>
    match GetCurrentUserRole c with
    | none => (Forbidden "Only providers and studios can add balance", db)
    | some userRole =>
      if userRole ≠ RoleProvider ∧ userRole ≠ RoleStudio then
        (Forbidden "Only providers and studios can add balance", db)
      else
        match ShouldBindJSONWith ar body with
        | .error e => (BadRequest e, db)
        | .ok req =>
          let tx := Begin db
          match AddBalance.checkPermission f tx userID userRole req with
          | .error resp => (resp, Rollback tx)
          | .ok req => AddBalance.creditWith ar f tx userID req

/-- AddBalance with amounts taken as exact decimals, the reading of the
specification: the response and the committed database after the call. -/
def AddBalance (f : Faults) (db : DB) (c : Context) (body : Option AddBalanceRequest) :
    Response Balance × DB :=
  AddBalanceWith exactArith f db c body

/-- AddBalance in `float64` arithmetic, as the program runs it. -/
def AddBalanceFloat64 (f : Faults) (db : DB) (c : Context) (body : Option AddBalanceRequest) :
    Response Balance × DB :=
  AddBalanceWith float64Arith f db c body

/-! ## controllers/studio.go -/

/-- ProcessApplicationRequest: the decoded JSON body. -/
structure ProcessApplicationRequest where
  Status : RelationStatus
  Notes : String
  deriving DecidableEq, Repr

/-- The binding tag `required,oneof=approved rejected` on Status. -/
def ProcessApplicationRequest.valid (req : ProcessApplicationRequest) : Bool :=
  req.Status != "" && (req.Status == StatusApproved || req.Status == StatusRejected)

/-- ProcessApplication (studio.go lines 307 to 362).  `id` is the value that
`ParseUint(id, 10, 32)` returned for the path parameter (line 309), `none` when
it returned an error; `now` is the clock; `fail` tells whether the update fails.
The relation is found by primary key and its studio is preloaded by primary key
(the zero studio when there is none). -/
def ProcessApplication (fail : Bool) (db : DB) (c : Context) (id : Option Nat)
    (body : Option ProcessApplicationRequest) (now : Nat) :
    Response ProviderStudioRelation × DB :=
  match id with
  | none => (BadRequest "Invalid relation ID", db)
  | some relationID =>
    match GetCurrentUserID c with
    | none => (Unauthorized "User not found", db)
    | some userID =>
      match body with
      | none => (BadRequest "invalid request body", db)
      | some req =>
        if !req.valid then (BadRequest "validation failed", db)
        else
          match db.provider_studio_relations.find? (fun r => r.ID == relationID) with
          | none => (NotFound "Application not found", db)
          | some relation =>
            let studio : Studio :=
              (db.studios.find? (fun s => s.ID == relation.StudioID)).getD
                { ID := 0, Name := "", OwnerID := 0 }
            if studio.OwnerID ≠ userID then
              (Forbidden "Only studio owner can process applications", db)
            else if relation.Status ≠ StatusPending then
              (BadRequest "Application has already been processed", db)
            else if fail then
              (InternalServerError "Failed to process application", db)
            else
              let updated : ProviderStudioRelation :=
                { relation with Status := req.Status, ProcessedAt := some now, Notes := req.Notes }
              (SuccessWithMessage "Application processed successfully" updated,
                { db with provider_studio_relations :=
                    db.provider_studio_relations.map (fun r =>
                      if r.ID = relation.ID then
                        { r with Status := req.Status, ProcessedAt := some now, Notes := req.Notes }
                      else r) })

/-- The common body of the request types of CreateStudio and UpdateStudio
(CreateStudioRequest); the descriptive fields are left out with the columns. -/
structure CreateStudioRequest where
  Name : String
  deriving DecidableEq, Repr

/-- The binding tag `required,min=1,max=100` on Name. -/
def CreateStudioRequest.valid (req : CreateStudioRequest) : Bool :=
  req.Name != "" && decide (1 ≤ req.Name.length) && decide (req.Name.length ≤ 100)

/-- CreateStudio (studio.go lines 39 to 80).  `failNameFirst` tells whether the
lookup of the name fails (the code then goes on to the insert), `fail` whether
the insert fails. -/
def CreateStudio (failNameFirst fail : Bool) (db : DB) (c : Context)
    (body : Option CreateStudioRequest) : Response Studio × DB :=
  match GetCurrentUserID c with
  | none => (Unauthorized "User not found", db)
  | some userID =>
    match body with
    | none => (BadRequest "invalid request body", db)
    | some req =>
      if !req.valid then (BadRequest "validation failed", db)
      else
        match First failNameFirst db.studios (fun s => s.Name == req.Name) with
        | .ok _ => (BadRequest "Studio name already exists", db)
        | .error _ =>
          if fail then (InternalServerError "Failed to create studio", db)
          else
            let studio : Studio :=
              { ID := nextID (db.studios.map (·.ID)), Name := req.Name, OwnerID := userID }
            (SuccessWithMessage "Studio created successfully" studio,
              { db with studios := db.studios ++ [studio] })

/-- UpdateStudio (studio.go lines 141 to 188).  `id` is the value that
`ParseUint(id, 10, 32)` returned for the path parameter (line 143), `none` when
it returned an error; `fail` tells whether the update fails. -/
def UpdateStudio (fail : Bool) (db : DB) (c : Context) (id : Option Nat)
    (body : Option CreateStudioRequest) : Response Studio × DB :=
  match id with
  | none => (BadRequest "Invalid studio ID", db)
  | some studioID =>
    match GetCurrentUserID c with
    | none => (Unauthorized "User not found", db)
    | some userID =>
      match body with
      | none => (BadRequest "invalid request body", db)
      | some req =>
        if !req.valid then (BadRequest "validation failed", db)
        else
          match db.studios.find? (fun s => s.ID == studioID) with
          | none => (NotFound "Studio not found", db)
          | some studio =>
            if studio.OwnerID ≠ userID then
              (Forbidden "Only studio owner can update studio information", db)
            else if fail then (InternalServerError "Failed to update studio", db)
            else
              (SuccessWithMessage "Studio updated successfully" { studio with Name := req.Name },
                { db with studios :=
                    db.studios.map (fun s =>
                      if s.ID = studio.ID then { s with Name := req.Name } else s) })

/-- ApplyToJoinStudio (studio.go lines 191 to 244).  `id` is the value that
`ParseUint(id, 10, 32)` returned for the path parameter (line 193), `none` when
it returned an error; `body` is the decoded notes, `none` when the body does not
decode; `now` is the clock.  `failRelationFirst` tells
whether the lookup of an existing relation fails (the code then goes on to the
insert), `failCreate` whether the insert fails. -/
def ApplyToJoinStudio (failRelationFirst failCreate : Bool) (db : DB) (c : Context)
    (id : Option Nat) (body : Option String) (now : Nat) :
    Response ProviderStudioRelation × DB :=
  match id with
  | none => (BadRequest "Invalid studio ID", db)
  | some studioID =>
    match GetCurrentUserID c with
    | none => (Unauthorized "User not found", db)
    | some userID =>
      match body with
      | none => (BadRequest "invalid request body", db)
      | some notes =>
        match db.studios.find? (fun s => s.ID == studioID) with
        | none => (NotFound "Studio not found", db)
        | some _ =>
          match First failRelationFirst db.provider_studio_relations
              (fun r => r.ProviderID == userID && r.StudioID == studioID) with
          | .ok _ => (BadRequest "Application already exists", db)
          | .error _ =>
            if failCreate then (InternalServerError "Failed to create application", db)
            else
              let relation : ProviderStudioRelation :=
                { ID := nextID (db.provider_studio_relations.map (·.ID)), ProviderID := userID,
                  StudioID := studioID, Status := StatusPending, AppliedAt := now,
                  ProcessedAt := none, Notes := notes }
              (SuccessWithMessage "Application submitted successfully" relation,
                { db with provider_studio_relations :=
                    db.provider_studio_relations ++ [relation] })

/-! ## controllers/balance.go, read paths -/

/-- Go `int` arithmetic on the 64 bit targets: the result of an operation is
reduced to the two's complement range. -/
def wrapInt (x : Int) : Int :=
  (x + 2 ^ 63) % 2 ^ 64 - 2 ^ 63

/-- The effective page, page size and query offset. -/
structure Pagination where
  page : Int
  pageSize : Int
  offset : Int
  deriving DecidableEq, Repr

/-- The pagination block of the read handlers (balance.go lines 42 to 49 and 254
to 261).  `page` and `pageSize` are the values `strconv.Atoi` returned for the
query parameters: 0 for a text that is not a number, the defaults 1 and 10 when
the parameter is absent. -/
def pagination (page pageSize : Int) : Pagination :=
  let page := if page < 1 then 1 else page
  let pageSize := if pageSize < 1 ∨ pageSize > 100 then 10 else pageSize
  { page := page, pageSize := pageSize, offset := wrapInt (wrapInt (page - 1) * pageSize) }

/-- PageResponse of utils/response.go; the field `list` is its `List`. -/
structure PageResponse (α : Type) where
  list : List α
  Total : Int
  Page : Int
  PageSize : Int
  deriving DecidableEq, Repr

def Success {α : Type} (data : α) : Response α :=
  .Success "success" data

def PageSuccess {α : Type} (list : List α) (total : Int) (page pageSize : Int) :
    Response (PageResponse α) :=
  Success { list := list, Total := total, Page := page, PageSize := pageSize }

/-- Which database calls of GetBalanceTransactions fail: the balance lookup (line
240, with an error other than ErrRecordNotFound), the count (269, its error is
ignored) and the page query (272). -/
structure ReadFaults where
  balanceFirst : Bool
  count : Bool
  find : Bool
  deriving DecidableEq, Repr

/-- The call `strconv.ParseUint(s, 10, bitSize)` on a path parameter.  `param` is
the number that the text denotes, `none` when the text is not an unsigned
decimal number; a number that does not fit in `bitSize` bits is an error. -/
def ParseUint (param : Option Nat) (bitSize : Nat) : Option Nat :=
  match param with
  | none => none
  | some n => if n < 2 ^ bitSize then some n else none

/-- GetBalanceTransactions (balance.go lines 222 to 278).  `id` is the number
that the path parameter denotes, `none` when it is not an unsigned decimal
number; it is parsed with `ParseUint(id, 10, 32)` (line 230).
`transactionType` is the query parameter `type`, empty when absent.  SQL
equality is equality of values; `created_at DESC` is the reverse of the creation
order; a non-positive offset adds no OFFSET clause. -/
def GetBalanceTransactions (f : ReadFaults) (db : DB) (c : Context) (id : Option Nat)
    (page pageSize : Int) (transactionType : String) :
    Response (PageResponse BalanceTransaction) :=
  match GetCurrentUserID c with
  | none => Unauthorized "User not found"
  | some userID =>
    match ParseUint id 32 with
    | none => BadRequest "Invalid balance ID"
    | some balanceID =>
      match First f.balanceFirst db.balances
          (fun b => b.ID == balanceID && b.PlayerID == userID) with
      | .error .ErrRecordNotFound => Forbidden "Access denied"
      | .error .ErrOther => InternalServerError "Database error"
      | .ok _ =>
        let p := pagination page pageSize
        let query := db.balance_transactions.filter (fun t =>
          t.BalanceID == balanceID && (transactionType == "" || t.Typ == transactionType))
        let total : Int := if f.count then 0 else query.length
        if f.find then InternalServerError "Failed to get transactions"
        else
          PageSuccess ((query.reverse.drop p.offset.toNat).take p.pageSize.toNat) total
            p.page p.pageSize

/-! ## Observations used in the statements -/

/-- The row inserted by AddBalance for a tuple without a row, with its primary key. -/
def AddBalance.newRow (db : DB) (req : AddBalanceRequest) : Balance :=
  { ID := nextID (db.balances.map (·.ID)), PlayerID := req.PlayerID,
    ProviderID := req.ProviderID, StudioID := req.StudioID, Typ := req.Typ,
    Amount := 0, FrozenAmount := 0 }

/-- The transaction row appended by a credit of `req` by `userID` to the row `b0`. -/
def AddBalance.logEntry (db : DB) (userID : Nat) (req : AddBalanceRequest) (b0 : Balance) :
    BalanceTransaction :=
  { ID := nextID (db.balance_transactions.map (·.ID)), BalanceID := b0.ID,
    Typ := TransactionTypeRecharge, Amount := req.Amount, BeforeAmount := b0.Amount,
    AfterAmount := b0.Amount + req.Amount, Description := req.Description,
    OperatorID := userID }

/-- The tuple (player, provider, studio, type) of a balance row. -/
def Balance.key (b : Balance) : Nat × Nat × Nat × BalanceType :=
  (b.PlayerID, b.ProviderID, b.StudioID, b.Typ)

/-- The tuple (player, provider, studio, type) a request asks to credit. -/
def AddBalanceRequest.key (req : AddBalanceRequest) : Nat × Nat × Nat × BalanceType :=
  (req.PlayerID, req.ProviderID, req.StudioID, req.Typ)

/-- The balance row of a tuple: the first row a lookup on the tuple finds. -/
def DB.balanceOf (db : DB) (k : Nat × Nat × Nat × BalanceType) : Option Balance :=
  db.balances.find? (fun b => b.key == k)

/-- The transaction rows of a balance, in creation order. -/
def DB.logOf (db : DB) (balanceID : Nat) : List BalanceTransaction :=
  db.balance_transactions.filter (fun t => t.BalanceID == balanceID)

/-- One call of AddBalance with a decodable body: the faults, the context and the
decoded body. -/
structure Call where
  f : Faults
  c : Context
  req : AddBalanceRequest
  deriving DecidableEq, Repr

/-- The response and the committed database of one call. -/
def Call.result (db : DB) (call : Call) : Response Balance × DB :=
  AddBalance call.f db call.c (some call.req)

/-- The committed database after a sequence of calls made in turn. -/
def runCalls (db : DB) : List Call → DB
  | [] => db
  | call :: rest => runCalls (call.result db).2 rest

/-- Every call of the sequence, made in turn, answers with a success whose
balance row has the tuple `k`. -/
def creditsTo (k : Nat × Nat × Nat × BalanceType) (db : DB) : List Call → Bool
  | [] => true
  | call :: rest =>
    (match (call.result db).1 with
      | .Success _ b => b.key == k
      | .Error _ _ => false) && creditsTo k (call.result db).2 rest

/-- A call of one of the handlers that write to the four tables. -/
inductive Op where
  | addBalance (f : Faults) (c : Context) (body : Option AddBalanceRequest)
  | processApplication (fail : Bool) (c : Context) (id : Option Nat)
      (body : Option ProcessApplicationRequest) (now : Nat)
  | applyToJoinStudio (failRelationFirst failCreate : Bool) (c : Context) (id : Option Nat)
      (body : Option String) (now : Nat)
  | createStudio (failNameFirst fail : Bool) (c : Context) (body : Option CreateStudioRequest)
  | updateStudio (fail : Bool) (c : Context) (id : Option Nat)
      (body : Option CreateStudioRequest)

/-- The committed database after one call. -/
def Op.apply (db : DB) : Op → DB
  | .addBalance f c body => (AddBalance f db c body).2
  | .processApplication fail c id body now => (ProcessApplication fail db c id body now).2
  | .applyToJoinStudio f1 f2 c id body now => (ApplyToJoinStudio f1 f2 db c id body now).2
  | .createStudio f1 fail c body => (CreateStudio f1 fail db c body).2
  | .updateStudio fail c id body => (UpdateStudio fail db c id body).2

/-- The committed database after a sequence of calls made in turn. -/
def runOps (db : DB) : List Op → DB
  | [] => db
  | op :: rest => runOps (op.apply db) rest

/-- The committed database after one call, over an arithmetic of amounts. -/
def Op.applyWith (ar : Arith) (db : DB) : Op → DB
  | .addBalance f c body => (AddBalanceWith ar f db c body).2
  | .processApplication fail c id body now => (ProcessApplication fail db c id body now).2
  | .applyToJoinStudio f1 f2 c id body now => (ApplyToJoinStudio f1 f2 db c id body now).2
  | .createStudio f1 fail c body => (CreateStudio f1 fail db c body).2
  | .updateStudio fail c id body => (UpdateStudio fail db c id body).2

/-- The committed database after a sequence of calls made in turn, over an
arithmetic of amounts. -/
def runOpsWith (ar : Arith) (db : DB) : List Op → DB
  | [] => db
  | op :: rest => runOpsWith ar (op.applyWith ar db) rest

/-! ## Scenario data -/

/-- The empty database. -/
def emptyDB : DB :=
  { studios := [], provider_studio_relations := [], balances := [], balance_transactions := [] }

/-- The studio scenario of the specification: user 9 owns studio 2, provider 3 has
an approved relation with studio 2. -/
def studioScenarioDB : DB :=
  { studios := [⟨2, "two", 9⟩],
    provider_studio_relations := [⟨1, 3, 2, StatusApproved, 0, some 1, ""⟩],
    balances := [], balance_transactions := [] }

/-- A ledger with two balance rows of player 7 with provider 3, one without a
studio and one under studio 2, and the log of their first credits. -/
def twoRowsDB : DB :=
  { studios := [⟨2, "two", 9⟩],
    provider_studio_relations := [⟨1, 3, 2, StatusApproved, 0, some 1, ""⟩],
    balances := [⟨1, 7, 3, 0, BalanceTypeMoney, 100, 0⟩, ⟨2, 7, 3, 2, BalanceTypeMoney, 5, 0⟩],
    balance_transactions :=
      [⟨1, 1, TransactionTypeRecharge, 100, 0, 100, "a", 3⟩,
       ⟨2, 2, TransactionTypeRecharge, 5, 0, 5, "b", 9⟩] }

/-- The invariant of the ledger tables: every balance row has frozen amount 0, a
positive amount and a transaction; every transaction refers to a balance row,
has type recharge and a positive amount. -/
def ledgerInvariant (db : DB) : Prop :=
  (∀ b ∈ db.balances, b.FrozenAmount = 0 ∧ 0 < b.Amount ∧
    ∃ t ∈ db.balance_transactions, t.BalanceID = b.ID) ∧
  (∀ t ∈ db.balance_transactions, (∃ b ∈ db.balances, b.ID = t.BalanceID) ∧
    t.Typ = TransactionTypeRecharge ∧ 0 < t.Amount)

/-- The invariant of the ledger tables in `float64` arithmetic: the invariant of
the ledger tables, and the amount of every balance row is a `float64` value
(rounding leaves it as it is). -/
def ledgerInvariantFloat64 (db : DB) : Prop :=
  ledgerInvariant db ∧ ∀ b ∈ db.balances, roundFloat64 b.Amount = some b.Amount

/-! ## The exact decimal reading, unfolded -/

theorem ShouldBindJSONWith_exact (body : Option AddBalanceRequest) :
    ShouldBindJSONWith exactArith body = ShouldBindJSON body := by
  cases body with
  | none => rfl
  | some raw => rfl

/-- The ledger part with exact decimals adds the two amounts. -/
theorem AddBalance.credit_def (f : Faults) (tx : Tx) (userID : Nat) (req : AddBalanceRequest) :
    AddBalance.credit f tx userID req =
      match AddBalance.findOrCreate f tx req with
      | .error resp => (resp, Rollback tx)
      | .ok (balance, tx) =>
        let beforeAmount := balance.Amount
        let balance := { balance with Amount := balance.Amount + req.Amount }
        match SaveBalance f.balanceSave tx balance with
        | .error _ => (InternalServerError "Failed to update balance", Rollback tx)
        | .ok tx =>
          let transaction : BalanceTransaction :=
            { ID := 0, BalanceID := balance.ID, Typ := TransactionTypeRecharge,
              Amount := req.Amount, BeforeAmount := beforeAmount, AfterAmount := balance.Amount,
              Description := req.Description, OperatorID := userID }
          match CreateTransaction f.transactionCreate tx transaction with
          | .error _ => (InternalServerError "Failed to create transaction record", Rollback tx)
          | .ok (_, tx) =>
            match Commit f.commit tx with
            | .error _ => (InternalServerError "Failed to commit transaction", tx.base)
            | .ok db =>
              let balance := (db.balances.find? (fun row => row.ID == balance.ID)).getD balance
              (SuccessWithMessage "Balance added successfully" balance, db) := by
  unfold AddBalance.credit AddBalance.creditWith
  rfl

/-- AddBalance with exact decimals, step by step. -/
theorem AddBalance_def (f : Faults) (db : DB) (c : Context) (body : Option AddBalanceRequest) :
    AddBalance f db c body =
      match GetCurrentUserID c with
      | none => (Unauthorized "User not found", db)
      | some userID =>
        match GetCurrentUserRole c with
        | none => (Forbidden "Only providers and studios can add balance", db)
        | some userRole =>
          if userRole ≠ RoleProvider ∧ userRole ≠ RoleStudio then
            (Forbidden "Only providers and studios can add balance", db)
          else
            match ShouldBindJSON body with
            | .error e => (BadRequest e, db)
            | .ok req =>
              let tx := Begin db
              match AddBalance.checkPermission f tx userID userRole req with
              | .error resp => (resp, Rollback tx)
              | .ok req => AddBalance.credit f tx userID req := by
  unfold AddBalance AddBalanceWith
  rw [ShouldBindJSONWith_exact]
  rfl

/-! ## Lemmas on the database calls -/

theorem find_after_save (b : Balance) (rows : List Balance)
    (h : ∃ row ∈ rows, row.ID = b.ID) :
    (rows.map (fun row => if row.ID = b.ID then b else row)).find? (fun row => row.ID == b.ID)
      = some b := by
  induction rows with
  | nil => simp at h
  | cons r rest ih =>
    by_cases hr : r.ID = b.ID
    · simp [List.find?, hr]
    · have h2 : ∃ row ∈ rest, row.ID = b.ID := by
        obtain ⟨row, hmem, hid⟩ := h
        rcases List.mem_cons.1 hmem with heq | hin
        · exact absurd (heq ▸ hid) hr
        · exact ⟨row, hin, hid⟩
      have hb : (r.ID == b.ID) = false := by simpa using hr
      simp [List.find?, hr, hb, ih h2]

theorem lt_nextID (ids : List Nat) (x : Nat) (h : x ∈ ids) : x < nextID ids := by
  induction ids with
  | nil => simp at h
  | cons y rest ih =>
    simp only [nextID, List.foldr_cons] at ih ⊢
    rcases List.mem_cons.1 h with heq | hin
    · subst heq
      omega
    · have := ih hin
      omega

theorem save_fresh (b : Balance) (rows : List Balance)
    (h : ∀ row ∈ rows, row.ID ≠ b.ID) :
    rows.map (fun row => if row.ID = b.ID then b else row) = rows := by
  induction rows with
  | nil => rfl
  | cons r rest ih =>
    have hr : r.ID ≠ b.ID := h r (List.mem_cons_self _ _)
    have hrest : ∀ row ∈ rest, row.ID ≠ b.ID := fun row hin => h row (List.mem_cons_of_mem _ hin)
    simp [hr, ih hrest]

theorem newRow_fresh (db : DB) (req : AddBalanceRequest) :
    ∀ row ∈ db.balances, row.ID ≠ (AddBalance.newRow db req).ID := by
  intro row hin
  have : row.ID < nextID (db.balances.map (·.ID)) :=
    lt_nextID _ _ (List.mem_map.2 ⟨row, hin, rfl⟩)
  simp only [AddBalance.newRow]
  omega

theorem credit_core (f : Faults) (db : DB) (userID : Nat) (req : AddBalanceRequest)
    (b0 : Balance) (bals : List Balance)
    (hfc : AddBalance.findOrCreate f (Begin db) req =
      .ok (b0, { base := db, cur := { db with balances := bals } }))
    (hmem : ∃ row ∈ bals, row.ID = b0.ID) :
    AddBalance.credit f (Begin db) userID req =
      if f.balanceSave then (InternalServerError "Failed to update balance", db)
      else if f.transactionCreate then
        (InternalServerError "Failed to create transaction record", db)
      else if f.commit then (InternalServerError "Failed to commit transaction", db)
      else
        (SuccessWithMessage "Balance added successfully"
            { b0 with Amount := b0.Amount + req.Amount },
          { db with
            balances := bals.map (fun row =>
              if row.ID = b0.ID then { b0 with Amount := b0.Amount + req.Amount } else row)
            balance_transactions :=
              db.balance_transactions ++ [AddBalance.logEntry db userID req b0] }) := by
  have hre := find_after_save { b0 with Amount := b0.Amount + req.Amount } bals hmem
  simp only [] at hre
  rw [AddBalance.credit_def]
  rw [hfc]
  by_cases h2 : f.balanceSave <;> by_cases h3 : f.transactionCreate <;>
    by_cases h4 : f.commit <;>
    simp only [SaveBalance, CreateTransaction, Commit, Rollback, AddBalance.logEntry, h2, h3, h4,
      if_true, if_false, hre, Option.getD_some, Bool.false_eq_true]

theorem credit_found (f : Faults) (db : DB) (userID : Nat) (req : AddBalanceRequest)
    (b0 : Balance) (hfind : db.balances.find? (AddBalance.sameTuple req) = some b0) :
    AddBalance.credit f (Begin db) userID req =
      if f.balanceFirst then (InternalServerError "Database error", db)
      else if f.balanceSave then (InternalServerError "Failed to update balance", db)
      else if f.transactionCreate then
        (InternalServerError "Failed to create transaction record", db)
      else if f.commit then (InternalServerError "Failed to commit transaction", db)
      else
        (SuccessWithMessage "Balance added successfully"
            { b0 with Amount := b0.Amount + req.Amount },
          { db with
            balances := db.balances.map (fun row =>
              if row.ID = b0.ID then { b0 with Amount := b0.Amount + req.Amount } else row)
            balance_transactions :=
              db.balance_transactions ++ [AddBalance.logEntry db userID req b0] }) := by
  by_cases h1 : f.balanceFirst
  · simp [AddBalance.credit_def, AddBalance.findOrCreate, First, Begin, Rollback, h1]
  · have hfc : AddBalance.findOrCreate f (Begin db) req =
        .ok (b0, { base := db, cur := { db with balances := db.balances } }) := by
      simp [AddBalance.findOrCreate, First, Begin, h1, hfind]
    rw [credit_core f db userID req b0 db.balances hfc
      ⟨b0, List.mem_of_find?_eq_some hfind, rfl⟩]
    simp [h1]

theorem credit_absent (f : Faults) (db : DB) (userID : Nat) (req : AddBalanceRequest)
    (hfind : db.balances.find? (AddBalance.sameTuple req) = none) :
    AddBalance.credit f (Begin db) userID req =
      if f.balanceFirst then (InternalServerError "Database error", db)
      else if f.balanceCreate then
        (InternalServerError "Failed to create balance record", db)
      else if f.balanceSave then (InternalServerError "Failed to update balance", db)
      else if f.transactionCreate then
        (InternalServerError "Failed to create transaction record", db)
      else if f.commit then (InternalServerError "Failed to commit transaction", db)
      else
        (SuccessWithMessage "Balance added successfully"
            { AddBalance.newRow db req with Amount := req.Amount },
          { db with
            balances := db.balances ++ [{ AddBalance.newRow db req with Amount := req.Amount }]
            balance_transactions :=
              db.balance_transactions ++
                [AddBalance.logEntry db userID req (AddBalance.newRow db req)] }) := by
  by_cases h1 : f.balanceFirst
  · simp [AddBalance.credit_def, AddBalance.findOrCreate, First, Begin, Rollback, h1]
  by_cases h0 : f.balanceCreate
  · simp [AddBalance.credit_def, AddBalance.findOrCreate, First, CreateBalance, Begin, Rollback, h1,
      h0, hfind]
  have hfc : AddBalance.findOrCreate f (Begin db) req =
      .ok (AddBalance.newRow db req, { base := db, cur := { db with
        balances := db.balances ++ [AddBalance.newRow db req] } }) := by
    simp [AddBalance.findOrCreate, First, CreateBalance, Begin, h1, h0, hfind, AddBalance.newRow]
  rw [credit_core f db userID req (AddBalance.newRow db req) _ hfc
    ⟨AddBalance.newRow db req, by simp, rfl⟩]
  have hzero : (AddBalance.newRow db req).Amount + req.Amount = req.Amount := by
    simp [AddBalance.newRow]
  have hsave := save_fresh
    { AddBalance.newRow db req with Amount := (AddBalance.newRow db req).Amount + req.Amount }
    db.balances (newRow_fresh db req)
  simp only [hzero] at hsave
  simp only [h1, h0, if_false, Bool.false_eq_true, List.map_append, List.map_cons, List.map_nil,
    if_true, hsave, hzero]

theorem sameTuple_eq_key (req : AddBalanceRequest) :
    AddBalance.sameTuple req = fun b => b.key == req.key := by
  funext b
  rw [Bool.eq_iff_iff]
  simp [AddBalance.sameTuple, Balance.key, AddBalanceRequest.key, and_assoc]

theorem find_sameTuple (db : DB) (req : AddBalanceRequest) :
    db.balances.find? (AddBalance.sameTuple req) = db.balanceOf req.key := by
  rw [sameTuple_eq_key]
  rfl

/-- The permission check changes no field of the request but the studio id. -/
theorem checkPermission_fields (f : Faults) (tx : Tx) (userID : Nat) (userRole : UserRole)
    (req req2 : AddBalanceRequest)
    (h : AddBalance.checkPermission f tx userID userRole req = .ok req2) :
    req2.PlayerID = req.PlayerID ∧ req2.ProviderID = req.ProviderID ∧ req2.Typ = req.Typ ∧
      req2.Amount = req.Amount ∧ req2.Description = req.Description := by
  unfold AddBalance.checkPermission at h
  split at h
  · split at h
    · cases h
    · cases h
      simp
  · split at h
    · split at h
      · cases h
      · split at h
        · cases h
        · cases h
          simp
    · cases h
      simp

/-- A call that passes the role check, the binding and the permission check is
the ledger part run on the resolved request. -/
theorem AddBalance_authorized (f : Faults) (db : DB) (c : Context)
    (body : Option AddBalanceRequest) (userID : Nat) (userRole : UserRole)
    (req req2 : AddBalanceRequest)
    (hid : GetCurrentUserID c = some userID) (hrole : GetCurrentUserRole c = some userRole)
    (hr : userRole = RoleProvider ∨ userRole = RoleStudio)
    (hbind : ShouldBindJSON body = .ok req)
    (hperm : AddBalance.checkPermission f (Begin db) userID userRole req = .ok req2) :
    AddBalance f db c body = AddBalance.credit f (Begin db) userID req2 := by
  have hr2 : ¬ (userRole ≠ RoleProvider ∧ userRole ≠ RoleStudio) := by
    rintro ⟨h1, h2⟩
    rcases hr with h | h
    · exact h1 h
    · exact h2 h
  simp only [AddBalance_def, hid, hrole, hr2, if_false, hbind, hperm]

/-- A successful call passed every check and its ledger part succeeded. -/
theorem AddBalance_success_inv (f : Faults) (db db2 : DB) (c : Context)
    (body : Option AddBalanceRequest) (msg : String) (b : Balance)
    (h : AddBalance f db c body = (Response.Success msg b, db2)) :
    ∃ userID userRole req req2, GetCurrentUserID c = some userID ∧
      GetCurrentUserRole c = some userRole ∧
      (userRole = RoleProvider ∨ userRole = RoleStudio) ∧
      body = some req ∧ req.valid = true ∧
      AddBalance.checkPermission f (Begin db) userID userRole req = .ok req2 ∧
      AddBalance.credit f (Begin db) userID req2 = (Response.Success msg b, db2) := by
  rw [AddBalance_def] at h
  split at h
  · simp [Unauthorized] at h
  · rename_i userID hid
    split at h
    · simp [Forbidden] at h
    · rename_i userRole hrole
      split at h
      · simp [Forbidden] at h
      · rename_i hr
        split at h
        · simp [BadRequest] at h
        · rename_i req hbind
          have hb : body = some req ∧ req.valid = true := by
            unfold ShouldBindJSON at hbind
            split at hbind
            · cases hbind
            · split at hbind
              · rename_i hv
                cases hbind
                exact ⟨rfl, hv⟩
              · cases hbind
          simp only [] at h
          split at h
          · rename_i resp hperm
            exfalso
            unfold AddBalance.checkPermission at hperm
            simp only [Rollback, Prod.mk.injEq] at h
            obtain ⟨h1, -⟩ := h
            subst h1
            split at hperm
            · split at hperm
              · simp [Forbidden] at hperm
              · cases hperm
            · split at hperm
              · split at hperm
                · simp [NotFound] at hperm
                · split at hperm
                  · simp [Forbidden] at hperm
                  · cases hperm
              · cases hperm
          · rename_i req2 hperm
            refine ⟨userID, userRole, req, req2, hid, hrole, ?_, hb.1, hb.2, hperm, h⟩
            by_cases hp : userRole = RoleProvider
            · exact Or.inl hp
            · by_cases hs : userRole = RoleStudio
              · exact Or.inr hs
              · exact absurd ⟨hp, hs⟩ hr

/-- A successful ledger part: the row that was read or created, the row that was
saved, and the committed tables. -/
theorem credit_success_inv (f : Faults) (db db2 : DB) (userID : Nat) (req : AddBalanceRequest)
    (msg : String) (b : Balance)
    (h : AddBalance.credit f (Begin db) userID req = (Response.Success msg b, db2)) :
    (∃ b0, db.balanceOf req.key = some b0 ∧
        b = { b0 with Amount := b0.Amount + req.Amount } ∧
        db2 = { db with
          balances := db.balances.map (fun row => if row.ID = b0.ID then b else row)
          balance_transactions :=
            db.balance_transactions ++ [AddBalance.logEntry db userID req b0] }) ∨
    (db.balanceOf req.key = none ∧
        b = { AddBalance.newRow db req with Amount := req.Amount } ∧
        db2 = { db with
          balances := db.balances ++ [b]
          balance_transactions :=
            db.balance_transactions ++
              [AddBalance.logEntry db userID req (AddBalance.newRow db req)] }) := by
  cases hfind : db.balances.find? (AddBalance.sameTuple req) with
  | some b0 =>
    left
    rw [credit_found f db userID req b0 hfind] at h
    refine ⟨b0, by rw [← find_sameTuple, hfind], ?_⟩
    split at h
    · simp [InternalServerError] at h
    split at h
    · simp [InternalServerError] at h
    split at h
    · simp [InternalServerError] at h
    split at h
    · simp [InternalServerError] at h
    simp only [SuccessWithMessage, Prod.mk.injEq, Response.Success.injEq] at h
    obtain ⟨⟨-, hb⟩, hdb⟩ := h
    subst hb
    exact ⟨rfl, hdb.symm⟩
  | none =>
    right
    rw [credit_absent f db userID req hfind] at h
    refine ⟨by rw [← find_sameTuple, hfind], ?_⟩
    split at h
    · simp [InternalServerError] at h
    split at h
    · simp [InternalServerError] at h
    split at h
    · simp [InternalServerError] at h
    split at h
    · simp [InternalServerError] at h
    split at h
    · simp [InternalServerError] at h
    simp only [SuccessWithMessage, Prod.mk.injEq, Response.Success.injEq] at h
    obtain ⟨⟨-, hb⟩, hdb⟩ := h
    subst hb
    exact ⟨rfl, hdb.symm⟩

/-- The ledger part either commits nothing or answers with a success. -/
theorem credit_unchanged_or_success (f : Faults) (db : DB) (userID : Nat)
    (req : AddBalanceRequest) :
    (∃ m, AddBalance.credit f (Begin db) userID req = (InternalServerError m, db)) ∨
      ∃ msg b, (AddBalance.credit f (Begin db) userID req).1 = Response.Success msg b := by
  cases hfind : db.balances.find? (AddBalance.sameTuple req) with
  | some b0 =>
    rw [credit_found f db userID req b0 hfind]
    by_cases h1 : f.balanceFirst <;> by_cases h2 : f.balanceSave <;>
      by_cases h3 : f.transactionCreate <;> by_cases h4 : f.commit <;>
      simp [h1, h2, h3, h4, SuccessWithMessage, InternalServerError]
  | none =>
    rw [credit_absent f db userID req hfind]
    by_cases h1 : f.balanceFirst <;> by_cases h0 : f.balanceCreate <;>
      by_cases h2 : f.balanceSave <;>
      by_cases h3 : f.transactionCreate <;> by_cases h4 : f.commit <;>
      simp [h1, h0, h2, h3, h4, SuccessWithMessage, InternalServerError]

/-- A call that does not answer with a success commits nothing. -/
theorem AddBalance_error_unchanged (f : Faults) (db : DB) (c : Context)
    (body : Option AddBalanceRequest) (code : Nat) (m : String)
    (h : (AddBalance f db c body).1 = Response.Error code m) :
    (AddBalance f db c body).2 = db := by
  cases hid : GetCurrentUserID c with
  | none => simp only [AddBalance_def, hid]
  | some userID =>
    cases hrole : GetCurrentUserRole c with
    | none => simp only [AddBalance_def, hid, hrole]
    | some userRole =>
      by_cases hr : userRole ≠ RoleProvider ∧ userRole ≠ RoleStudio
      · simp only [AddBalance_def, hid, hrole]
        rw [if_pos hr]
      · cases hbind : ShouldBindJSON body with
        | error e => simp only [AddBalance_def, hid, hrole, hr, if_false, hbind]
        | ok req =>
          cases hperm : AddBalance.checkPermission f (Begin db) userID userRole req with
          | error resp =>
            simp only [AddBalance_def, hid, hrole, hr, if_false, hbind, hperm]
            rfl
          | ok req2 =>
            have hcall : AddBalance f db c body = AddBalance.credit f (Begin db) userID req2 := by
              simp only [AddBalance_def, hid, hrole, hr, if_false, hbind, hperm]
            rw [hcall] at h ⊢
            rcases credit_unchanged_or_success f db userID req2 with ⟨m2, h2⟩ | ⟨msg, b, h2⟩
            · rw [h2]
            · rw [h2] at h
              cases h

theorem find_pred_after_save (p : Balance → Bool) (b0 b : Balance) (rows : List Balance)
    (hfind : rows.find? p = some b0) (hp : p b = true) :
    (rows.map (fun row => if row.ID = b0.ID then b else row)).find? p = some b := by
  induction rows with
  | nil => simp at hfind
  | cons r rest ih =>
    by_cases hr : r.ID = b0.ID
    · simp [List.find?, hr, hp]
    · by_cases hpr : p r = true
      · simp only [List.find?, hpr, Option.some.injEq] at hfind
        exact absurd (hfind ▸ rfl) hr
      · have hpr2 : p r = false := by simpa using hpr
        simp only [List.find?, hpr2] at hfind
        simp [List.find?, hr, hpr2, ih hfind]

/-- The tables after a successful call, in terms of the resolved request: the
row of the tuple holds the old amount plus the credited amount, and one
transaction row was appended. -/
theorem AddBalance_success_shape (f : Faults) (db db2 : DB) (c : Context)
    (body : Option AddBalanceRequest) (msg : String) (b : Balance)
    (h : AddBalance f db c body = (Response.Success msg b, db2)) :
    ∃ userID userRole req req2, GetCurrentUserID c = some userID ∧
      GetCurrentUserRole c = some userRole ∧
      (userRole = RoleProvider ∨ userRole = RoleStudio) ∧
      body = some req ∧ req.valid = true ∧
      AddBalance.checkPermission f (Begin db) userID userRole req = .ok req2 ∧
      b.key = req2.key ∧
      b.Amount = ((db.balanceOf req2.key).map (·.Amount)).getD 0 + req2.Amount ∧
      db2.balanceOf req2.key = some b ∧
      db2.balances.find? (fun row => row.ID == b.ID) = some b ∧
      (∀ b0, db.balanceOf req2.key = some b0 → b.ID = b0.ID) ∧
      (db.balanceOf req2.key = none → b.ID = nextID (db.balances.map (·.ID))) ∧
      db2.balance_transactions = db.balance_transactions ++
        [{ ID := nextID (db.balance_transactions.map (·.ID)), BalanceID := b.ID,
           Typ := TransactionTypeRecharge, Amount := req2.Amount,
           BeforeAmount := ((db.balanceOf req2.key).map (·.Amount)).getD 0,
           AfterAmount := b.Amount, Description := req2.Description, OperatorID := userID }] ∧
      db2.studios = db.studios ∧
      db2.provider_studio_relations = db.provider_studio_relations := by
  obtain ⟨userID, userRole, req, req2, hid, hrole, hr, hbody, hvalid, hperm, hcredit⟩ :=
    AddBalance_success_inv f db db2 c body msg b h
  refine ⟨userID, userRole, req, req2, hid, hrole, hr, hbody, hvalid, hperm, ?_⟩
  rcases credit_success_inv f db db2 userID req2 msg b hcredit with
    ⟨b0, hfind, hb, hdb⟩ | ⟨hfind, hb, hdb⟩
  · have hkey0 : b0.key = req2.key := by
      have := List.find?_some hfind
      simpa using this
    have hkey : b.key = req2.key := by
      rw [hb]
      exact hkey0
    have hbid : b.ID = b0.ID := by rw [hb]
    have hmem : ∃ row ∈ db.balances, row.ID = b.ID :=
      ⟨b0, List.mem_of_find?_eq_some hfind, hbid.symm⟩
    have hfindID := find_after_save b db.balances hmem
    rw [hbid] at hfindID
    refine ⟨hkey, ?_, ?_, ?_, ?_, ?_, ?_, ?_, ?_⟩
    · simp [hfind, hb]
    · rw [hdb]
      exact find_pred_after_save (fun x => x.key == req2.key) b0 b db.balances hfind
        (by simp [hkey])
    · rw [hdb, hbid]
      exact hfindID
    · intro b1 h1
      rw [hfind] at h1
      cases h1
      exact hbid
    · intro h1
      rw [hfind] at h1
      cases h1
    · rw [hdb]
      simp [AddBalance.logEntry, hfind, hb]
    · rw [hdb]
    · rw [hdb]
  · have hkey : b.key = req2.key := by
      rw [hb]
      rfl
    have hnone : ∀ row ∈ db.balances, ¬ ((fun x : Balance => x.key == req2.key) row = true) := by
      intro row hin
      have := List.find?_eq_none.1 hfind row hin
      simpa using this
    have hfresh : ∀ row ∈ db.balances, ¬ ((fun x : Balance => x.ID == b.ID) row = true) := by
      intro row hin
      have := newRow_fresh db req2 row hin
      rw [hb]
      simpa using this
    refine ⟨hkey, ?_, ?_, ?_, ?_, ?_, ?_, ?_, ?_⟩
    · simp [hfind, hb]
    · rw [hdb]
      simp only [DB.balanceOf, List.find?_append, List.find?_eq_none.2 hnone]
      simp [List.find?, hkey]
    · rw [hdb]
      simp only [List.find?_append, List.find?_eq_none.2 hfresh]
      simp [List.find?]
    · intro b1 h1
      rw [hfind] at h1
      cases h1
    · intro _
      rw [hb]
      rfl
    · rw [hdb]
      simp [AddBalance.logEntry, hfind, hb, AddBalance.newRow]
    · rw [hdb]
    · rw [hdb]

/-! ## The handler over an arithmetic -/

theorem creditWith_core (ar : Arith) (f : Faults) (db : DB) (userID : Nat)
    (req : AddBalanceRequest) (b0 : Balance) (bals : List Balance)
    (hfc : AddBalance.findOrCreate f (Begin db) req =
      .ok (b0, { base := db, cur := { db with balances := bals } }))
    (hmem : ∃ row ∈ bals, row.ID = b0.ID) :
    AddBalance.creditWith ar f (Begin db) userID req =
      match ar.add b0.Amount req.Amount with
      | none => (InternalServerError "Failed to update balance", db)
      | some sum =>
        if f.balanceSave then (InternalServerError "Failed to update balance", db)
        else if f.transactionCreate then
          (InternalServerError "Failed to create transaction record", db)
        else if f.commit then (InternalServerError "Failed to commit transaction", db)
        else
          (SuccessWithMessage "Balance added successfully" { b0 with Amount := sum },
            { db with
              balances := bals.map (fun row =>
                if row.ID = b0.ID then { b0 with Amount := sum } else row)
              balance_transactions :=
                db.balance_transactions ++
                  [{ AddBalance.logEntry db userID req b0 with AfterAmount := sum }] }) := by
  unfold AddBalance.creditWith
  rw [hfc]
  dsimp only
  cases ar.add b0.Amount req.Amount with
  | none => rfl
  | some sum =>
    have hre := find_after_save { b0 with Amount := sum } bals hmem
    simp only [] at hre
    by_cases h2 : f.balanceSave <;> by_cases h3 : f.transactionCreate <;>
      by_cases h4 : f.commit <;>
      simp only [SaveBalance, CreateTransaction, Commit, Rollback, AddBalance.logEntry, h2, h3,
        h4, if_true, if_false, hre, Option.getD_some, Bool.false_eq_true]

theorem creditWith_found (ar : Arith) (f : Faults) (db : DB) (userID : Nat)
    (req : AddBalanceRequest) (b0 : Balance)
    (hfind : db.balances.find? (AddBalance.sameTuple req) = some b0) :
    AddBalance.creditWith ar f (Begin db) userID req =
      if f.balanceFirst then (InternalServerError "Database error", db)
      else
        match ar.add b0.Amount req.Amount with
        | none => (InternalServerError "Failed to update balance", db)
        | some sum =>
          if f.balanceSave then (InternalServerError "Failed to update balance", db)
          else if f.transactionCreate then
            (InternalServerError "Failed to create transaction record", db)
          else if f.commit then (InternalServerError "Failed to commit transaction", db)
          else
            (SuccessWithMessage "Balance added successfully" { b0 with Amount := sum },
              { db with
                balances := db.balances.map (fun row =>
                  if row.ID = b0.ID then { b0 with Amount := sum } else row)
                balance_transactions :=
                  db.balance_transactions ++
                    [{ AddBalance.logEntry db userID req b0 with AfterAmount := sum }] }) := by
  by_cases h1 : f.balanceFirst
  · simp [AddBalance.creditWith, AddBalance.findOrCreate, First, Begin, Rollback, h1]
  · have hfc : AddBalance.findOrCreate f (Begin db) req =
        .ok (b0, { base := db, cur := { db with balances := db.balances } }) := by
      simp [AddBalance.findOrCreate, First, Begin, h1, hfind]
    rw [creditWith_core ar f db userID req b0 db.balances hfc
      ⟨b0, List.mem_of_find?_eq_some hfind, rfl⟩]
    simp [h1]

theorem creditWith_absent (ar : Arith) (f : Faults) (db : DB) (userID : Nat)
    (req : AddBalanceRequest)
    (hfind : db.balances.find? (AddBalance.sameTuple req) = none) :
    AddBalance.creditWith ar f (Begin db) userID req =
      if f.balanceFirst then (InternalServerError "Database error", db)
      else if f.balanceCreate then
        (InternalServerError "Failed to create balance record", db)
      else
        match ar.add 0 req.Amount with
        | none => (InternalServerError "Failed to update balance", db)
        | some sum =>
          if f.balanceSave then (InternalServerError "Failed to update balance", db)
          else if f.transactionCreate then
            (InternalServerError "Failed to create transaction record", db)
          else if f.commit then (InternalServerError "Failed to commit transaction", db)
          else
            (SuccessWithMessage "Balance added successfully"
                { AddBalance.newRow db req with Amount := sum },
              { db with
                balances := db.balances ++ [{ AddBalance.newRow db req with Amount := sum }]
                balance_transactions :=
                  db.balance_transactions ++
                    [{ AddBalance.logEntry db userID req (AddBalance.newRow db req) with
                        AfterAmount := sum }] }) := by
  by_cases h1 : f.balanceFirst
  · simp [AddBalance.creditWith, AddBalance.findOrCreate, First, Begin, Rollback, h1]
  by_cases h0 : f.balanceCreate
  · simp [AddBalance.creditWith, AddBalance.findOrCreate, First, CreateBalance, Begin, Rollback,
      h1, h0, hfind]
  have hfc : AddBalance.findOrCreate f (Begin db) req =
      .ok (AddBalance.newRow db req, { base := db, cur := { db with
        balances := db.balances ++ [AddBalance.newRow db req] } }) := by
    simp [AddBalance.findOrCreate, First, CreateBalance, Begin, h1, h0, hfind, AddBalance.newRow]
  rw [creditWith_core ar f db userID req (AddBalance.newRow db req) _ hfc
    ⟨AddBalance.newRow db req, by simp, rfl⟩]
  have hzero : (AddBalance.newRow db req).Amount = 0 := rfl
  rw [hzero]
  cases ar.add 0 req.Amount with
  | none => simp [h1, h0]
  | some sum =>
    have hsave := save_fresh { AddBalance.newRow db req with Amount := sum }
      db.balances (newRow_fresh db req)
    simp only [] at hsave
    simp only [h1, h0, if_false, Bool.false_eq_true, List.map_append, List.map_cons,
      List.map_nil, if_true, hsave]

theorem ShouldBindJSONWith_ok (ar : Arith) (body : Option AddBalanceRequest)
    (req : AddBalanceRequest) (h : ShouldBindJSONWith ar body = .ok req) :
    ∃ raw, body = some raw ∧ ar.ofDecimal raw.Amount = some req.Amount ∧
      req = { raw with Amount := req.Amount } ∧ req.valid = true := by
  unfold ShouldBindJSONWith at h
  split at h
  · cases h
  · rename_i raw
    split at h
    · cases h
    · rename_i amount hdec
      split at h
      · rename_i hv
        cases h
        exact ⟨raw, rfl, hdec, rfl, hv⟩
      · cases h

theorem checkPermission_error (f : Faults) (tx : Tx) (userID : Nat) (userRole : UserRole)
    (req : AddBalanceRequest) (resp : Response Balance)
    (h : AddBalance.checkPermission f tx userID userRole req = .error resp) :
    ∃ code m, resp = Response.Error code m := by
  unfold AddBalance.checkPermission at h
  split at h
  · split at h
    · cases h
      exact ⟨_, _, rfl⟩
    · cases h
  · split at h
    · split at h
      · cases h
        exact ⟨_, _, rfl⟩
      · split at h
        · cases h
          exact ⟨_, _, rfl⟩
        · cases h
    · cases h

/-- A call either is answered with an error before the ledger part, and commits
nothing, or passes every check and runs the ledger part on the resolved request. -/
theorem AddBalanceWith_cases (ar : Arith) (f : Faults) (db : DB) (c : Context)
    (body : Option AddBalanceRequest) :
    (∃ code m, AddBalanceWith ar f db c body = (Response.Error code m, db)) ∨
    ∃ userID userRole req req2, GetCurrentUserID c = some userID ∧
      GetCurrentUserRole c = some userRole ∧
      (userRole = RoleProvider ∨ userRole = RoleStudio) ∧
      ShouldBindJSONWith ar body = .ok req ∧
      AddBalance.checkPermission f (Begin db) userID userRole req = .ok req2 ∧
      AddBalanceWith ar f db c body = AddBalance.creditWith ar f (Begin db) userID req2 := by
  cases hid : GetCurrentUserID c with
  | none =>
    left
    exact ⟨401, "User not found", by simp only [AddBalanceWith, hid, Unauthorized]⟩
  | some userID =>
    cases hrole : GetCurrentUserRole c with
    | none =>
      left
      exact ⟨403, "Only providers and studios can add balance",
        by simp only [AddBalanceWith, hid, hrole, Forbidden]⟩
    | some userRole =>
      by_cases hr : userRole ≠ RoleProvider ∧ userRole ≠ RoleStudio
      · left
        refine ⟨403, "Only providers and studios can add balance", ?_⟩
        simp only [AddBalanceWith, hid, hrole, Forbidden]
        rw [if_pos hr]
      · have hr2 : userRole = RoleProvider ∨ userRole = RoleStudio := by
          by_cases hp : userRole = RoleProvider
          · exact Or.inl hp
          · by_cases hs : userRole = RoleStudio
            · exact Or.inr hs
            · exact absurd ⟨hp, hs⟩ hr
        cases hbind : ShouldBindJSONWith ar body with
        | error e =>
          left
          exact ⟨400, e, by simp only [AddBalanceWith, hid, hrole, hr, if_false, hbind, BadRequest]⟩
        | ok req =>
          cases hperm : AddBalance.checkPermission f (Begin db) userID userRole req with
          | error resp =>
            left
            obtain ⟨code, m, hresp⟩ := checkPermission_error f _ userID userRole req resp hperm
            refine ⟨code, m, ?_⟩
            simp only [AddBalanceWith, hid, hrole, hr, if_false, hbind, hperm, hresp]
            rfl
          | ok req2 =>
            right
            refine ⟨userID, userRole, req, req2, rfl, rfl, hr2, rfl, hperm, ?_⟩
            simp only [AddBalanceWith, hid, hrole, hr, if_false, hbind, hperm]

/-- The ledger part over an arithmetic either commits nothing, with an internal
error, or answers with a success. -/
theorem creditWith_unchanged_or_success (ar : Arith) (f : Faults) (db : DB) (userID : Nat)
    (req : AddBalanceRequest) :
    (∃ m, AddBalance.creditWith ar f (Begin db) userID req = (InternalServerError m, db)) ∨
      ∃ msg b, (AddBalance.creditWith ar f (Begin db) userID req).1 = Response.Success msg b := by
  cases hfind : db.balances.find? (AddBalance.sameTuple req) with
  | some b0 =>
    rw [creditWith_found ar f db userID req b0 hfind]
    cases ar.add b0.Amount req.Amount with
    | none =>
      by_cases h1 : f.balanceFirst <;> simp [h1, InternalServerError]
    | some sum =>
      by_cases h1 : f.balanceFirst <;> by_cases h2 : f.balanceSave <;>
        by_cases h3 : f.transactionCreate <;> by_cases h4 : f.commit <;>
        simp [h1, h2, h3, h4, SuccessWithMessage, InternalServerError]
  | none =>
    rw [creditWith_absent ar f db userID req hfind]
    cases ar.add 0 req.Amount with
    | none =>
      by_cases h1 : f.balanceFirst <;> by_cases h0 : f.balanceCreate <;>
        simp [h1, h0, InternalServerError]
    | some sum =>
      by_cases h1 : f.balanceFirst <;> by_cases h0 : f.balanceCreate <;>
        by_cases h2 : f.balanceSave <;>
        by_cases h3 : f.transactionCreate <;> by_cases h4 : f.commit <;>
        simp [h1, h0, h2, h3, h4, SuccessWithMessage, InternalServerError]

/-- Over every arithmetic, a call that does not answer with a success commits
nothing. -/
theorem AddBalanceWith_error_unchanged (ar : Arith) (f : Faults) (db : DB) (c : Context)
    (body : Option AddBalanceRequest) (code : Nat) (m : String)
    (h : (AddBalanceWith ar f db c body).1 = Response.Error code m) :
    (AddBalanceWith ar f db c body).2 = db := by
  rcases AddBalanceWith_cases ar f db c body with
    ⟨code2, m2, h2⟩ | ⟨userID, userRole, req, req2, -, -, -, -, -, hcall⟩
  · rw [h2]
  · rw [hcall] at h ⊢
    rcases creditWith_unchanged_or_success ar f db userID req2 with ⟨m2, h2⟩ | ⟨msg, b, h2⟩
    · rw [h2]
    · rw [h2] at h
      cases h

/-- A successful ledger part over an arithmetic: the row that was read or
created, the sum that was saved, and the committed tables. -/
theorem creditWith_success_inv (ar : Arith) (f : Faults) (db db2 : DB) (userID : Nat)
    (req : AddBalanceRequest) (msg : String) (b : Balance)
    (h : AddBalance.creditWith ar f (Begin db) userID req = (Response.Success msg b, db2)) :
    (∃ b0, db.balanceOf req.key = some b0 ∧
        ar.add b0.Amount req.Amount = some b.Amount ∧
        b = { b0 with Amount := b.Amount } ∧
        db2 = { db with
          balances := db.balances.map (fun row => if row.ID = b0.ID then b else row)
          balance_transactions :=
            db.balance_transactions ++
              [{ AddBalance.logEntry db userID req b0 with AfterAmount := b.Amount }] }) ∨
    (db.balanceOf req.key = none ∧
        ar.add 0 req.Amount = some b.Amount ∧
        b = { AddBalance.newRow db req with Amount := b.Amount } ∧
        db2 = { db with
          balances := db.balances ++ [b]
          balance_transactions :=
            db.balance_transactions ++
              [{ AddBalance.logEntry db userID req (AddBalance.newRow db req) with
                  AfterAmount := b.Amount }] }) := by
  cases hfind : db.balances.find? (AddBalance.sameTuple req) with
  | some b0 =>
    left
    rw [creditWith_found ar f db userID req b0 hfind] at h
    refine ⟨b0, by rw [← find_sameTuple, hfind], ?_⟩
    split at h
    · simp [InternalServerError] at h
    split at h
    · simp [InternalServerError] at h
    rename_i sum hadd
    split at h
    · simp [InternalServerError] at h
    split at h
    · simp [InternalServerError] at h
    split at h
    · simp [InternalServerError] at h
    simp only [SuccessWithMessage, Prod.mk.injEq, Response.Success.injEq] at h
    obtain ⟨⟨-, hb⟩, hdb⟩ := h
    subst hb
    exact ⟨hadd, rfl, hdb.symm⟩
  | none =>
    right
    rw [creditWith_absent ar f db userID req hfind] at h
    refine ⟨by rw [← find_sameTuple, hfind], ?_⟩
    split at h
    · simp [InternalServerError] at h
    split at h
    · simp [InternalServerError] at h
    split at h
    · simp [InternalServerError] at h
    rename_i sum hadd
    split at h
    · simp [InternalServerError] at h
    split at h
    · simp [InternalServerError] at h
    split at h
    · simp [InternalServerError] at h
    simp only [SuccessWithMessage, Prod.mk.injEq, Response.Success.injEq] at h
    obtain ⟨⟨-, hb⟩, hdb⟩ := h
    subst hb
    exact ⟨hadd, rfl, hdb.symm⟩

/-- The tables after a successful call over an arithmetic, in terms of the
resolved request: the row of the tuple holds the sum of its old amount and the
credited amount, and one transaction row was appended. -/
theorem AddBalanceWith_success_shape (ar : Arith) (f : Faults) (db db2 : DB) (c : Context)
    (body : Option AddBalanceRequest) (msg : String) (b : Balance)
    (h : AddBalanceWith ar f db c body = (Response.Success msg b, db2)) :
    ∃ userID userRole req req2, GetCurrentUserID c = some userID ∧
      GetCurrentUserRole c = some userRole ∧
      (userRole = RoleProvider ∨ userRole = RoleStudio) ∧
      ShouldBindJSONWith ar body = .ok req ∧
      AddBalance.checkPermission f (Begin db) userID userRole req = .ok req2 ∧
      b.key = req2.key ∧
      ar.add (((db.balanceOf req2.key).map (·.Amount)).getD 0) req2.Amount = some b.Amount ∧
      db2.balanceOf req2.key = some b ∧
      db2.balances.find? (fun row => row.ID == b.ID) = some b ∧
      (∀ b0, db.balanceOf req2.key = some b0 →
        b = { b0 with Amount := b.Amount } ∧
        db2.balances = db.balances.map (fun row => if row.ID = b0.ID then b else row)) ∧
      (db.balanceOf req2.key = none →
        b = { AddBalance.newRow db req2 with Amount := b.Amount } ∧
        db2.balances = db.balances ++ [b]) ∧
      db2.balance_transactions = db.balance_transactions ++
        [{ ID := nextID (db.balance_transactions.map (·.ID)), BalanceID := b.ID,
           Typ := TransactionTypeRecharge, Amount := req2.Amount,
           BeforeAmount := ((db.balanceOf req2.key).map (·.Amount)).getD 0,
           AfterAmount := b.Amount, Description := req2.Description, OperatorID := userID }] ∧
      db2.studios = db.studios ∧
      db2.provider_studio_relations = db.provider_studio_relations := by
  rcases AddBalanceWith_cases ar f db c body with
    ⟨code, m, h2⟩ | ⟨userID, userRole, req, req2, hid, hrole, hr, hbind, hperm, hcall⟩
  · rw [h2] at h
    cases h
  rw [hcall] at h
  refine ⟨userID, userRole, req, req2, hid, hrole, hr, hbind, hperm, ?_⟩
  rcases creditWith_success_inv ar f db db2 userID req2 msg b h with
    ⟨b0, hfind, hadd, hb, hdb⟩ | ⟨hfind, hadd, hb, hdb⟩
  · have hkey0 : b0.key = req2.key := by
      have := List.find?_some hfind
      simpa using this
    have hkey : b.key = req2.key := by
      rw [hb]
      exact hkey0
    have hbid : b.ID = b0.ID := by rw [hb]
    have hmem : ∃ row ∈ db.balances, row.ID = b.ID :=
      ⟨b0, List.mem_of_find?_eq_some hfind, hbid.symm⟩
    have hfindID := find_after_save b db.balances hmem
    rw [hbid] at hfindID
    refine ⟨hkey, ?_, ?_, ?_, ?_, ?_, ?_, ?_, ?_⟩
    · simp only [hfind, Option.map_some', Option.getD_some]
      exact hadd
    · rw [hdb]
      exact find_pred_after_save (fun x => x.key == req2.key) b0 b db.balances hfind
        (by simp [hkey])
    · rw [hdb, hbid]
      exact hfindID
    · intro b1 h1
      rw [hfind] at h1
      cases h1
      refine ⟨hb, ?_⟩
      rw [hdb]
    · intro h1
      rw [hfind] at h1
      cases h1
    · rw [hdb]
      simp [AddBalance.logEntry, hfind, hbid]
    · rw [hdb]
    · rw [hdb]
  · have hkey : b.key = req2.key := by
      rw [hb]
      rfl
    have hnone : ∀ row ∈ db.balances, ¬ ((fun x : Balance => x.key == req2.key) row = true) := by
      intro row hin
      have := List.find?_eq_none.1 hfind row hin
      simpa using this
    have hfresh : ∀ row ∈ db.balances, ¬ ((fun x : Balance => x.ID == b.ID) row = true) := by
      intro row hin
      have := newRow_fresh db req2 row hin
      rw [hb]
      simpa using this
    have hbid : b.ID = (AddBalance.newRow db req2).ID := by rw [hb]
    refine ⟨hkey, ?_, ?_, ?_, ?_, ?_, ?_, ?_, ?_⟩
    · simp only [hfind, Option.map_none', Option.getD_none]
      exact hadd
    · rw [hdb]
      simp only [DB.balanceOf, List.find?_append, List.find?_eq_none.2 hnone]
      simp [List.find?, hkey]
    · rw [hdb]
      simp only [List.find?_append, List.find?_eq_none.2 hfresh]
      simp [List.find?]
    · intro b1 h1
      rw [hfind] at h1
      cases h1
    · intro _
      refine ⟨hb, ?_⟩
      rw [hdb]
    · rw [hdb]
      simp [AddBalance.logEntry, hfind, hbid, AddBalance.newRow]
    · rw [hdb]
    · rw [hdb]

/-! ## The claims -/

/-- C2, counterexample: in `float64` arithmetic, provider 3 credits 0.1 and then
0.2 to the tuple (7, 3, 0, money) of the empty store.  The second transaction
row has BeforeAmount 0.1 and Amount 0.2 as `float64`, its AfterAmount is the
persisted amount 0.30000000000000004, and AfterAmount - BeforeAmount is not
Amount. -/
theorem C2_counterexample :
    (AddBalanceFloat64 noFaults
        (AddBalanceFloat64 noFaults emptyDB ⟨some 3, some RoleProvider⟩
          (some ⟨7, 3, 0, BalanceTypeMoney, 1 / 10, ""⟩)).2
        ⟨some 3, some RoleProvider⟩ (some ⟨7, 3, 0, BalanceTypeMoney, 2 / 10, ""⟩)).2 =
      ⟨[], [],
        [⟨1, 7, 3, 0, BalanceTypeMoney, 1351079888211149 / 4503599627370496, 0⟩],
        [⟨1, 1, TransactionTypeRecharge, 3602879701896397 / 36028797018963968, 0,
            3602879701896397 / 36028797018963968, "", 3⟩,
          ⟨2, 1, TransactionTypeRecharge, 3602879701896397 / 18014398509481984,
            3602879701896397 / 36028797018963968, 1351079888211149 / 4503599627370496, "",
            3⟩]⟩ ∧
    (1351079888211149 / 4503599627370496 - 3602879701896397 / 36028797018963968 : ℚ) ≠
      3602879701896397 / 18014398509481984 := by
  decide!

/-- C2, amended: over every arithmetic of amounts (`float64` as the program runs,
or exact decimals), when AddBalance writes to the transaction log, it appends
exactly one row t.  AfterAmount is the sum, in that arithmetic, of BeforeAmount
and Amount, so that AfterAmount - BeforeAmount = Amount whenever that sum is
exact; BeforeAmount is the amount the row of the credited tuple held before the
call (zero for a row created by the call), Amount is the requested amount as
decoded, and AfterAmount is the amount of the balance row persisted after the
call. -/
theorem C2_transaction_row_sum (ar : Arith) (f : Faults) (db : DB) (c : Context)
    (body : Option AddBalanceRequest)
    (hw : (AddBalanceWith ar f db c body).2.balance_transactions ≠ db.balance_transactions) :
    ∃ msg b raw t, (AddBalanceWith ar f db c body).1 = Response.Success msg b ∧
      body = some raw ∧
      (AddBalanceWith ar f db c body).2.balance_transactions = db.balance_transactions ++ [t] ∧
      ar.add t.BeforeAmount t.Amount = some t.AfterAmount ∧
      (ar.add t.BeforeAmount t.Amount = some (t.BeforeAmount + t.Amount) →
        t.AfterAmount - t.BeforeAmount = t.Amount) ∧
      ar.ofDecimal raw.Amount = some t.Amount ∧
      t.BeforeAmount = ((db.balanceOf b.key).map (·.Amount)).getD 0 ∧
      t.BalanceID = b.ID ∧
      (AddBalanceWith ar f db c body).2.balanceOf b.key = some b ∧
      (AddBalanceWith ar f db c body).2.balances.find? (fun row => row.ID == t.BalanceID) =
        some b ∧
      t.AfterAmount = b.Amount := by
  cases hres : (AddBalanceWith ar f db c body).1 with
  | Error code m =>
    exact absurd (by rw [AddBalanceWith_error_unchanged ar f db c body code m hres]) hw
  | Success msg b =>
    have h : AddBalanceWith ar f db c body =
        (Response.Success msg b, (AddBalanceWith ar f db c body).2) := by
      rw [← hres]
    obtain ⟨userID, userRole, req, req2, -, -, -, hbind, hperm, hkey, hadd, hrow, hrowID, -, -,
      hlog, -, -⟩ := AddBalanceWith_success_shape ar f db _ c body msg b h
    obtain ⟨-, -, -, hreqamt, -⟩ := checkPermission_fields f _ userID userRole req req2 hperm
    obtain ⟨raw, hbody, hdec, -, -⟩ := ShouldBindJSONWith_ok ar body req hbind
    rw [← hkey] at hadd hrow hlog
    refine ⟨msg, b, raw, _, rfl, hbody, hlog, hadd, ?_, ?_, rfl, rfl, hrow, hrowID, rfl⟩
    · intro hexact
      have hsum := hadd.symm.trans hexact
      simp only [Option.some.injEq] at hsum
      rw [hsum]
      ring
    · rw [hreqamt]
      exact hdec

/-- C2, witness: in `float64` arithmetic, a first credit of 0.1 to the tuple
(7, 3, 0, money). -/
theorem C2_transaction_row_sum_witness :
    ∃ msg b raw t,
      (AddBalanceWith float64Arith noFaults emptyDB ⟨some 3, some RoleProvider⟩
        (some ⟨7, 3, 0, BalanceTypeMoney, 1 / 10, "first"⟩)).1 = Response.Success msg b ∧
      some (⟨7, 3, 0, BalanceTypeMoney, 1 / 10, "first"⟩ : AddBalanceRequest) = some raw ∧
      (AddBalanceWith float64Arith noFaults emptyDB ⟨some 3, some RoleProvider⟩
        (some ⟨7, 3, 0, BalanceTypeMoney, 1 / 10, "first"⟩)).2.balance_transactions =
          emptyDB.balance_transactions ++ [t] ∧
      float64Arith.add t.BeforeAmount t.Amount = some t.AfterAmount ∧
      (float64Arith.add t.BeforeAmount t.Amount = some (t.BeforeAmount + t.Amount) →
        t.AfterAmount - t.BeforeAmount = t.Amount) ∧
      float64Arith.ofDecimal raw.Amount = some t.Amount ∧
      t.BeforeAmount = ((emptyDB.balanceOf b.key).map (·.Amount)).getD 0 ∧
      t.BalanceID = b.ID ∧
      (AddBalanceWith float64Arith noFaults emptyDB ⟨some 3, some RoleProvider⟩
        (some ⟨7, 3, 0, BalanceTypeMoney, 1 / 10, "first"⟩)).2.balanceOf b.key = some b ∧
      (AddBalanceWith float64Arith noFaults emptyDB ⟨some 3, some RoleProvider⟩
        (some ⟨7, 3, 0, BalanceTypeMoney, 1 / 10, "first"⟩)).2.balances.find?
          (fun row => row.ID == t.BalanceID) = some b ∧
      t.AfterAmount = b.Amount :=
  C2_transaction_row_sum float64Arith noFaults emptyDB ⟨some 3, some RoleProvider⟩
    (some ⟨7, 3, 0, BalanceTypeMoney, 1 / 10, "first"⟩) (by decide!)

theorem role_constants_distinct :
    RoleProvider ≠ RoleStudio ∧ RolePlayer ≠ RoleProvider ∧ RolePlayer ≠ RoleStudio := by
  decide

/-- A call by a studio actor with a valid body is decided by the permission check. -/
theorem AddBalance_of_bound (f : Faults) (db : DB) (userID : Nat) (userRole : UserRole)
    (req : AddBalanceRequest) (hr : userRole = RoleProvider ∨ userRole = RoleStudio)
    (hvalid : req.valid = true) :
    AddBalance f db ⟨some userID, some userRole⟩ (some req) =
      match AddBalance.checkPermission f (Begin db) userID userRole req with
      | .error resp => (resp, db)
      | .ok req2 => AddBalance.credit f (Begin db) userID req2 := by
  have hr2 : ¬ (userRole ≠ RoleProvider ∧ userRole ≠ RoleStudio) := by
    rintro ⟨h1, h2⟩
    rcases hr with h | h
    · exact h1 h
    · exact h2 h
  simp only [AddBalance_def, GetCurrentUserID, GetCurrentUserRole, ShouldBindJSON, hr2, hvalid,
    if_false, if_true]
  rfl

/-- C4, counterexample: provider 3 asks to credit provider 4 with the amount -5.
The provider id differs from the actor id, and the answer is the validation
error (code 400), not the forbidden denial (code 403). -/
theorem C4_counterexample :
    (⟨7, 4, 0, BalanceTypeMoney, -5, ""⟩ : AddBalanceRequest).ProviderID ≠ 3 ∧
    (AddBalance noFaults ⟨[], [], [], []⟩ ⟨some 3, some RoleProvider⟩
      (some ⟨7, 4, 0, BalanceTypeMoney, -5, ""⟩)).1 = BadRequest "validation failed" ∧
    (AddBalance noFaults ⟨[], [], [], []⟩ ⟨some 3, some RoleProvider⟩
      (some ⟨7, 4, 0, BalanceTypeMoney, -5, ""⟩)).1.code ≠ 403 := by
  decide!

/-- C4, amended: for every request that passes the binding validation (so for
every positive amount) and every studio id, a provider actor whose id differs
from the requested provider id is denied with forbidden, whatever the database
holds and whichever database calls would fail, and nothing is committed. -/
theorem C4_provider_mismatch_forbidden (f : Faults) (db : DB) (userID : Nat)
    (req : AddBalanceRequest) (hvalid : req.valid = true) (hne : req.ProviderID ≠ userID) :
    AddBalance f db ⟨some userID, some RoleProvider⟩ (some req) =
      (Forbidden "Providers can only add balance for themselves", db) := by
  rw [AddBalance_of_bound f db userID RoleProvider req (Or.inl rfl) hvalid]
  simp [AddBalance.checkPermission, hne]

/-- C4, witness: provider 3 asks to credit provider 4 with 100 under studio 9. -/
theorem C4_provider_mismatch_forbidden_witness :
    AddBalance noFaults ⟨[], [], [], []⟩ ⟨some 3, some RoleProvider⟩
        (some ⟨7, 4, 9, BalanceTypeMoney, 100, ""⟩) =
      (Forbidden "Providers can only add balance for themselves", ⟨[], [], [], []⟩) :=
  C4_provider_mismatch_forbidden noFaults ⟨[], [], [], []⟩ 3 ⟨7, 4, 9, BalanceTypeMoney, 100, ""⟩
    (by decide!) (by decide)

/-- C5: an identified actor whose role is missing, player, or any value other
than provider and studio is denied with forbidden, for every body (valid,
invalid or undecodable), every database and every fault, and nothing is
committed: the role rule is decided before the body is bound and before any
other authorization rule. -/
theorem C5_role_rule_first (f : Faults) (db : DB) (userID : Nat) (role : Option UserRole)
    (body : Option AddBalanceRequest)
    (h1 : role ≠ some RoleProvider) (h2 : role ≠ some RoleStudio) :
    AddBalance f db ⟨some userID, role⟩ body =
      (Forbidden "Only providers and studios can add balance", db) := by
  cases role with
  | none => simp [AddBalance_def, GetCurrentUserID, GetCurrentUserRole]
  | some r =>
    have h3 : r ≠ RoleProvider := fun h => h1 (by rw [h])
    have h4 : r ≠ RoleStudio := fun h => h2 (by rw [h])
    simp [AddBalance_def, GetCurrentUserID, GetCurrentUserRole, h3, h4]

/-- C5, witness: a player sends a body that fails validation and names another
provider; the answer is the role denial. -/
theorem C5_role_rule_first_witness :
    AddBalance noFaults ⟨[], [], [], []⟩ ⟨some 7, some RolePlayer⟩
        (some ⟨0, 4, 0, "gold", -1, ""⟩) =
      (Forbidden "Only providers and studios can add balance", ⟨[], [], [], []⟩) :=
  C5_role_rule_first noFaults ⟨[], [], [], []⟩ 7 (some RolePlayer)
    (some ⟨0, 4, 0, "gold", -1, ""⟩) (by decide) (by decide)

/-- C6: a valid request by a studio actor who owns no studio (no studio row has
the actor as owner) is denied with not-found (code 404), whichever database
calls would fail, and nothing is committed. -/
theorem C6_studio_without_studio_not_found (f : Faults) (db : DB) (userID : Nat)
    (req : AddBalanceRequest) (hvalid : req.valid = true)
    (hnone : ∀ s ∈ db.studios, s.OwnerID ≠ userID) :
    AddBalance f db ⟨some userID, some RoleStudio⟩ (some req) =
      (NotFound "Studio not found", db) := by
  rw [AddBalance_of_bound f db userID RoleStudio req (Or.inr rfl) hvalid]
  have hfind : db.studios.find? (fun s => s.OwnerID == userID) = none := by
    apply List.find?_eq_none.2
    intro s hs
    simpa using hnone s hs
  have hne : RoleStudio ≠ RoleProvider := by decide
  by_cases hf : f.studioFirst <;>
    simp [AddBalance.checkPermission, First, Begin, hfind, hne, hf]

/-- C6, witness: studio actor 9, the only studio is owned by user 8. -/
theorem C6_studio_without_studio_not_found_witness :
    AddBalance noFaults ⟨[⟨2, "two", 8⟩], [⟨1, 3, 2, StatusApproved, 0, none, ""⟩], [], []⟩
        ⟨some 9, some RoleStudio⟩ (some ⟨7, 3, 2, BalanceTypeMoney, 100, ""⟩) =
      (NotFound "Studio not found",
        ⟨[⟨2, "two", 8⟩], [⟨1, 3, 2, StatusApproved, 0, none, ""⟩], [], []⟩) :=
  C6_studio_without_studio_not_found noFaults
    ⟨[⟨2, "two", 8⟩], [⟨1, 3, 2, StatusApproved, 0, none, ""⟩], [], []⟩ 9
    ⟨7, 3, 2, BalanceTypeMoney, 100, ""⟩ (by decide!) (by decide)

/-- A studio actor without an approved relation row for the requested provider
and the studio found for the actor is denied with forbidden. -/
theorem studio_denied_without_approved (f : Faults) (db : DB) (userID : Nat)
    (req : AddBalanceRequest) (S : Studio) (hvalid : req.valid = true)
    (hf : f.studioFirst = false)
    (hS : db.studios.find? (fun s => s.OwnerID == userID) = some S)
    (hnone : ∀ r ∈ db.provider_studio_relations,
      ¬ (r.ProviderID = req.ProviderID ∧ r.StudioID = S.ID ∧ r.Status = StatusApproved)) :
    AddBalance f db ⟨some userID, some RoleStudio⟩ (some req) =
      (Forbidden "Provider is not associated with your studio", db) := by
  rw [AddBalance_of_bound f db userID RoleStudio req (Or.inr rfl) hvalid]
  have hfind : db.provider_studio_relations.find?
      (fun r => r.ProviderID == req.ProviderID && r.StudioID == S.ID &&
        r.Status == StatusApproved) = none := by
    apply List.find?_eq_none.2
    intro r hr
    have := hnone r hr
    simpa [and_assoc] using this
  have hne : RoleStudio ≠ RoleProvider := by decide
  by_cases hf2 : f.relationFirst <;>
    simp [AddBalance.checkPermission, First, Begin, hfind, hne, hf, hf2, hS]

/-- C7: a valid request by a studio actor whose studio lookup finds the studio S
is denied with forbidden when no relation row has the requested provider, the
studio S and the status approved; rows of the pair with another status, and
approved rows of the provider with another studio, do not count.  Nothing is
committed. -/
theorem C7_no_approved_relation_forbidden (f : Faults) (db : DB) (userID : Nat)
    (req : AddBalanceRequest) (S : Studio) (hvalid : req.valid = true)
    (hf : f.studioFirst = false)
    (hS : db.studios.find? (fun s => s.OwnerID == userID) = some S)
    (hnone : ∀ r ∈ db.provider_studio_relations,
      ¬ (r.ProviderID = req.ProviderID ∧ r.StudioID = S.ID ∧ r.Status = StatusApproved)) :
    AddBalance f db ⟨some userID, some RoleStudio⟩ (some req) =
      (Forbidden "Provider is not associated with your studio", db) :=
  studio_denied_without_approved f db userID req S hvalid hf hS hnone

/-- C7, witness: studio actor 9 owns studio 2; provider 3 has a pending relation
with studio 2 and an approved relation with studio 4, provider 6 a rejected
relation with studio 2. -/
theorem C7_no_approved_relation_forbidden_witness :
    AddBalance noFaults
        ⟨[⟨2, "two", 9⟩, ⟨4, "four", 8⟩],
          [⟨1, 3, 2, StatusPending, 0, none, ""⟩, ⟨2, 3, 4, StatusApproved, 0, some 1, ""⟩,
            ⟨3, 6, 2, StatusRejected, 0, some 1, ""⟩], [], []⟩
        ⟨some 9, some RoleStudio⟩ (some ⟨7, 3, 2, BalanceTypeMoney, 100, ""⟩) =
      (Forbidden "Provider is not associated with your studio",
        ⟨[⟨2, "two", 9⟩, ⟨4, "four", 8⟩],
          [⟨1, 3, 2, StatusPending, 0, none, ""⟩, ⟨2, 3, 4, StatusApproved, 0, some 1, ""⟩,
            ⟨3, 6, 2, StatusRejected, 0, some 1, ""⟩], [], []⟩) :=
  C7_no_approved_relation_forbidden noFaults
    ⟨[⟨2, "two", 9⟩, ⟨4, "four", 8⟩],
      [⟨1, 3, 2, StatusPending, 0, none, ""⟩, ⟨2, 3, 4, StatusApproved, 0, some 1, ""⟩,
        ⟨3, 6, 2, StatusRejected, 0, some 1, ""⟩], [], []⟩
    9 ⟨7, 3, 2, BalanceTypeMoney, 100, ""⟩ ⟨2, "two", 9⟩ (by decide!) rfl (by decide)
    (by decide)

/-- The permission check of a studio actor, when it passes, found the studio of
the actor and put its id in the request. -/
theorem checkPermission_studio_ok (f : Faults) (tx : Tx) (userID : Nat)
    (req req2 : AddBalanceRequest)
    (h : AddBalance.checkPermission f tx userID RoleStudio req = .ok req2) :
    ∃ S, tx.cur.studios.find? (fun s => s.OwnerID == userID) = some S ∧
      req2 = { req with StudioID := S.ID } := by
  have hne : RoleStudio ≠ RoleProvider := by decide
  unfold AddBalance.checkPermission at h
  simp only [hne, if_false, if_true] at h
  split at h
  · cases h
  · rename_i studio hst
    split at h
    · cases h
    · cases h
      refine ⟨studio, ?_, rfl⟩
      unfold First at hst
      split at hst
      · cases hst
      · split at hst
        · rename_i row hrow
          cases hst
          exact hrow
        · cases hst

/-- C8: studio id override.  When a call by a studio actor succeeds, the studio
lookup by owner found a studio S, and the tuple that was looked up, created
when missing, credited and logged is (player, provider, S.ID, type) of the
request, whatever studio id the body carried: the returned row has studio id
S.ID, its amount is the amount the row of that tuple held before (zero when
there was none) plus the requested amount, a missing row is appended, the row
is the row of that tuple after the call, and the appended transaction refers to
it. -/
theorem C8_studio_id_override (f : Faults) (db db2 : DB) (userID : Nat)
    (body : Option AddBalanceRequest) (msg : String) (b : Balance)
    (h : AddBalance f db ⟨some userID, some RoleStudio⟩ body = (Response.Success msg b, db2)) :
    ∃ S req, db.studios.find? (fun s => s.OwnerID == userID) = some S ∧ body = some req ∧
      b.StudioID = S.ID ∧
      b.key = (req.PlayerID, req.ProviderID, S.ID, req.Typ) ∧
      b.Amount =
        ((db.balanceOf (req.PlayerID, req.ProviderID, S.ID, req.Typ)).map (·.Amount)).getD 0 +
          req.Amount ∧
      (db.balanceOf (req.PlayerID, req.ProviderID, S.ID, req.Typ) = none →
        db2.balances = db.balances ++ [b]) ∧
      db2.balanceOf (req.PlayerID, req.ProviderID, S.ID, req.Typ) = some b ∧
      ∃ t, db2.balance_transactions = db.balance_transactions ++ [t] ∧ t.BalanceID = b.ID := by
  obtain ⟨uid, role, req, req2, hid, hrole, -, hbody, -, hperm, hkey, hamt, hrow, -, -, -, hlog,
    -, -⟩ := AddBalance_success_shape f db db2 _ body msg b h
  simp only [GetCurrentUserID, Option.some.injEq] at hid
  simp only [GetCurrentUserRole, Option.some.injEq] at hrole
  subst hid
  subst hrole
  obtain ⟨S, hS, hreq2⟩ := checkPermission_studio_ok f (Begin db) _ req req2 hperm
  have hk : req2.key = (req.PlayerID, req.ProviderID, S.ID, req.Typ) := by
    rw [hreq2]
    rfl
  have ha : req2.Amount = req.Amount := by rw [hreq2]
  rw [hk] at hkey hamt hrow
  rw [ha] at hamt
  refine ⟨S, req, hS, hbody, ?_, hkey, hamt, ?_, hrow, _, hlog, rfl⟩
  · have := congrArg (fun k => k.2.2.1) hkey
    simpa [Balance.key] using this
  · intro hnone
    obtain ⟨uid3, role3, req3, req4, hid3, hrole3, -, hbody3, -, hperm3, hcredit⟩ :=
      AddBalance_success_inv f db db2 _ body msg b h
    simp only [GetCurrentUserID, Option.some.injEq] at hid3
    simp only [GetCurrentUserRole, Option.some.injEq] at hrole3
    subst hid3
    subst hrole3
    rw [hbody] at hbody3
    cases hbody3
    rw [hperm] at hperm3
    cases hperm3
    rcases credit_success_inv f db db2 _ req2 msg b hcredit with
      ⟨b0, hfind, -, -⟩ | ⟨-, -, hdb⟩
    · rw [hk, hnone] at hfind
      cases hfind
    · rw [hdb]

/-- C8, witness: the scenario of the specification.  Owner 9 of studio 2 credits
provider 3 and sends studio id 0; the persisted row has studio id 2. -/
theorem C8_studio_id_override_witness :
    ∃ S req, studioScenarioDB.studios.find? (fun s => s.OwnerID == 9) = some S ∧
      some (⟨7, 3, 0, BalanceTypeMoney, 100, ""⟩ : AddBalanceRequest) = some req ∧
      (⟨1, 7, 3, 2, BalanceTypeMoney, 100, 0⟩ : Balance).StudioID = S.ID ∧
      (⟨1, 7, 3, 2, BalanceTypeMoney, 100, 0⟩ : Balance).key =
        (req.PlayerID, req.ProviderID, S.ID, req.Typ) ∧
      (⟨1, 7, 3, 2, BalanceTypeMoney, 100, 0⟩ : Balance).Amount =
        ((studioScenarioDB.balanceOf (req.PlayerID, req.ProviderID, S.ID, req.Typ)).map
          (·.Amount)).getD 0 + req.Amount ∧
      (studioScenarioDB.balanceOf (req.PlayerID, req.ProviderID, S.ID, req.Typ) = none →
        ({ studioScenarioDB with
            balances := [⟨1, 7, 3, 2, BalanceTypeMoney, 100, 0⟩]
            balance_transactions := [⟨1, 1, TransactionTypeRecharge, 100, 0, 100, "", 9⟩] }
          : DB).balances = studioScenarioDB.balances ++ [⟨1, 7, 3, 2, BalanceTypeMoney, 100, 0⟩]) ∧
      ({ studioScenarioDB with
          balances := [⟨1, 7, 3, 2, BalanceTypeMoney, 100, 0⟩]
          balance_transactions := [⟨1, 1, TransactionTypeRecharge, 100, 0, 100, "", 9⟩] }
        : DB).balanceOf (req.PlayerID, req.ProviderID, S.ID, req.Typ) =
          some ⟨1, 7, 3, 2, BalanceTypeMoney, 100, 0⟩ ∧
      ∃ t, ({ studioScenarioDB with
          balances := [⟨1, 7, 3, 2, BalanceTypeMoney, 100, 0⟩]
          balance_transactions := [⟨1, 1, TransactionTypeRecharge, 100, 0, 100, "", 9⟩] }
        : DB).balance_transactions = studioScenarioDB.balance_transactions ++ [t] ∧
        t.BalanceID = (⟨1, 7, 3, 2, BalanceTypeMoney, 100, 0⟩ : Balance).ID :=
  C8_studio_id_override noFaults studioScenarioDB
    { studioScenarioDB with
      balances := [⟨1, 7, 3, 2, BalanceTypeMoney, 100, 0⟩]
      balance_transactions := [⟨1, 1, TransactionTypeRecharge, 100, 0, 100, "", 9⟩] }
    9 (some ⟨7, 3, 0, BalanceTypeMoney, 100, ""⟩) "Balance added successfully"
    ⟨1, 7, 3, 2, BalanceTypeMoney, 100, 0⟩ (by decide!)

/-- One successful call of a sequence, seen from the tuple it credits. -/
theorem call_step (k : Nat × Nat × Nat × BalanceType) (db : DB) (call : Call) (msg : String)
    (b : Balance) (h : (call.result db).1 = Response.Success msg b) (hk : b.key = k) :
    b.Amount = ((db.balanceOf k).map (·.Amount)).getD 0 + call.req.Amount ∧
      (call.result db).2.balanceOf k = some b ∧
      (∀ b0, db.balanceOf k = some b0 → b.ID = b0.ID) ∧
      (db.balanceOf k = none → b.ID = nextID (db.balances.map (·.ID))) ∧
      ∃ t, (call.result db).2.balance_transactions = db.balance_transactions ++ [t] ∧
        t.BalanceID = b.ID ∧ t.Amount = call.req.Amount := by
  have h2 : AddBalance call.f db call.c (some call.req) =
      (Response.Success msg b, (call.result db).2) := by
    rw [← h]
    rfl
  obtain ⟨userID, userRole, req, req2, -, -, -, hbody, -, hperm, hkey, hamt, hrow, -, hid0, hid1,
    hlog, -, -⟩ := AddBalance_success_shape _ _ _ _ _ _ _ h2
  cases hbody
  obtain ⟨-, -, -, ha, -⟩ := checkPermission_fields _ _ _ _ _ _ hperm
  have hk2 : req2.key = k := by rw [← hkey, hk]
  rw [hk2] at hamt hrow hid0 hid1 hlog
  rw [ha] at hamt
  exact ⟨hamt, hrow, hid0, hid1, _, hlog, rfl, ha⟩

theorem creditsTo_cons (k : Nat × Nat × Nat × BalanceType) (db : DB) (call : Call)
    (rest : List Call) (h : creditsTo k db (call :: rest) = true) :
    ∃ msg b, (call.result db).1 = Response.Success msg b ∧ b.key = k ∧
      creditsTo k (call.result db).2 rest = true := by
  simp only [creditsTo, Bool.and_eq_true] at h
  obtain ⟨h1, h2⟩ := h
  cases hres : (call.result db).1 with
  | Error code m =>
    rw [hres] at h1
    cases h1
  | Success msg b =>
    rw [hres] at h1
    exact ⟨msg, b, rfl, by simpa using h1, h2⟩

/-- Conservation from a state in which the row of the tuple exists. -/
theorem conservation_from (k : Nat × Nat × Nat × BalanceType) (calls : List Call) :
    ∀ (db : DB) (b0 : Balance) (s : ℚ), db.balanceOf k = some b0 → b0.Amount = s →
      ((db.logOf b0.ID).map (·.Amount)).sum = s → creditsTo k db calls = true →
      ∃ b, (runCalls db calls).balanceOf k = some b ∧ b.ID = b0.ID ∧
        b.Amount = s + (calls.map (·.req.Amount)).sum ∧
        (((runCalls db calls).logOf b.ID).map (·.Amount)).sum =
          s + (calls.map (·.req.Amount)).sum := by
  induction calls with
  | nil =>
    intro db b0 s h0 hamt hlog _
    exact ⟨b0, h0, rfl, by simp [hamt], by simp [runCalls, hlog]⟩
  | cons call rest ih =>
    intro db b0 s h0 hamt hlog hok
    obtain ⟨msg, b, hres, hk, hrest⟩ := creditsTo_cons k db call rest hok
    obtain ⟨hamt1, hrow1, hid0, -, t, hlog1, htid, htamt⟩ := call_step k db call msg b hres hk
    have hbid : b.ID = b0.ID := hid0 b0 h0
    have hamt2 : b.Amount = s + call.req.Amount := by
      rw [hamt1, h0]
      simp [hamt]
    have hlog2 : (((call.result db).2.logOf b.ID).map (·.Amount)).sum = s + call.req.Amount := by
      simp only [DB.logOf, hlog1, List.filter_append, List.map_append, List.sum_append]
      have : (t.BalanceID == b.ID) = true := by simp [htid]
      rw [hbid] at this ⊢
      simp only [DB.logOf] at hlog
      simp [List.filter, this, hlog, htamt]
    obtain ⟨b2, h1, h2, h3, h4⟩ := ih (call.result db).2 b (s + call.req.Amount) hrow1 hamt2 hlog2
      hrest
    refine ⟨b2, h1, by rw [h2, hbid], ?_, ?_⟩
    · rw [h3]
      simp only [List.map_cons, List.sum_cons]
      ring
    · simp only [runCalls]
      rw [h4]
      simp only [List.map_cons, List.sum_cons]
      ring

/-- C1: conservation.  Start from a database without a row for the tuple k, in
which every transaction refers to an existing balance row (the foreign key of the
log).  After any non-empty sequence of successful AddBalance calls that credit
the tuple k, made in turn, the row of k holds the sum of the requested amounts,
and the amounts of the transactions of that row, summed in creation order, give
the same number. -/
theorem C1_conservation (k : Nat × Nat × Nat × BalanceType) (db : DB) (calls : List Call)
    (hfk : ∀ t ∈ db.balance_transactions, ∃ b ∈ db.balances, b.ID = t.BalanceID)
    (hnone : db.balanceOf k = none) (hne : calls ≠ [])
    (hok : creditsTo k db calls = true) :
    ∃ b, (runCalls db calls).balanceOf k = some b ∧
      b.Amount = (calls.map (·.req.Amount)).sum ∧
      (((runCalls db calls).logOf b.ID).map (·.Amount)).sum =
        (calls.map (·.req.Amount)).sum := by
  cases calls with
  | nil => exact absurd rfl hne
  | cons call rest =>
    obtain ⟨msg, b, hres, hk, hrest⟩ := creditsTo_cons k db call rest hok
    obtain ⟨hamt1, hrow1, -, hid1, t, hlog1, htid, htamt⟩ := call_step k db call msg b hres hk
    have hbid : b.ID = nextID (db.balances.map (·.ID)) := hid1 hnone
    have hamt2 : b.Amount = call.req.Amount := by
      rw [hamt1, hnone]
      simp
    have hold : db.balance_transactions.filter (fun x => x.BalanceID == b.ID) = [] := by
      apply List.filter_eq_nil_iff.2
      intro x hx
      obtain ⟨row, hrow, hrid⟩ := hfk x hx
      have hlt : row.ID < nextID (db.balances.map (·.ID)) :=
        lt_nextID _ _ (List.mem_map.2 ⟨row, hrow, rfl⟩)
      have : x.BalanceID ≠ b.ID := by
        rw [hbid, ← hrid]
        omega
      simpa using this
    have hlog2 : (((call.result db).2.logOf b.ID).map (·.Amount)).sum = call.req.Amount := by
      simp only [DB.logOf, hlog1, List.filter_append, hold, List.nil_append]
      have : (t.BalanceID == b.ID) = true := by simp [htid]
      simp [List.filter, this, htamt]
    obtain ⟨b2, h1, -, h3, h4⟩ := conservation_from k rest (call.result db).2 b call.req.Amount
      hrow1 hamt2 hlog2 hrest
    exact ⟨b2, h1, by simpa using h3, by simpa [runCalls] using h4⟩

/-- C1, witness: provider 3 credits the tuple (7, 3, 0, money) with 100, 50 and
25, starting from the empty database. -/
theorem C1_conservation_witness :
    ∃ b, (runCalls emptyDB
        [⟨noFaults, ⟨some 3, some RoleProvider⟩, ⟨7, 3, 0, BalanceTypeMoney, 100, "a"⟩⟩,
         ⟨noFaults, ⟨some 3, some RoleProvider⟩, ⟨7, 3, 0, BalanceTypeMoney, 50, "b"⟩⟩,
         ⟨noFaults, ⟨some 3, some RoleProvider⟩, ⟨7, 3, 0, BalanceTypeMoney, 25, "c"⟩⟩]).balanceOf
          (7, 3, 0, BalanceTypeMoney) = some b ∧
      b.Amount = ([100, 50, 25] : List ℚ).sum ∧
      (((runCalls emptyDB
        [⟨noFaults, ⟨some 3, some RoleProvider⟩, ⟨7, 3, 0, BalanceTypeMoney, 100, "a"⟩⟩,
         ⟨noFaults, ⟨some 3, some RoleProvider⟩, ⟨7, 3, 0, BalanceTypeMoney, 50, "b"⟩⟩,
         ⟨noFaults, ⟨some 3, some RoleProvider⟩, ⟨7, 3, 0, BalanceTypeMoney, 25, "c"⟩⟩]).logOf
          b.ID).map (·.Amount)).sum = ([100, 50, 25] : List ℚ).sum :=
  C1_conservation (7, 3, 0, BalanceTypeMoney) emptyDB
    [⟨noFaults, ⟨some 3, some RoleProvider⟩, ⟨7, 3, 0, BalanceTypeMoney, 100, "a"⟩⟩,
     ⟨noFaults, ⟨some 3, some RoleProvider⟩, ⟨7, 3, 0, BalanceTypeMoney, 50, "b"⟩⟩,
     ⟨noFaults, ⟨some 3, some RoleProvider⟩, ⟨7, 3, 0, BalanceTypeMoney, 25, "c"⟩⟩]
    (by decide) (by decide) (by decide) (by decide!)

/-- The permission check reads the faults of the two lookups only. -/
theorem checkPermission_faults (f f2 : Faults) (tx : Tx) (userID : Nat) (userRole : UserRole)
    (req : AddBalanceRequest) (h1 : f2.studioFirst = f.studioFirst)
    (h2 : f2.relationFirst = f.relationFirst) :
    AddBalance.checkPermission f2 tx userID userRole req =
      AddBalance.checkPermission f tx userID userRole req := by
  simp only [AddBalance.checkPermission, h1, h2]

/-- The ledger part answers with a success or with an internal error. -/
theorem credit_code (f : Faults) (db : DB) (userID : Nat) (req : AddBalanceRequest) :
    (AddBalance.credit f (Begin db) userID req).1.code = 0 ∨
      (AddBalance.credit f (Begin db) userID req).1.code = 500 := by
  rcases credit_unchanged_or_success f db userID req with ⟨m, h⟩ | ⟨msg, b, h⟩
  · right
    rw [h]
    rfl
  · left
    rw [h]
    rfl

/-- C12: a call that ends in a validation error (400), a forbidden denial (403)
or a not-found denial (404) commits nothing: studios, relations, balances and
transactions are those before the call.  The denial is decided before any write
is attempted: the outcome is the same whichever of the balance lookup, the
insert, the save, the transaction insert and the commit would fail. -/
theorem C12_denials_have_no_effect (f : Faults) (db : DB) (c : Context)
    (body : Option AddBalanceRequest)
    (hden : (AddBalance f db c body).1.code = 400 ∨ (AddBalance f db c body).1.code = 403 ∨
      (AddBalance f db c body).1.code = 404) :
    (AddBalance f db c body).2 = db ∧
    ∀ f2 : Faults, f2.studioFirst = f.studioFirst → f2.relationFirst = f.relationFirst →
      AddBalance f2 db c body = AddBalance f db c body := by
  constructor
  · cases hres : (AddBalance f db c body).1 with
    | Error code m => exact AddBalance_error_unchanged f db c body code m hres
    | Success msg b =>
      rw [hres] at hden
      simp [Response.code] at hden
  · intro f2 h1 h2
    cases hid : GetCurrentUserID c with
    | none => simp only [AddBalance_def, hid]
    | some userID =>
      cases hrole : GetCurrentUserRole c with
      | none => simp only [AddBalance_def, hid, hrole]
      | some userRole =>
        by_cases hr : userRole ≠ RoleProvider ∧ userRole ≠ RoleStudio
        · simp only [AddBalance_def, hid, hrole]
          rw [if_pos hr, if_pos hr]
        · cases hbind : ShouldBindJSON body with
          | error e => simp only [AddBalance_def, hid, hrole, hr, if_false, hbind]
          | ok req =>
            have hcp := checkPermission_faults f f2 (Begin db) userID userRole req h1 h2
            cases hperm : AddBalance.checkPermission f (Begin db) userID userRole req with
            | error resp =>
              rw [hperm] at hcp
              simp only [AddBalance_def, hid, hrole, hr, if_false, hbind, hperm, hcp]
            | ok req2 =>
              exfalso
              have hcall : AddBalance f db c body = AddBalance.credit f (Begin db) userID req2 := by
                simp only [AddBalance_def, hid, hrole, hr, if_false, hbind, hperm]
              rw [hcall] at hden
              rcases credit_code f db userID req2 with h0 | h0 <;> rw [h0] at hden <;>
                simp at hden

/-- C12, witness: studio actor 9 owns no studio; the answer is 404 and the
database is unchanged. -/
theorem C12_denials_have_no_effect_witness :
    (AddBalance noFaults studioScenarioDB ⟨some 8, some RoleStudio⟩
        (some ⟨7, 3, 0, BalanceTypeMoney, 100, ""⟩)).2 = studioScenarioDB ∧
    ∀ f2 : Faults, f2.studioFirst = noFaults.studioFirst →
      f2.relationFirst = noFaults.relationFirst →
      AddBalance f2 studioScenarioDB ⟨some 8, some RoleStudio⟩
          (some ⟨7, 3, 0, BalanceTypeMoney, 100, ""⟩) =
        AddBalance noFaults studioScenarioDB ⟨some 8, some RoleStudio⟩
          (some ⟨7, 3, 0, BalanceTypeMoney, 100, ""⟩) :=
  C12_denials_have_no_effect noFaults studioScenarioDB ⟨some 8, some RoleStudio⟩
    (some ⟨7, 3, 0, BalanceTypeMoney, 100, ""⟩) (Or.inr (Or.inr (by decide!)))

/-- C13: a request by a provider or studio actor whose amount is zero or
negative, whose type is none of money, time and point, or whose player id or
provider id is zero, is answered with the validation error (400) and commits
nothing, whatever the database holds and whichever database calls would fail. -/
theorem C13_credits_only (f : Faults) (db : DB) (userID : Nat) (userRole : UserRole)
    (req : AddBalanceRequest) (hr : userRole = RoleProvider ∨ userRole = RoleStudio)
    (hbad : req.Amount ≤ 0 ∨
      (req.Typ ≠ BalanceTypeMoney ∧ req.Typ ≠ BalanceTypeTime ∧ req.Typ ≠ BalanceTypePoint) ∨
      req.PlayerID = 0 ∨ req.ProviderID = 0) :
    AddBalance f db ⟨some userID, some userRole⟩ (some req) =
      (BadRequest "validation failed", db) := by
  have hr2 : ¬ (userRole ≠ RoleProvider ∧ userRole ≠ RoleStudio) := by
    rintro ⟨h1, h2⟩
    rcases hr with h | h
    · exact h1 h
    · exact h2 h
  have hv : req.valid = false := by
    rcases hbad with h | ⟨h1, h2, h3⟩ | h | h
    · have : ¬ (0 < req.Amount) := not_lt.2 h
      simp [AddBalanceRequest.valid, this]
    · simp [AddBalanceRequest.valid, h1, h2, h3]
    · simp [AddBalanceRequest.valid, h]
    · simp [AddBalanceRequest.valid, h]
  simp only [AddBalance_def, GetCurrentUserID, GetCurrentUserRole, hr2, if_false, ShouldBindJSON, hv,
    Bool.false_eq_true]

/-- C13, witness: provider 3 asks to credit itself with the amount 0. -/
theorem C13_credits_only_witness :
    AddBalance noFaults emptyDB ⟨some 3, some RoleProvider⟩
        (some ⟨7, 3, 0, BalanceTypeMoney, 0, ""⟩) =
      (BadRequest "validation failed", emptyDB) :=
  C13_credits_only noFaults emptyDB 3 RoleProvider ⟨7, 3, 0, BalanceTypeMoney, 0, ""⟩
    (Or.inl rfl) (Or.inl (by decide!))

/-- C14: a successful AddBalance appends exactly one transaction row.  Its type
is recharge, its amount is the requested amount, which is positive, its
description is that of the request, its operator id is the id of the acting
user, and its balance id is the id of the row that was credited: the row of the
resolved tuple after the call, which has the player, provider and type of the
request. -/
theorem C14_transaction_fields (f : Faults) (db db2 : DB) (c : Context)
    (body : Option AddBalanceRequest) (msg : String) (b : Balance)
    (h : AddBalance f db c body = (Response.Success msg b, db2)) :
    ∃ userID req t, GetCurrentUserID c = some userID ∧ body = some req ∧
      db2.balance_transactions = db.balance_transactions ++ [t] ∧
      t.Typ = TransactionTypeRecharge ∧ t.Amount = req.Amount ∧ 0 < t.Amount ∧
      t.Description = req.Description ∧ t.OperatorID = userID ∧ t.BalanceID = b.ID ∧
      db2.balanceOf b.key = some b ∧
      db2.balances.find? (fun row => row.ID == t.BalanceID) = some b ∧
      b.PlayerID = req.PlayerID ∧ b.ProviderID = req.ProviderID ∧ b.Typ = req.Typ := by
  obtain ⟨userID, userRole, req, req2, hid, -, -, hbody, hvalid, hperm, hkey, -, hrow, hrowID, -,
    -, hlog, -, -⟩ := AddBalance_success_shape f db db2 c body msg b h
  obtain ⟨hp, hpr, ht, ha, hd⟩ := checkPermission_fields f _ userID userRole req req2 hperm
  have hpos : 0 < req.Amount := by
    simp only [AddBalanceRequest.valid, Bool.and_eq_true, decide_eq_true_eq] at hvalid
    exact hvalid.2.2
  simp only [Balance.key, AddBalanceRequest.key, Prod.mk.injEq] at hkey
  refine ⟨userID, req, _, hid, hbody, hlog, rfl, ha, ?_, hd, rfl, rfl, ?_, hrowID, ?_, ?_, ?_⟩
  · simp only [ha]
    exact hpos
  · have : b.key = req2.key := by
      simp only [Balance.key, AddBalanceRequest.key, Prod.mk.injEq]
      exact hkey
    rw [this]
    exact hrow
  · rw [hkey.1, hp]
  · rw [hkey.2.1, hpr]
  · rw [hkey.2.2.2, ht]

/-- C14, witness: the studio scenario; owner 9 credits provider 3 with 100. -/
theorem C14_transaction_fields_witness :
    ∃ userID req t, GetCurrentUserID ⟨some 9, some RoleStudio⟩ = some userID ∧
      some (⟨7, 3, 0, BalanceTypeMoney, 100, "gift"⟩ : AddBalanceRequest) = some req ∧
      ({ studioScenarioDB with
          balances := [⟨1, 7, 3, 2, BalanceTypeMoney, 100, 0⟩]
          balance_transactions := [⟨1, 1, TransactionTypeRecharge, 100, 0, 100, "gift", 9⟩] }
        : DB).balance_transactions = studioScenarioDB.balance_transactions ++ [t] ∧
      t.Typ = TransactionTypeRecharge ∧ t.Amount = req.Amount ∧ 0 < t.Amount ∧
      t.Description = req.Description ∧ t.OperatorID = userID ∧
      t.BalanceID = (⟨1, 7, 3, 2, BalanceTypeMoney, 100, 0⟩ : Balance).ID ∧
      ({ studioScenarioDB with
          balances := [⟨1, 7, 3, 2, BalanceTypeMoney, 100, 0⟩]
          balance_transactions := [⟨1, 1, TransactionTypeRecharge, 100, 0, 100, "gift", 9⟩] }
        : DB).balanceOf (⟨1, 7, 3, 2, BalanceTypeMoney, 100, 0⟩ : Balance).key =
          some ⟨1, 7, 3, 2, BalanceTypeMoney, 100, 0⟩ ∧
      ({ studioScenarioDB with
          balances := [⟨1, 7, 3, 2, BalanceTypeMoney, 100, 0⟩]
          balance_transactions := [⟨1, 1, TransactionTypeRecharge, 100, 0, 100, "gift", 9⟩] }
        : DB).balances.find? (fun row => row.ID == t.BalanceID) =
          some ⟨1, 7, 3, 2, BalanceTypeMoney, 100, 0⟩ ∧
      (⟨1, 7, 3, 2, BalanceTypeMoney, 100, 0⟩ : Balance).PlayerID = req.PlayerID ∧
      (⟨1, 7, 3, 2, BalanceTypeMoney, 100, 0⟩ : Balance).ProviderID = req.ProviderID ∧
      (⟨1, 7, 3, 2, BalanceTypeMoney, 100, 0⟩ : Balance).Typ = req.Typ :=
  C14_transaction_fields noFaults studioScenarioDB
    { studioScenarioDB with
      balances := [⟨1, 7, 3, 2, BalanceTypeMoney, 100, 0⟩]
      balance_transactions := [⟨1, 1, TransactionTypeRecharge, 100, 0, 100, "gift", 9⟩] }
    ⟨some 9, some RoleStudio⟩ (some ⟨7, 3, 0, BalanceTypeMoney, 100, "gift"⟩)
    "Balance added successfully" ⟨1, 7, 3, 2, BalanceTypeMoney, 100, 0⟩ (by decide!)

/-- C16, counterexample: the lookup finds no row for the tuple (7, 3, 0, money)
and the insert of the first row is rejected.  The caller sees the internal error
(500), not a success, and nothing is committed: there is no second read and no
retry. -/
theorem C16_counterexample :
    emptyDB.balanceOf (7, 3, 0, BalanceTypeMoney) = none ∧
    AddBalance { noFaults with balanceCreate := true } emptyDB ⟨some 3, some RoleProvider⟩
        (some ⟨7, 3, 0, BalanceTypeMoney, 100, ""⟩) =
      (InternalServerError "Failed to create balance record", emptyDB) ∧
    (AddBalance { noFaults with balanceCreate := true } emptyDB ⟨some 3, some RoleProvider⟩
        (some ⟨7, 3, 0, BalanceTypeMoney, 100, ""⟩)).1.code = 500 := by
  decide!

/-- C16, amended: when the call has passed the permission check, the lookup has
found no row for the resolved tuple and the insert of the first row is rejected,
for whatever reason, AddBalance rolls back and answers with the internal error
"Failed to create balance record" (500); nothing is committed and the existing
row is not read again. -/
theorem C16_insert_rejected_is_internal_error (f : Faults) (db : DB) (c : Context)
    (body : Option AddBalanceRequest) (userID : Nat) (userRole : UserRole)
    (req req2 : AddBalanceRequest)
    (hid : GetCurrentUserID c = some userID) (hrole : GetCurrentUserRole c = some userRole)
    (hr : userRole = RoleProvider ∨ userRole = RoleStudio)
    (hbind : ShouldBindJSON body = .ok req)
    (hperm : AddBalance.checkPermission f (Begin db) userID userRole req = .ok req2)
    (hlookup : f.balanceFirst = false) (hnone : db.balanceOf req2.key = none)
    (hrej : f.balanceCreate = true) :
    AddBalance f db c body = (InternalServerError "Failed to create balance record", db) := by
  rw [AddBalance_authorized f db c body userID userRole req req2 hid hrole hr hbind hperm,
    credit_absent f db userID req2 (by rw [find_sameTuple, hnone])]
  simp [hlookup, hrej]

/-- C16, witness: studio owner 9 credits provider 3 for the first time and the
insert is rejected. -/
theorem C16_insert_rejected_is_internal_error_witness :
    AddBalance { noFaults with balanceCreate := true } studioScenarioDB
        ⟨some 9, some RoleStudio⟩ (some ⟨7, 3, 0, BalanceTypeMoney, 100, ""⟩) =
      (InternalServerError "Failed to create balance record", studioScenarioDB) :=
  C16_insert_rejected_is_internal_error { noFaults with balanceCreate := true } studioScenarioDB
    ⟨some 9, some RoleStudio⟩ (some ⟨7, 3, 0, BalanceTypeMoney, 100, ""⟩) 9 RoleStudio
    ⟨7, 3, 0, BalanceTypeMoney, 100, ""⟩ ⟨7, 3, 2, BalanceTypeMoney, 100, ""⟩ rfl rfl
    (Or.inr rfl) (by decide!) (by decide!) rfl (by decide) rfl

/-- Under distinct primary keys, the save of the credited row changes that row
only: every row is left as it is, or it is the row that was read. -/
theorem save_touches_one (rows : List Balance) (b0 b : Balance)
    (hpk : (rows.map (·.ID)).Nodup) (hmem : b0 ∈ rows) :
    ∀ row ∈ rows, (if row.ID = b0.ID then b else row) = row ∨
      (row = b0 ∧ (if row.ID = b0.ID then b else row) = b) := by
  intro row hrow
  by_cases hid : row.ID = b0.ID
  · right
    exact ⟨List.inj_on_of_nodup_map hpk hrow hmem hid, by simp [hid]⟩
  · left
    simp [hid]

/-- The balances table after a successful call: the row that was read is
overwritten in place, or the new row is appended. -/
theorem AddBalance_success_balances (f : Faults) (db db2 : DB) (c : Context)
    (body : Option AddBalanceRequest) (msg : String) (b : Balance)
    (h : AddBalance f db c body = (Response.Success msg b, db2)) :
    (∃ b0, db.balanceOf b.key = some b0 ∧ b0 ∈ db.balances ∧ b.ID = b0.ID ∧ b.key = b0.key ∧
        b.FrozenAmount = b0.FrozenAmount ∧
        db2.balances = db.balances.map (fun row => if row.ID = b0.ID then b else row)) ∨
    (db.balanceOf b.key = none ∧ b.ID = nextID (db.balances.map (·.ID)) ∧
        b.FrozenAmount = 0 ∧ db2.balances = db.balances ++ [b]) := by
  obtain ⟨userID, userRole, req, req2, -, -, -, -, -, -, hcredit⟩ :=
    AddBalance_success_inv f db db2 c body msg b h
  rcases credit_success_inv f db db2 userID req2 msg b hcredit with
    ⟨b0, hfind, hb, hdb⟩ | ⟨hfind, hb, hdb⟩
  · left
    have hkey0 : b0.key = req2.key := by
      have := List.find?_some hfind
      simpa using this
    have hkey : b.key = b0.key := by rw [hb]; rfl
    refine ⟨b0, ?_, List.mem_of_find?_eq_some hfind, by rw [hb], hkey, by rw [hb], by rw [hdb]⟩
    rw [hkey, hkey0]
    exact hfind
  · right
    have hkey : b.key = req2.key := by rw [hb]; rfl
    refine ⟨by rw [hkey]; exact hfind, by rw [hb]; rfl, by rw [hb]; rfl, by rw [hdb]⟩

/-- C11: tuple uniqueness is an invariant of AddBalance.  On a balances table
with distinct primary keys and at most one row per tuple (player, provider,
studio, type), every call, whatever its request and outcome, leaves a table with
distinct primary keys and at most one row per tuple.  The table keeps its length,
or the call succeeds and appends the returned row, and then no row of the tuple
of that row existed before the call. -/
theorem C11_tuple_uniqueness_invariant (f : Faults) (db : DB) (c : Context)
    (body : Option AddBalanceRequest)
    (hpk : (db.balances.map (·.ID)).Nodup)
    (huniq : (db.balances.map Balance.key).Nodup) :
    ((AddBalance f db c body).2.balances.map Balance.key).Nodup ∧
    ((AddBalance f db c body).2.balances.map (·.ID)).Nodup ∧
    ((AddBalance f db c body).2.balances.length = db.balances.length ∨
      ∃ msg b, (AddBalance f db c body).1 = Response.Success msg b ∧
        (AddBalance f db c body).2.balances = db.balances ++ [b] ∧
        db.balanceOf b.key = none ∧ ∀ row ∈ db.balances, row.key ≠ b.key) := by
  cases hres : (AddBalance f db c body).1 with
  | Error code m =>
    rw [AddBalance_error_unchanged f db c body code m hres]
    exact ⟨huniq, hpk, Or.inl rfl⟩
  | Success msg b =>
    have h : AddBalance f db c body = (Response.Success msg b, (AddBalance f db c body).2) := by
      rw [← hres]
    rcases AddBalance_success_balances f db _ c body msg b h with
      ⟨b0, -, hmem, hid, hkey, -, hbal⟩ | ⟨hnone, hid, -, hbal⟩
    · have htouch := save_touches_one db.balances b0 b hpk hmem
      have hk : (db.balances.map (fun row => if row.ID = b0.ID then b else row)).map Balance.key
          = db.balances.map Balance.key := by
        rw [List.map_map]
        apply List.map_congr_left
        intro row hrow
        rcases htouch row hrow with h1 | ⟨h1, h2⟩
        · simp only [Function.comp]
          rw [h1]
        · simp only [Function.comp]
          rw [h2, h1, hkey]
      have hi : (db.balances.map (fun row => if row.ID = b0.ID then b else row)).map (·.ID)
          = db.balances.map (·.ID) := by
        rw [List.map_map]
        apply List.map_congr_left
        intro row hrow
        rcases htouch row hrow with h1 | ⟨h1, h2⟩
        · simp only [Function.comp]
          rw [h1]
        · simp only [Function.comp]
          rw [h2, h1, hid]
      rw [hbal, hk, hi]
      exact ⟨huniq, hpk, Or.inl (by simp)⟩
    · have hfresh : ∀ row ∈ db.balances, row.key ≠ b.key := by
        intro row hrow
        have := List.find?_eq_none.1 hnone row hrow
        simpa using this
      rw [hbal]
      refine ⟨?_, ?_, Or.inr ⟨msg, b, rfl, rfl, hnone, hfresh⟩⟩
      · rw [List.map_append, List.map_cons, List.map_nil]
        apply List.Nodup.append huniq (List.nodup_singleton _)
        intro k hk1 hk2
        rw [List.mem_singleton] at hk2
        obtain ⟨row, hrow, hrk⟩ := List.mem_map.1 hk1
        exact hfresh row hrow (hrk.trans hk2)
      · rw [List.map_append, List.map_cons, List.map_nil]
        apply List.Nodup.append hpk (List.nodup_singleton _)
        intro i hi1 hi2
        rw [List.mem_singleton] at hi2
        have := lt_nextID _ _ hi1
        omega

/-- C11, witness: a second credit to the tuple (7, 3, 0, money) on a table that
also holds a row of the tuple (7, 3, 2, money). -/
theorem C11_tuple_uniqueness_invariant_witness :
    ((AddBalance noFaults twoRowsDB ⟨some 3, some RoleProvider⟩
        (some ⟨7, 3, 0, BalanceTypeMoney, 50, ""⟩)).2.balances.map Balance.key).Nodup ∧
    ((AddBalance noFaults twoRowsDB ⟨some 3, some RoleProvider⟩
        (some ⟨7, 3, 0, BalanceTypeMoney, 50, ""⟩)).2.balances.map (·.ID)).Nodup ∧
    ((AddBalance noFaults twoRowsDB ⟨some 3, some RoleProvider⟩
        (some ⟨7, 3, 0, BalanceTypeMoney, 50, ""⟩)).2.balances.length =
        twoRowsDB.balances.length ∨
      ∃ msg b, (AddBalance noFaults twoRowsDB ⟨some 3, some RoleProvider⟩
          (some ⟨7, 3, 0, BalanceTypeMoney, 50, ""⟩)).1 = Response.Success msg b ∧
        (AddBalance noFaults twoRowsDB ⟨some 3, some RoleProvider⟩
          (some ⟨7, 3, 0, BalanceTypeMoney, 50, ""⟩)).2.balances = twoRowsDB.balances ++ [b] ∧
        twoRowsDB.balanceOf b.key = none ∧ ∀ row ∈ twoRowsDB.balances, row.key ≠ b.key) :=
  C11_tuple_uniqueness_invariant noFaults twoRowsDB ⟨some 3, some RoleProvider⟩
    (some ⟨7, 3, 0, BalanceTypeMoney, 50, ""⟩) (by decide) (by decide)

/-- C15: audit permanence and frame.  For every call on a balances table with
distinct primary keys: (1) the call answers with an error and the log is the log
before the call, or it answers with a success and the log is the log before the
call followed by one new row; (2) the balances table after the call is the table
before it, row by row in place, possibly followed by one new row, where every
row keeps its primary key, its tuple and its frozen amount, and every row is
unchanged except the row of the tuple of the returned row, which becomes the
returned row. -/
theorem C15_audit_permanence_and_frame (f : Faults) (db : DB) (c : Context)
    (body : Option AddBalanceRequest) (hpk : (db.balances.map (·.ID)).Nodup) :
    (((∃ code m, (AddBalance f db c body).1 = Response.Error code m) ∧
        (AddBalance f db c body).2.balance_transactions = db.balance_transactions) ∨
      ((∃ msg b, (AddBalance f db c body).1 = Response.Success msg b) ∧
        ∃ t, (AddBalance f db c body).2.balance_transactions = db.balance_transactions ++ [t])) ∧
    ∃ g : Balance → Balance,
      ((AddBalance f db c body).2.balances = db.balances.map g ∨
        ∃ b, (AddBalance f db c body).2.balances = db.balances.map g ++ [b]) ∧
      ∀ row ∈ db.balances, (g row).ID = row.ID ∧ (g row).key = row.key ∧
        (g row).FrozenAmount = row.FrozenAmount ∧
        (g row = row ∨ ∃ msg b, (AddBalance f db c body).1 = Response.Success msg b ∧
          db.balanceOf b.key = some row ∧ g row = b) := by
  cases hres : (AddBalance f db c body).1 with
  | Error code m =>
    rw [AddBalance_error_unchanged f db c body code m hres]
    refine ⟨Or.inl ⟨⟨code, m, rfl⟩, rfl⟩, id, Or.inl (by simp), ?_⟩
    intro row _
    exact ⟨rfl, rfl, rfl, Or.inl rfl⟩
  | Success msg b =>
    have h : AddBalance f db c body = (Response.Success msg b, (AddBalance f db c body).2) := by
      rw [← hres]
    obtain ⟨userID, userRole, req, req2, -, -, -, -, -, -, -, -, -, -, -, -, hlog, -, -⟩ :=
      AddBalance_success_shape f db _ c body msg b h
    refine ⟨Or.inr ⟨⟨msg, b, rfl⟩, _, hlog⟩, ?_⟩
    rcases AddBalance_success_balances f db _ c body msg b h with
      ⟨b0, hfind, hmem, hid, hkey, hfrozen, hbal⟩ | ⟨-, -, -, hbal⟩
    · refine ⟨fun row => if row.ID = b0.ID then b else row, Or.inl hbal, ?_⟩
      intro row hrow
      rcases save_touches_one db.balances b0 b hpk hmem row hrow with h1 | ⟨h1, h2⟩
      · beta_reduce
        rw [h1]
        exact ⟨rfl, rfl, rfl, Or.inl rfl⟩
      · beta_reduce
        rw [h2, h1]
        exact ⟨hid, hkey, hfrozen, Or.inr ⟨msg, b, rfl, hfind, rfl⟩⟩
    · refine ⟨id, Or.inr ⟨b, by simp [hbal]⟩, ?_⟩
      intro row _
      exact ⟨rfl, rfl, rfl, Or.inl rfl⟩

/-- C15, witness: a second credit to the tuple (7, 3, 0, money) on a ledger with
two balance rows and two transactions. -/
theorem C15_audit_permanence_and_frame_witness :
    (((∃ code m, (AddBalance noFaults twoRowsDB ⟨some 3, some RoleProvider⟩
          (some ⟨7, 3, 0, BalanceTypeMoney, 50, ""⟩)).1 = Response.Error code m) ∧
        (AddBalance noFaults twoRowsDB ⟨some 3, some RoleProvider⟩
          (some ⟨7, 3, 0, BalanceTypeMoney, 50, ""⟩)).2.balance_transactions =
          twoRowsDB.balance_transactions) ∨
      ((∃ msg b, (AddBalance noFaults twoRowsDB ⟨some 3, some RoleProvider⟩
          (some ⟨7, 3, 0, BalanceTypeMoney, 50, ""⟩)).1 = Response.Success msg b) ∧
        ∃ t, (AddBalance noFaults twoRowsDB ⟨some 3, some RoleProvider⟩
          (some ⟨7, 3, 0, BalanceTypeMoney, 50, ""⟩)).2.balance_transactions =
          twoRowsDB.balance_transactions ++ [t])) ∧
    ∃ g : Balance → Balance,
      ((AddBalance noFaults twoRowsDB ⟨some 3, some RoleProvider⟩
          (some ⟨7, 3, 0, BalanceTypeMoney, 50, ""⟩)).2.balances = twoRowsDB.balances.map g ∨
        ∃ b, (AddBalance noFaults twoRowsDB ⟨some 3, some RoleProvider⟩
          (some ⟨7, 3, 0, BalanceTypeMoney, 50, ""⟩)).2.balances =
          twoRowsDB.balances.map g ++ [b]) ∧
      ∀ row ∈ twoRowsDB.balances, (g row).ID = row.ID ∧ (g row).key = row.key ∧
        (g row).FrozenAmount = row.FrozenAmount ∧
        (g row = row ∨ ∃ msg b, (AddBalance noFaults twoRowsDB ⟨some 3, some RoleProvider⟩
            (some ⟨7, 3, 0, BalanceTypeMoney, 50, ""⟩)).1 = Response.Success msg b ∧
          twoRowsDB.balanceOf b.key = some row ∧ g row = b) :=
  C15_audit_permanence_and_frame noFaults twoRowsDB ⟨some 3, some RoleProvider⟩
    (some ⟨7, 3, 0, BalanceTypeMoney, 50, ""⟩) (by decide)

/-- C18, counterexample: player 8 asks for the transactions of the balance id
4294967296 (2^32).  No balance row has that id and player 8, and the answer is
the error 400 "Invalid balance ID", not the forbidden denial. -/
theorem C18_counterexample :
    (∀ b ∈ twoRowsDB.balances, ¬ (b.ID = 4294967296 ∧ b.PlayerID = 8)) ∧
    GetBalanceTransactions ⟨false, false, false⟩ twoRowsDB ⟨some 8, some RolePlayer⟩
        (some 4294967296) 1 10 "" = BadRequest "Invalid balance ID" ∧
    (GetBalanceTransactions ⟨false, false, false⟩ twoRowsDB ⟨some 8, some RolePlayer⟩
        (some 4294967296) 1 10 "").code ≠ 403 := by
  decide

/-- C18, amended: for an identified requester and a numeric balance id, (1) a
balance id of 2^32 or more is answered with the error 400 "Invalid balance ID";
(2) when no balance row has that id and the requester as player, no transaction
data is returned: the answer is an error, and for a balance id below 2^32 it is
the forbidden denial unless the lookup itself fails; (3) when the answer is a
success, the balance id is below 2^32, a balance row with that id and the
requester as player exists, and every returned item is a row of the log whose
balance id is that id and whose type is the type filter when one is given. -/
theorem C18_transactions_owner_only_in_range (f : ReadFaults) (db : DB) (userID : Nat)
    (role : Option UserRole) (balanceID : Nat) (page pageSize : Int) (transactionType : String) :
    (2 ^ 32 ≤ balanceID →
      GetBalanceTransactions f db ⟨some userID, role⟩ (some balanceID) page pageSize
        transactionType = BadRequest "Invalid balance ID") ∧
    ((∀ b ∈ db.balances, ¬ (b.ID = balanceID ∧ b.PlayerID = userID)) →
      (∃ code m, GetBalanceTransactions f db ⟨some userID, role⟩ (some balanceID) page pageSize
          transactionType = Response.Error code m) ∧
      (balanceID < 2 ^ 32 → f.balanceFirst = false →
        GetBalanceTransactions f db ⟨some userID, role⟩ (some balanceID) page pageSize
          transactionType = Forbidden "Access denied")) ∧
    (∀ msg p, GetBalanceTransactions f db ⟨some userID, role⟩ (some balanceID) page pageSize
        transactionType = Response.Success msg p →
      balanceID < 2 ^ 32 ∧
      (∃ b ∈ db.balances, b.ID = balanceID ∧ b.PlayerID = userID) ∧
      ∀ t ∈ p.list, t ∈ db.balance_transactions ∧ t.BalanceID = balanceID ∧
        (transactionType ≠ "" → t.Typ = transactionType)) := by
  by_cases hlt : balanceID < 2 ^ 32
  · have hparse : ParseUint (some balanceID) 32 = some balanceID := by
      unfold ParseUint
      exact if_pos hlt
    refine ⟨fun hge => absurd hlt (not_lt.2 hge), ?_, ?_⟩
    · intro hnone
      have hfind :
          db.balances.find? (fun b => b.ID == balanceID && b.PlayerID == userID) = none := by
        apply List.find?_eq_none.2
        intro b hb
        have := hnone b hb
        simpa using this
      by_cases hf : f.balanceFirst
      · simp [GetBalanceTransactions, GetCurrentUserID, hparse, First, hf, InternalServerError]
      · simp [GetBalanceTransactions, GetCurrentUserID, hparse, First, hf, hfind, Forbidden]
    · intro msg p h
      simp only [GetBalanceTransactions, GetCurrentUserID, hparse, First] at h
      refine ⟨hlt, ?_⟩
      by_cases hf : f.balanceFirst
      · simp [hf, InternalServerError] at h
      · simp only [hf, if_false, Bool.false_eq_true] at h
        cases hfind : db.balances.find? (fun b => b.ID == balanceID && b.PlayerID == userID) with
        | none =>
          rw [hfind] at h
          simp [Forbidden] at h
        | some b =>
          rw [hfind] at h
          have hb := List.find?_some hfind
          simp only [Bool.and_eq_true, beq_iff_eq] at hb
          refine ⟨⟨b, List.mem_of_find?_eq_some hfind, hb.1, hb.2⟩, ?_⟩
          by_cases hq : f.find
          · simp [hq, InternalServerError] at h
          · simp only [hq, if_false, Bool.false_eq_true, PageSuccess, Success,
              Response.Success.injEq] at h
            obtain ⟨-, hp⟩ := h
            intro t ht
            rw [← hp] at ht
            have ht2 := List.mem_of_mem_drop (List.mem_of_mem_take ht)
            rw [List.mem_reverse, List.mem_filter] at ht2
            obtain ⟨hmem, hcond⟩ := ht2
            simp only [Bool.and_eq_true, beq_iff_eq, Bool.or_eq_true] at hcond
            refine ⟨hmem, hcond.1, ?_⟩
            intro hne
            rcases hcond.2 with h1 | h1
            · exact absurd h1 hne
            · exact h1
  · have hparse : ParseUint (some balanceID) 32 = none := by
      unfold ParseUint
      exact if_neg hlt
    have hbad : GetBalanceTransactions f db ⟨some userID, role⟩ (some balanceID) page pageSize
        transactionType = BadRequest "Invalid balance ID" := by
      simp [GetBalanceTransactions, GetCurrentUserID, hparse]
    refine ⟨fun _ => hbad, ?_, ?_⟩
    · intro _
      exact ⟨⟨400, "Invalid balance ID", hbad⟩, fun h => absurd h hlt⟩
    · intro msg p h
      rw [hbad] at h
      simp [BadRequest] at h

/-- C18, witness: the balance id 2^32 is answered with the error 400; player 8
asks for the transactions of balance 1, which belongs to player 7, and is
denied; player 7 gets the one transaction of that balance. -/
theorem C18_transactions_owner_only_in_range_witness :
    GetBalanceTransactions ⟨false, false, false⟩ twoRowsDB ⟨some 7, some RolePlayer⟩
        (some 4294967296) 1 10 "" = BadRequest "Invalid balance ID" ∧
    GetBalanceTransactions ⟨false, false, false⟩ twoRowsDB ⟨some 8, some RolePlayer⟩ (some 1)
        1 10 "" = Forbidden "Access denied" ∧
    ∀ msg p, GetBalanceTransactions ⟨false, false, false⟩ twoRowsDB ⟨some 7, some RolePlayer⟩
        (some 1) 1 10 "" = Response.Success msg p →
      (1 : Nat) < 2 ^ 32 ∧
      (∃ b ∈ twoRowsDB.balances, b.ID = 1 ∧ b.PlayerID = 7) ∧
      ∀ t ∈ p.list, t ∈ twoRowsDB.balance_transactions ∧ t.BalanceID = 1 ∧
        (("" : String) ≠ "" → t.Typ = "") :=
  ⟨(C18_transactions_owner_only_in_range ⟨false, false, false⟩ twoRowsDB 7 (some RolePlayer)
      4294967296 1 10 "").1 (by decide),
    ((C18_transactions_owner_only_in_range ⟨false, false, false⟩ twoRowsDB 8 (some RolePlayer) 1
      1 10 "").2.1 (by decide)).2 (by decide) rfl,
    (C18_transactions_owner_only_in_range ⟨false, false, false⟩ twoRowsDB 7 (some RolePlayer) 1
      1 10 "").2.2⟩

theorem wrapInt_of_range (x : Int) (h0 : 0 ≤ x) (h1 : x < 2 ^ 63) : wrapInt x = x := by
  unfold wrapInt
  rw [Int.emod_eq_of_lt (by omega) (by omega)]
  omega

/-- C19, counterexample: a page size of 0 and a page size of 500 both give the
effective page size 10, not 1 and not 100; and page 4611686018427387905 with page
size 2 gives, in 64 bit arithmetic, the offset -9223372036854775808. -/
theorem C19_counterexample :
    (pagination 1 0).pageSize = 10 ∧ (pagination 1 0).pageSize ≠ 1 ∧
    (pagination 1 500).pageSize = 10 ∧ (pagination 1 500).pageSize ≠ 100 ∧
    (pagination 4611686018427387905 2).offset = -9223372036854775808 ∧
    (pagination 4611686018427387905 2).offset < 0 := by
  decide!

/-- C19, amended: for every requested page and page size, the effective page is
max(page, 1); the effective page size is the requested one when it lies in
[1, 100] and the default 10 otherwise, so it lies in [1, 100]; and when the
product (page - 1) * pageSize of the effective values is below 2^63, the query
offset is that product and is not negative. -/
theorem C19_pagination_bounds (page pageSize : Int) :
    (pagination page pageSize).page = max page 1 ∧
    (pagination page pageSize).pageSize =
      (if 1 ≤ pageSize ∧ pageSize ≤ 100 then pageSize else 10) ∧
    1 ≤ (pagination page pageSize).pageSize ∧ (pagination page pageSize).pageSize ≤ 100 ∧
    ((max page 1 - 1) * (pagination page pageSize).pageSize < 2 ^ 63 →
      (pagination page pageSize).offset = (max page 1 - 1) * (pagination page pageSize).pageSize ∧
      0 ≤ (pagination page pageSize).offset) := by
  have hp : (if page < 1 then 1 else page) = max page 1 := by
    split <;> omega
  have hs : (if pageSize < 1 ∨ pageSize > 100 then 10 else pageSize) =
      (if 1 ≤ pageSize ∧ pageSize ≤ 100 then pageSize else 10) := by
    by_cases h : 1 ≤ pageSize ∧ pageSize ≤ 100
    · rw [if_pos h, if_neg (by omega)]
    · rw [if_neg h, if_pos (by omega)]
  simp only [pagination, hp, hs]
  have hS1 : 1 ≤ (if 1 ≤ pageSize ∧ pageSize ≤ 100 then pageSize else 10) := by
    split <;> omega
  have hS2 : (if 1 ≤ pageSize ∧ pageSize ≤ 100 then pageSize else 10) ≤ 100 := by
    split <;> omega
  refine ⟨trivial, trivial, hS1, hS2, ?_⟩
  intro hlt
  have hP : 0 ≤ max page 1 - 1 := by omega
  have hle : max page 1 - 1 ≤
      (max page 1 - 1) * (if 1 ≤ pageSize ∧ pageSize ≤ 100 then pageSize else 10) :=
    le_mul_of_one_le_right hP hS1
  have hprod : 0 ≤
      (max page 1 - 1) * (if 1 ≤ pageSize ∧ pageSize ≤ 100 then pageSize else 10) :=
    le_trans hP hle
  rw [wrapInt_of_range (max page 1 - 1) hP (lt_of_le_of_lt hle hlt),
    wrapInt_of_range _ hprod hlt]
  exact ⟨rfl, hprod⟩

/-- C19, witness: page 3 with page size 20 gives the offset 40; the text "abc"
for both parameters parses to 0 and gives page 1, page size 10 and offset 0. -/
theorem C19_pagination_bounds_witness :
    (pagination 3 20).offset = (max 3 1 - 1) * (pagination 3 20).pageSize ∧
    0 ≤ (pagination 3 20).offset ∧
    (pagination 0 0).page = max 0 1 ∧ (pagination 0 0).offset = (max 0 1 - 1) *
      (pagination 0 0).pageSize :=
  ⟨((C19_pagination_bounds 3 20).2.2.2.2 (by decide!)).1,
    ((C19_pagination_bounds 3 20).2.2.2.2 (by decide!)).2,
    (C19_pagination_bounds 0 0).1,
    ((C19_pagination_bounds 0 0).2.2.2.2 (by decide!)).1⟩

/-- ProcessApplication answers with an error and commits nothing, or it found a
pending relation under the given primary key and overwrote the rows with that
key with the requested status. -/
theorem ProcessApplication_shape (fail : Bool) (db : DB) (c : Context) (id : Option Nat)
    (body : Option ProcessApplicationRequest) (now : Nat) :
    ((∃ code m, (ProcessApplication fail db c id body now).1 = Response.Error code m) ∧
      (ProcessApplication fail db c id body now).2 = db) ∨
    ∃ rid req relation, id = some rid ∧ body = some req ∧ req.valid = true ∧
      db.provider_studio_relations.find? (fun r => r.ID == rid) = some relation ∧
      relation.Status = StatusPending ∧
      (ProcessApplication fail db c id body now).2 =
        { db with provider_studio_relations :=
            db.provider_studio_relations.map (fun r =>
              if r.ID = relation.ID then
                { r with Status := req.Status, ProcessedAt := some now, Notes := req.Notes }
              else r) } := by
  cases id with
  | none => exact Or.inl ⟨⟨_, _, rfl⟩, rfl⟩
  | some rid =>
    cases hid : GetCurrentUserID c with
    | none =>
      left
      have h : ProcessApplication fail db c (some rid) body now =
          (Unauthorized "User not found", db) := by
        simp [ProcessApplication, hid]
      rw [h]
      exact ⟨⟨_, _, rfl⟩, rfl⟩
    | some userID =>
      cases body with
      | none =>
        left
        have h : ProcessApplication fail db c (some rid) none now =
            (BadRequest "invalid request body", db) := by
          simp [ProcessApplication, hid]
        rw [h]
        exact ⟨⟨_, _, rfl⟩, rfl⟩
      | some req =>
        by_cases hv : req.valid = true
        · cases hfind : db.provider_studio_relations.find? (fun r => r.ID == rid) with
          | none =>
            left
            have h : ProcessApplication fail db c (some rid) (some req) now =
                (NotFound "Application not found", db) := by
              simp [ProcessApplication, hid, hv, hfind]
            rw [h]
            exact ⟨⟨_, _, rfl⟩, rfl⟩
          | some relation =>
            by_cases hown : ((db.studios.find? (fun s => s.ID == relation.StudioID)).getD
                { ID := 0, Name := "", OwnerID := 0 }).OwnerID = userID
            · by_cases hst : relation.Status = StatusPending
              · by_cases hf : fail = true
                · left
                  have h : ProcessApplication fail db c (some rid) (some req) now =
                      (InternalServerError "Failed to process application", db) := by
                    simp [ProcessApplication, hid, hv, hfind, hown, hst, hf]
                  rw [h]
                  exact ⟨⟨_, _, rfl⟩, rfl⟩
                · right
                  refine ⟨rid, req, relation, rfl, rfl, hv, hfind, hst, ?_⟩
                  simp [ProcessApplication, hid, hv, hfind, hown, hst, hf]
              · left
                have h : ProcessApplication fail db c (some rid) (some req) now =
                    (BadRequest "Application has already been processed", db) := by
                  simp [ProcessApplication, hid, hv, hfind, hown, hst]
                rw [h]
                exact ⟨⟨_, _, rfl⟩, rfl⟩
            · left
              have h : ProcessApplication fail db c (some rid) (some req) now =
                  (Forbidden "Only studio owner can process applications", db) := by
                simp [ProcessApplication, hid, hv, hfind, hown]
              rw [h]
              exact ⟨⟨_, _, rfl⟩, rfl⟩
        · left
          have h : ProcessApplication fail db c (some rid) (some req) now =
              (BadRequest "validation failed", db) := by
            simp [ProcessApplication, hid, hv]
          rw [h]
          exact ⟨⟨_, _, rfl⟩, rfl⟩

/-- AddBalance never writes to the relations. -/
theorem AddBalance_relations (f : Faults) (db : DB) (c : Context)
    (body : Option AddBalanceRequest) :
    (AddBalance f db c body).2.provider_studio_relations = db.provider_studio_relations := by
  cases hres : (AddBalance f db c body).1 with
  | Error code m => rw [AddBalance_error_unchanged f db c body code m hres]
  | Success msg b =>
    have h : AddBalance f db c body = (Response.Success msg b, (AddBalance f db c body).2) := by
      rw [← hres]
    obtain ⟨userID, userRole, req, req2, -, -, -, -, -, -, -, -, -, -, -, -, -, -, hrel⟩ :=
      AddBalance_success_shape f db _ c body msg b h
    exact hrel

/-- CreateStudio never writes to the relations. -/
theorem CreateStudio_relations (f1 fail : Bool) (db : DB) (c : Context)
    (body : Option CreateStudioRequest) :
    (CreateStudio f1 fail db c body).2.provider_studio_relations =
      db.provider_studio_relations := by
  unfold CreateStudio
  repeat' split
  all_goals rfl

/-- UpdateStudio never writes to the relations. -/
theorem UpdateStudio_relations (fail : Bool) (db : DB) (c : Context) (id : Option Nat)
    (body : Option CreateStudioRequest) :
    (UpdateStudio fail db c id body).2.provider_studio_relations =
      db.provider_studio_relations := by
  unfold UpdateStudio
  repeat' split
  all_goals rfl

/-- ApplyToJoinStudio leaves the relations as they are or appends one pending row
under the next primary key. -/
theorem ApplyToJoinStudio_relations (f1 f2 : Bool) (db : DB) (c : Context) (id : Option Nat)
    (body : Option String) (now : Nat) :
    (ApplyToJoinStudio f1 f2 db c id body now).2.provider_studio_relations =
        db.provider_studio_relations ∨
      ∃ r, r.ID = nextID (db.provider_studio_relations.map (·.ID)) ∧
        r.Status = StatusPending ∧
        (ApplyToJoinStudio f1 f2 db c id body now).2.provider_studio_relations =
          db.provider_studio_relations ++ [r] := by
  unfold ApplyToJoinStudio
  repeat' split
  all_goals first
    | exact Or.inl rfl
    | exact Or.inr ⟨_, rfl, rfl, rfl⟩

theorem find_relation_by_id (rows : List ProviderStudioRelation) (r : ProviderStudioRelation)
    (hpk : (rows.map (·.ID)).Nodup) (hmem : r ∈ rows) :
    rows.find? (fun x => x.ID == r.ID) = some r := by
  induction rows with
  | nil => simp at hmem
  | cons x rest ih =>
    rw [List.map_cons, List.nodup_cons] at hpk
    rcases List.mem_cons.1 hmem with heq | hin
    · subst heq
      simp [List.find?]
    · have hne : x.ID ≠ r.ID := by
        intro h
        exact hpk.1 (h ▸ List.mem_map.2 ⟨r, hin, rfl⟩)
      have hb : (x.ID == r.ID) = false := by simpa using hne
      simp only [List.find?, hb]
      exact ih hpk.2 hin

/-- One call of a writing handler keeps the primary keys of the relations
distinct and keeps every relation row that is not pending as it is. -/
theorem Op_apply_relations (db : DB) (op : Op)
    (hpk : (db.provider_studio_relations.map (·.ID)).Nodup) :
    ((op.apply db).provider_studio_relations.map (·.ID)).Nodup ∧
      ∀ r ∈ db.provider_studio_relations, r.Status ≠ StatusPending →
        r ∈ (op.apply db).provider_studio_relations := by
  cases op with
  | addBalance f c body =>
    simp only [Op.apply, AddBalance_relations]
    exact ⟨hpk, fun r hr _ => hr⟩
  | createStudio f1 fail c body =>
    simp only [Op.apply, CreateStudio_relations]
    exact ⟨hpk, fun r hr _ => hr⟩
  | updateStudio fail c id body =>
    simp only [Op.apply, UpdateStudio_relations]
    exact ⟨hpk, fun r hr _ => hr⟩
  | applyToJoinStudio f1 f2 c id body now =>
    simp only [Op.apply]
    rcases ApplyToJoinStudio_relations f1 f2 db c id body now with h | ⟨x, hx, -, h⟩
    · rw [h]
      exact ⟨hpk, fun r hr _ => hr⟩
    · rw [h]
      refine ⟨?_, fun r hr _ => List.mem_append_left _ hr⟩
      rw [List.map_append, List.map_cons, List.map_nil]
      apply List.Nodup.append hpk (List.nodup_singleton _)
      intro i hi1 hi2
      rw [List.mem_singleton] at hi2
      have := lt_nextID _ _ hi1
      omega
  | processApplication fail c id body now =>
    simp only [Op.apply]
    rcases ProcessApplication_shape fail db c id body now with
      ⟨-, h⟩ | ⟨rid, req, relation, -, -, -, hfind, hst, h⟩
    · rw [h]
      exact ⟨hpk, fun r hr _ => hr⟩
    · rw [h]
      have hmem := List.mem_of_find?_eq_some hfind
      constructor
      · have : (db.provider_studio_relations.map (fun r =>
            if r.ID = relation.ID then
              { r with Status := req.Status, ProcessedAt := some now, Notes := req.Notes }
            else r)).map (·.ID) = db.provider_studio_relations.map (·.ID) := by
          rw [List.map_map]
          apply List.map_congr_left
          intro r _
          by_cases hr : r.ID = relation.ID <;> simp [hr]
        simp only []
        rw [this]
        exact hpk
      · intro r hr hrst
        apply List.mem_map.2
        refine ⟨r, hr, ?_⟩
        have hne : r.ID ≠ relation.ID := by
          intro hid
          have := List.inj_on_of_nodup_map hpk hr hmem hid
          exact hrst (this ▸ hst)
        simp [hne]

/-- A sequence of calls of writing handlers keeps the primary keys of the
relations distinct and keeps every relation row that is not pending. -/
theorem runOps_relations (ops : List Op) :
    ∀ db : DB, (db.provider_studio_relations.map (·.ID)).Nodup →
      ((runOps db ops).provider_studio_relations.map (·.ID)).Nodup ∧
        ∀ r ∈ db.provider_studio_relations, r.Status ≠ StatusPending →
          r ∈ (runOps db ops).provider_studio_relations := by
  induction ops with
  | nil =>
    intro db hpk
    exact ⟨hpk, fun r hr _ => hr⟩
  | cons op rest ih =>
    intro db hpk
    obtain ⟨h1, h2⟩ := Op_apply_relations db op hpk
    obtain ⟨h3, h4⟩ := ih (op.apply db) h1
    exact ⟨h3, fun r hr hst => h4 r (h2 r hr hst) hst⟩

theorem valid_status (req : ProcessApplicationRequest) (h : req.valid = true) :
    req.Status = StatusApproved ∨ req.Status = StatusRejected := by
  simp only [ProcessApplicationRequest.valid, Bool.and_eq_true, Bool.or_eq_true,
    beq_iff_eq] at h
  exact h.2

/-- C20: the status of a relation moves one way.  On a relations table with
distinct primary keys: (1) every ProcessApplication call leaves each relation
row as it is, or the row was pending and its status becomes approved or
rejected, with its key, provider and studio unchanged; (2) a ProcessApplication
call on a relation that is not pending (approved or rejected) is answered with
an error and commits nothing, so status, processed_at and notes stay; (3) after
any sequence of calls of the writing handlers (AddBalance, ProcessApplication,
ApplyToJoinStudio, CreateStudio, UpdateStudio), every relation row that was not
pending is still in the table, unchanged, and is the row of its primary key. -/
theorem C20_relation_status_one_way (db : DB)
    (hpk : (db.provider_studio_relations.map (·.ID)).Nodup) :
    (∀ (fail : Bool) (c : Context) (id : Option Nat) (body : Option ProcessApplicationRequest)
        (now : Nat),
      ∃ g : ProviderStudioRelation → ProviderStudioRelation,
        (ProcessApplication fail db c id body now).2.provider_studio_relations =
          db.provider_studio_relations.map g ∧
        ∀ r ∈ db.provider_studio_relations, g r = r ∨
          (r.Status = StatusPending ∧
            ((g r).Status = StatusApproved ∨ (g r).Status = StatusRejected) ∧
            (g r).ID = r.ID ∧ (g r).ProviderID = r.ProviderID ∧ (g r).StudioID = r.StudioID)) ∧
    (∀ (fail : Bool) (c : Context) (rid : Nat) (body : Option ProcessApplicationRequest)
        (now : Nat) (r : ProviderStudioRelation),
      db.provider_studio_relations.find? (fun x => x.ID == rid) = some r →
      r.Status ≠ StatusPending →
      (∃ code m, (ProcessApplication fail db c (some rid) body now).1 = Response.Error code m) ∧
        (ProcessApplication fail db c (some rid) body now).2 = db) ∧
    (∀ (ops : List Op) (r : ProviderStudioRelation), r ∈ db.provider_studio_relations →
      r.Status ≠ StatusPending →
      r ∈ (runOps db ops).provider_studio_relations ∧
        (runOps db ops).provider_studio_relations.find? (fun x => x.ID == r.ID) = some r) := by
  refine ⟨?_, ?_, ?_⟩
  · intro fail c id body now
    rcases ProcessApplication_shape fail db c id body now with
      ⟨-, h⟩ | ⟨rid, req, relation, -, -, hv, hfind, hst, h⟩
    · rw [h]
      exact ⟨fun r => r, (List.map_id _).symm, fun r _ => Or.inl rfl⟩
    · rw [h]
      refine ⟨_, rfl, ?_⟩
      intro r hr
      by_cases hid : r.ID = relation.ID
      · right
        have hrr : r = relation :=
          List.inj_on_of_nodup_map hpk hr (List.mem_of_find?_eq_some hfind) hid
        rw [if_pos hid]
        exact ⟨hrr ▸ hst, valid_status req hv, rfl, rfl, rfl⟩
      · left
        rw [if_neg hid]
  · intro fail c rid body now r hfind hst
    rcases ProcessApplication_shape fail db c (some rid) body now with
      ⟨h1, h2⟩ | ⟨rid2, req, relation, hrid, -, -, hfind2, hst2, -⟩
    · exact ⟨h1, h2⟩
    · cases hrid
      rw [hfind] at hfind2
      cases hfind2
      exact absurd hst2 hst
  · intro ops r hr hst
    obtain ⟨h1, h2⟩ := runOps_relations ops db hpk
    exact ⟨h2 r hr hst, find_relation_by_id _ r h1 (h2 r hr hst)⟩

/-- C20, witness: in the studio scenario the relation of provider 3 with studio 2
is approved.  The owner tries to reject it, the provider applies again, and the
owner tries to reject once more: the row is still the approved row. -/
theorem C20_relation_status_one_way_witness :
    (⟨1, 3, 2, StatusApproved, 0, some 1, ""⟩ : ProviderStudioRelation) ∈
        (runOps studioScenarioDB
          [Op.processApplication false ⟨some 9, some RoleStudio⟩ (some 1)
              (some ⟨StatusRejected, "no"⟩) 7,
            Op.applyToJoinStudio false false ⟨some 3, some RoleProvider⟩ (some 2) (some "again") 8,
            Op.processApplication false ⟨some 9, some RoleStudio⟩ (some 2)
              (some ⟨StatusRejected, "no"⟩) 9]).provider_studio_relations ∧
      (runOps studioScenarioDB
          [Op.processApplication false ⟨some 9, some RoleStudio⟩ (some 1)
              (some ⟨StatusRejected, "no"⟩) 7,
            Op.applyToJoinStudio false false ⟨some 3, some RoleProvider⟩ (some 2) (some "again") 8,
            Op.processApplication false ⟨some 9, some RoleStudio⟩ (some 2)
              (some ⟨StatusRejected, "no"⟩) 9]).provider_studio_relations.find?
          (fun x => x.ID == (⟨1, 3, 2, StatusApproved, 0, some 1, ""⟩ :
            ProviderStudioRelation).ID) = some ⟨1, 3, 2, StatusApproved, 0, some 1, ""⟩ :=
  (C20_relation_status_one_way studioScenarioDB (by decide)).2.2
    [Op.processApplication false ⟨some 9, some RoleStudio⟩ (some 1)
        (some ⟨StatusRejected, "no"⟩) 7,
      Op.applyToJoinStudio false false ⟨some 3, some RoleProvider⟩ (some 2) (some "again") 8,
      Op.processApplication false ⟨some 9, some RoleStudio⟩ (some 2)
        (some ⟨StatusRejected, "no"⟩) 9]
    ⟨1, 3, 2, StatusApproved, 0, some 1, ""⟩ (by decide) (by decide)

theorem pow2_eq_zpow (z : Int) : pow2 z = (2 : ℚ) ^ z := by
  unfold pow2
  split
  · rename_i h
    have hz : z = (z.toNat : Int) := (Int.toNat_of_nonneg h).symm
    conv_rhs => rw [hz]
    rw [zpow_natCast]
    push_cast
    rfl
  · rename_i h
    have hz : z = -(((-z).toNat : Nat) : Int) := by
      rw [Int.toNat_of_nonneg (by omega)]
      omega
    conv_rhs => rw [hz]
    rw [zpow_neg, zpow_natCast]
    push_cast
    rw [one_div]

theorem pow2_pos (z : Int) : 0 < pow2 z := by
  rw [pow2_eq_zpow]
  exact zpow_pos (by norm_num) z

theorem pow2_le_pow2 (a b : Int) (h : a ≤ b) : pow2 a ≤ pow2 b := by
  rw [pow2_eq_zpow, pow2_eq_zpow]
  exact zpow_le_zpow_right₀ (by norm_num) h

theorem halvings_spec : ∀ (fuel n : Nat), n ≤ fuel → n ≠ 0 →
    2 ^ halvings fuel n ≤ n ∧ n < 2 ^ (halvings fuel n + 1) := by
  intro fuel
  induction fuel with
  | zero =>
    intro n h h0
    omega
  | succ fuel ih =>
    intro n h h0
    unfold halvings
    by_cases h2 : n < 2
    · rw [if_pos h2]
      simp only [pow_zero, zero_add, pow_one]
      omega
    · rw [if_neg h2]
      obtain ⟨h3, h4⟩ := ih (n / 2) (by omega) (by omega)
      rw [pow_succ, pow_succ]
      rw [pow_succ] at h4
      omega

theorem floorLog2_spec (n : Nat) (h : n ≠ 0) :
    2 ^ floorLog2 n ≤ n ∧ n < 2 ^ (floorLog2 n + 1) :=
  halvings_spec n n (le_refl n) h

/-- The binary exponent brackets a non-zero rational between two powers of two. -/
theorem ilog2_spec (x : ℚ) (hx : x ≠ 0) :
    pow2 (ilog2 x) ≤ |x| ∧ |x| < pow2 (ilog2 x + 1) := by
  have hN : x.num.natAbs ≠ 0 := by
    intro h
    exact hx (Rat.num_eq_zero.1 (Int.natAbs_eq_zero.1 h))
  obtain ⟨hN1, hN2⟩ := floorLog2_spec x.num.natAbs hN
  obtain ⟨hD1, hD2⟩ := floorLog2_spec x.den x.den_nz
  have habs : |x| = (x.num.natAbs : ℚ) / (x.den : ℚ) := by
    rw [Rat.abs_def, Rat.divInt_eq_div]
    push_cast
    rw [Nat.cast_natAbs, Int.cast_abs]
  have hDpos : (0 : ℚ) < x.den := by exact_mod_cast x.den_pos
  have hN1q : ((2 : ℚ) ^ floorLog2 x.num.natAbs) ≤ (x.num.natAbs : ℚ) := by exact_mod_cast hN1
  have hN2q : (x.num.natAbs : ℚ) < (2 : ℚ) ^ (floorLog2 x.num.natAbs + 1) := by
    exact_mod_cast hN2
  have hD1q : ((2 : ℚ) ^ floorLog2 x.den) ≤ (x.den : ℚ) := by exact_mod_cast hD1
  have hD2q : (x.den : ℚ) < (2 : ℚ) ^ (floorLog2 x.den + 1) := by exact_mod_cast hD2
  have h2 : (2 : ℚ) ≠ 0 := by norm_num
  have hlow : pow2 ((floorLog2 x.num.natAbs : Int) - (floorLog2 x.den : Int) - 1) ≤ |x| := by
    rw [pow2_eq_zpow, habs, zpow_sub_one₀ h2, zpow_sub₀ h2, zpow_natCast, zpow_natCast,
      le_div_iff₀ hDpos]
    have hp : (0 : ℚ) < 2 ^ floorLog2 x.den := by positivity
    rw [pow_succ] at hD2q
    have h3 : (2 : ℚ) ^ floorLog2 x.num.natAbs / 2 ^ floorLog2 x.den * 2⁻¹ * (x.den : ℚ) ≤
        (2 : ℚ) ^ floorLog2 x.num.natAbs / 2 ^ floorLog2 x.den * 2⁻¹ *
          (2 ^ floorLog2 x.den * 2) :=
      mul_le_mul_of_nonneg_left hD2q.le (by positivity)
    have h4 : (2 : ℚ) ^ floorLog2 x.num.natAbs / 2 ^ floorLog2 x.den * 2⁻¹ *
          (2 ^ floorLog2 x.den * 2) = 2 ^ floorLog2 x.num.natAbs := by
      field_simp
    linarith
  have hup : |x| < pow2 ((floorLog2 x.num.natAbs : Int) - (floorLog2 x.den : Int) + 1) := by
    rw [pow2_eq_zpow, habs, zpow_add_one₀ h2, zpow_sub₀ h2, zpow_natCast, zpow_natCast,
      div_lt_iff₀ hDpos]
    have hp : (0 : ℚ) < 2 ^ floorLog2 x.den := by positivity
    rw [pow_succ] at hN2q
    have h3 : (2 : ℚ) ^ floorLog2 x.num.natAbs / 2 ^ floorLog2 x.den * 2 *
          (2 ^ floorLog2 x.den) ≤
        (2 : ℚ) ^ floorLog2 x.num.natAbs / 2 ^ floorLog2 x.den * 2 * (x.den : ℚ) :=
      mul_le_mul_of_nonneg_left hD1q (by positivity)
    have h4 : (2 : ℚ) ^ floorLog2 x.num.natAbs / 2 ^ floorLog2 x.den * 2 *
          (2 ^ floorLog2 x.den) = 2 ^ floorLog2 x.num.natAbs * 2 := by
      field_simp
    linarith
  unfold ilog2
  simp only []
  split
  · rename_i h
    exact ⟨h, hup⟩
  · rename_i h
    refine ⟨hlow, ?_⟩
    rw [sub_add_cancel]
    exact not_le.1 h

theorem floor_le_roundNearestEven (y : ℚ) : Rat.floor y ≤ roundNearestEven y := by
  unfold roundNearestEven
  simp only []
  split
  · exact le_refl _
  · split
    · omega
    · split <;> omega

theorem roundNearestEven_le_floor_add_one (y : ℚ) : roundNearestEven y ≤ Rat.floor y + 1 := by
  unfold roundNearestEven
  simp only []
  split
  · omega
  · split
    · omega
    · split <;> omega

/-- Rounding to the nearest integer does not go below an integer below the
argument. -/
theorem roundNearestEven_ge (y : ℚ) (n : Int) (h : (n : ℚ) ≤ y) : n ≤ roundNearestEven y :=
  le_trans (Rat.le_floor.2 h) (floor_le_roundNearestEven y)

theorem roundNearestEven_le (y : ℚ) (n : Int) (h : y ≤ (n : ℚ)) : roundNearestEven y ≤ n := by
  have hfl : Rat.floor y ≤ n := by
    have h1 : ((Rat.floor y : Int) : ℚ) ≤ y := Rat.le_floor.1 (le_refl _)
    have h2 : ((Rat.floor y : Int) : ℚ) ≤ (n : ℚ) := le_trans h1 h
    exact_mod_cast h2
  by_cases heq : Rat.floor y = n
  · have h1 : ((Rat.floor y : Int) : ℚ) ≤ y := Rat.le_floor.1 (le_refl _)
    have hy : y = (n : ℚ) := by
      rw [heq] at h1
      exact le_antisymm h h1
    unfold roundNearestEven
    simp only []
    rw [heq, hy, sub_self, if_pos (by norm_num)]
  · have := roundNearestEven_le_floor_add_one y
    omega

theorem roundNearestEven_intCast (n : Int) : roundNearestEven (n : ℚ) = n := by
  have hfl : Rat.floor (n : ℚ) = n := by
    apply le_antisymm
    · have h1 : ((Rat.floor (n : ℚ) : Int) : ℚ) ≤ (n : ℚ) := Rat.le_floor.1 (le_refl _)
      exact_mod_cast h1
    · exact Rat.le_floor.2 (le_refl _)
  unfold roundNearestEven
  simp only []
  rw [hfl, sub_self, if_pos (by norm_num)]

theorem le_ilog2 (x : ℚ) (hx : x ≠ 0) (k : Int) (h : pow2 k ≤ |x|) : k ≤ ilog2 x := by
  have h2 := lt_of_le_of_lt h (ilog2_spec x hx).2
  rw [pow2_eq_zpow, pow2_eq_zpow] at h2
  have := (zpow_lt_zpow_iff_right₀ (by norm_num : (1 : ℚ) < 2)).1 h2
  omega

theorem ilog2_le (x : ℚ) (hx : x ≠ 0) (k : Int) (h : |x| < pow2 (k + 1)) : ilog2 x ≤ k := by
  have h2 := lt_of_le_of_lt (ilog2_spec x hx).1 h
  rw [pow2_eq_zpow, pow2_eq_zpow] at h2
  have := (zpow_lt_zpow_iff_right₀ (by norm_num : (1 : ℚ) < 2)).1 h2
  omega

theorem pow2_add (a b : Int) : pow2 (a + b) = pow2 a * pow2 b := by
  rw [pow2_eq_zpow, pow2_eq_zpow, pow2_eq_zpow]
  exact zpow_add₀ (by norm_num) a b

theorem pow2_natCast (k : Nat) : pow2 (k : Int) = (((2 : Int) ^ k : Int) : ℚ) := by
  rw [pow2_eq_zpow, zpow_natCast]
  push_cast
  rfl

/-- A finite rounding result is a multiple of the quantum at the argument. -/
theorem roundFloat64_some (x s : ℚ) (hx : x ≠ 0) (h : roundFloat64 x = some s) :
    s = (roundNearestEven (x / pow2 (max (ilog2 x) (-1022) - 52)) : ℚ) *
        pow2 (max (ilog2 x) (-1022) - 52) ∧ |s| < pow2 1024 := by
  unfold roundFloat64 at h
  rw [if_neg hx] at h
  simp only [] at h
  split at h
  · rename_i hlt
    cases h
    exact ⟨rfl, hlt⟩
  · cases h

/-- A positive float64 value is at least the least subnormal number. -/
theorem roundFloat64_pos_ge (raw y : ℚ) (h : roundFloat64 raw = some y) (hy : 0 < y) :
    pow2 (-1074) ≤ y := by
  by_cases hx : raw = 0
  · subst hx
    simp only [roundFloat64, if_true, Option.some.injEq] at h
    linarith
  · obtain ⟨hs, -⟩ := roundFloat64_some raw y hx h
    have hqpos : 0 < pow2 (max (ilog2 raw) (-1022) - 52) := pow2_pos _
    have hn : 0 < roundNearestEven (raw / pow2 (max (ilog2 raw) (-1022) - 52)) := by
      by_contra hneg
      have h0 : ((roundNearestEven (raw / pow2 (max (ilog2 raw) (-1022) - 52)) : Int) : ℚ) ≤ 0 := by
        exact_mod_cast not_lt.1 hneg
      have : y ≤ 0 := by
        rw [hs]
        exact mul_nonpos_of_nonpos_of_nonneg h0 hqpos.le
      linarith
    have hn1 : (1 : ℚ) ≤ (roundNearestEven (raw / pow2 (max (ilog2 raw) (-1022) - 52)) : ℚ) := by
      exact_mod_cast hn
    have hq2 : pow2 (-1074) ≤ pow2 (max (ilog2 raw) (-1022) - 52) :=
      pow2_le_pow2 _ _ (by have := le_max_right (ilog2 raw) (-1022); omega)
    calc pow2 (-1074) ≤ pow2 (max (ilog2 raw) (-1022) - 52) := hq2
      _ = 1 * pow2 (max (ilog2 raw) (-1022) - 52) := (one_mul _).symm
      _ ≤ (roundNearestEven (raw / pow2 (max (ilog2 raw) (-1022) - 52)) : ℚ) *
            pow2 (max (ilog2 raw) (-1022) - 52) := mul_le_mul_of_nonneg_right hn1 hqpos.le
      _ = y := hs.symm

/-- The quantum at a positive rational is not above it, from the least subnormal
number on. -/
theorem quantum_le (z : ℚ) (hz : pow2 (-1074) ≤ z) :
    pow2 (max (ilog2 z) (-1022) - 52) ≤ z := by
  have hzpos : 0 < z := lt_of_lt_of_le (pow2_pos _) hz
  by_cases he : ilog2 z ≤ -1022
  · rw [max_eq_right he]
    exact hz
  · rw [max_eq_left (by omega)]
    have h1 := (ilog2_spec z hzpos.ne').1
    rw [abs_of_pos hzpos] at h1
    exact le_trans (pow2_le_pow2 _ _ (by omega)) h1

/-- Rounding a rational from the least subnormal number on gives a positive
number. -/
theorem roundFloat64_pos (z s : ℚ) (hz : pow2 (-1074) ≤ z) (h : roundFloat64 z = some s) :
    0 < s := by
  have hzpos : 0 < z := lt_of_lt_of_le (pow2_pos _) hz
  obtain ⟨hs, -⟩ := roundFloat64_some z s hzpos.ne' h
  have hqpos : 0 < pow2 (max (ilog2 z) (-1022) - 52) := pow2_pos _
  have h1 : ((1 : Int) : ℚ) ≤ z / pow2 (max (ilog2 z) (-1022) - 52) := by
    rw [le_div_iff₀ hqpos]
    simpa using quantum_le z hz
  have hn := roundNearestEven_ge _ 1 h1
  have hn1 : (0 : ℚ) < (roundNearestEven (z / pow2 (max (ilog2 z) (-1022) - 52)) : ℚ) := by
    exact_mod_cast (by omega : 0 < roundNearestEven (z / pow2 (max (ilog2 z) (-1022) - 52)))
  rw [hs]
  exact mul_pos hn1 hqpos

/-- In float64 arithmetic the sum of a non-negative amount and a positive decoded
amount is positive. -/
theorem float64_add_pos (raw x y s : ℚ) (hdec : float64Arith.ofDecimal raw = some y)
    (hy : 0 < y) (hx : 0 ≤ x) (hadd : float64Arith.add x y = some s) : 0 < s := by
  have h1 := roundFloat64_pos_ge raw y hdec hy
  exact roundFloat64_pos (x + y) s (by linarith) hadd

/-- Rounding does not go below a multiple of the quantum that is not above the
argument. -/
theorem roundFloat64_ge_multiple (z s : ℚ) (hz : z ≠ 0) (h : roundFloat64 z = some s) (m : Int)
    (hm : (m : ℚ) * pow2 (max (ilog2 z) (-1022) - 52) ≤ z) :
    (m : ℚ) * pow2 (max (ilog2 z) (-1022) - 52) ≤ s := by
  obtain ⟨hs, -⟩ := roundFloat64_some z s hz h
  have hqpos : 0 < pow2 (max (ilog2 z) (-1022) - 52) := pow2_pos _
  have h1 : (m : ℚ) ≤ z / pow2 (max (ilog2 z) (-1022) - 52) := by
    rw [le_div_iff₀ hqpos]
    exact hm
  have hn : (m : ℚ) ≤ (roundNearestEven (z / pow2 (max (ilog2 z) (-1022) - 52)) : ℚ) := by
    exact_mod_cast roundNearestEven_ge _ m h1
  rw [hs]
  exact mul_le_mul_of_nonneg_right hn hqpos.le

/-- Rounding does not go above a multiple of the quantum that is not below the
argument. -/
theorem roundFloat64_le_multiple (z s : ℚ) (hz : z ≠ 0) (h : roundFloat64 z = some s) (m : Int)
    (hm : z ≤ (m : ℚ) * pow2 (max (ilog2 z) (-1022) - 52)) :
    s ≤ (m : ℚ) * pow2 (max (ilog2 z) (-1022) - 52) := by
  obtain ⟨hs, -⟩ := roundFloat64_some z s hz h
  have hqpos : 0 < pow2 (max (ilog2 z) (-1022) - 52) := pow2_pos _
  have h1 : z / pow2 (max (ilog2 z) (-1022) - 52) ≤ (m : ℚ) := by
    rw [div_le_iff₀ hqpos]
    exact hm
  have hn : (roundNearestEven (z / pow2 (max (ilog2 z) (-1022) - 52)) : ℚ) ≤ (m : ℚ) := by
    exact_mod_cast roundNearestEven_le _ m h1
  rw [hs]
  exact mul_le_mul_of_nonneg_right hn hqpos.le

theorem pow2_split (e : Int) (k : Nat) :
    (((2 : Int) ^ k : Int) : ℚ) * pow2 (e - k) = pow2 e := by
  rw [← pow2_natCast, ← pow2_add]
  congr 1
  omega

/-- In the normal range, rounding a positive rational does not go below the
power of two at its binary exponent. -/
theorem roundFloat64_ge_pow2 (z s : ℚ) (hz : 0 < z) (he : -1022 ≤ ilog2 z)
    (h : roundFloat64 z = some s) : pow2 (ilog2 z) ≤ s := by
  have h1 := (ilog2_spec z hz.ne').1
  rw [abs_of_pos hz] at h1
  have h2 := roundFloat64_ge_multiple z s hz.ne' h ((2 : Int) ^ 52)
  rw [max_eq_left he] at h2
  have h3 := pow2_split (ilog2 z) 52
  simp only [Nat.cast_ofNat] at h3
  rw [h3] at h2
  exact h2 h1

/-- Rounding a positive rational does not go above the next power of two. -/
theorem roundFloat64_le_pow2 (z s : ℚ) (hz : 0 < z) (h : roundFloat64 z = some s) :
    s ≤ pow2 (max (ilog2 z) (-1022) + 1) := by
  have h1 := (ilog2_spec z hz.ne').2
  rw [abs_of_pos hz] at h1
  have h2 := roundFloat64_le_multiple z s hz.ne' h ((2 : Int) ^ 53)
  have h3 := pow2_split (max (ilog2 z) (-1022) + 1) 53
  simp only [Nat.cast_ofNat] at h3
  have h4 : max (ilog2 z) (-1022) + 1 - 53 = max (ilog2 z) (-1022) - 52 := by omega
  rw [h4] at h3
  rw [h3] at h2
  exact h2 (le_trans h1.le (pow2_le_pow2 _ _ (by have := le_max_left (ilog2 z) (-1022); omega)))

/-- A multiple of its own quantum below 2^1024 is a float64 value. -/
theorem roundFloat64_of_multiple (s : ℚ) (m : Int)
    (hm : s = (m : ℚ) * pow2 (max (ilog2 s) (-1022) - 52)) (hlt : |s| < pow2 1024) :
    roundFloat64 s = some s := by
  by_cases hs : s = 0
  · rw [hs]
    simp [roundFloat64]
  · have hqpos : 0 < pow2 (max (ilog2 s) (-1022) - 52) := pow2_pos _
    have hdiv : s / pow2 (max (ilog2 s) (-1022) - 52) = (m : ℚ) := by
      rw [div_eq_iff hqpos.ne']
      exact hm
    unfold roundFloat64
    rw [if_neg hs]
    simp only []
    rw [hdiv, roundNearestEven_intCast, ← hm, if_pos hlt]

/-- Rounding is idempotent: the float64 value of a positive rational is a float64
value. -/
theorem roundFloat64_idem (z s : ℚ) (hz : 0 < z) (h : roundFloat64 z = some s) :
    roundFloat64 s = some s := by
  obtain ⟨hs, hlt⟩ := roundFloat64_some z s hz.ne' h
  have hs0 : 0 ≤ s := by
    have := roundFloat64_ge_multiple z s hz.ne' h 0 (by simpa using hz.le)
    simpa using this
  by_cases hzero : s = 0
  · rw [hzero]
    simp [roundFloat64]
  have hspos : 0 < s := lt_of_le_of_ne hs0 (Ne.symm hzero)
  have hup := roundFloat64_le_pow2 z s hz h
  by_cases htop : s = pow2 (max (ilog2 z) (-1022) + 1)
  · have he : ilog2 s = max (ilog2 z) (-1022) + 1 := by
      apply le_antisymm
      · apply ilog2_le s hzero
        rw [abs_of_pos hspos, htop, pow2_eq_zpow, pow2_eq_zpow]
        exact zpow_lt_zpow_right₀ (by norm_num) (by omega)
      · apply le_ilog2 s hzero
        rw [abs_of_pos hspos, htop]
    have hmax : max (ilog2 s) (-1022) = max (ilog2 z) (-1022) + 1 := by
      rw [he]
      have := le_max_right (ilog2 z) (-1022)
      exact max_eq_left (by omega)
    apply roundFloat64_of_multiple s ((2 : Int) ^ 52) _ hlt
    rw [hmax]
    have h3 := pow2_split (max (ilog2 z) (-1022) + 1) 52
    simp only [Nat.cast_ofNat] at h3
    rw [h3]
    exact htop
  · have hlt2 : s < pow2 (max (ilog2 z) (-1022) + 1) := lt_of_le_of_ne hup htop
    have hle : ilog2 s ≤ max (ilog2 z) (-1022) := by
      apply ilog2_le s hzero
      rw [abs_of_pos hspos]
      exact hlt2
    have hmax : max (ilog2 s) (-1022) = max (ilog2 z) (-1022) := by
      by_cases he : -1022 ≤ ilog2 z
      · have hge := roundFloat64_ge_pow2 z s hz he h
        have h5 : ilog2 z ≤ ilog2 s := by
          apply le_ilog2 s hzero
          rw [abs_of_pos hspos]
          exact hge
        have h6 : max (ilog2 z) (-1022) = ilog2 z := max_eq_left he
        rw [h6] at hle ⊢
        have h7 : ilog2 s = ilog2 z := by omega
        rw [h7]
        exact max_eq_left he
      · have h6 : max (ilog2 z) (-1022) = -1022 := max_eq_right (by omega)
        rw [h6] at hle ⊢
        exact max_eq_right hle
    refine roundFloat64_of_multiple s
      (roundNearestEven (z / pow2 (max (ilog2 z) (-1022) - 52))) ?_ hlt
    rw [hmax]
    exact hs

/-- Rounding is monotone at a float64 value: the float64 value of a rational that
is not below a positive float64 value is not below it. -/
theorem roundFloat64_mono (x z s : ℚ) (hx : 0 < x) (hfx : roundFloat64 x = some x)
    (hxz : x ≤ z) (h : roundFloat64 z = some s) : x ≤ s := by
  have hz : 0 < z := lt_of_lt_of_le hx hxz
  obtain ⟨hxm, -⟩ := roundFloat64_some x x hx.ne' hfx
  have hex : ilog2 x ≤ ilog2 z := by
    apply le_ilog2 z hz.ne'
    rw [abs_of_pos hz]
    have := (ilog2_spec x hx.ne').1
    rw [abs_of_pos hx] at this
    exact le_trans this hxz
  by_cases hq : max (ilog2 x) (-1022) = max (ilog2 z) (-1022)
  · have h2 := roundFloat64_ge_multiple z s hz.ne' h
      (roundNearestEven (x / pow2 (max (ilog2 x) (-1022) - 52)))
    rw [← hq, ← hxm] at h2
    exact h2 hxz
  · have he : -1022 ≤ ilog2 z := by
      by_contra hne
      apply hq
      rw [max_eq_right (by omega), max_eq_right (by omega)]
    have hlt : ilog2 x < ilog2 z := by
      rcases lt_or_eq_of_le hex with h1 | h1
      · exact h1
      · exact absurd (by rw [h1]) hq
    have h1 := roundFloat64_ge_pow2 z s hz he h
    have h2 := (ilog2_spec x hx.ne').2
    rw [abs_of_pos hx] at h2
    exact le_trans h2.le (le_trans (pow2_le_pow2 _ _ (by omega)) h1)

/-! ## The ledger invariant over an arithmetic -/

/-- AddBalance keeps the invariant of the ledger tables, whatever the request,
the faults and the outcome, over every arithmetic in which the sum of a
non-negative amount and a positive decoded amount is positive. -/
theorem AddBalanceWith_keeps_invariant (ar : Arith)
    (hpos : ∀ raw x y s, ar.ofDecimal raw = some y → 0 < y → 0 ≤ x → ar.add x y = some s →
      0 < s)
    (f : Faults) (db : DB) (c : Context) (body : Option AddBalanceRequest)
    (hinv : ledgerInvariant db) :
    ledgerInvariant (AddBalanceWith ar f db c body).2 := by
  cases hres : (AddBalanceWith ar f db c body).1 with
  | Error code m =>
    rw [AddBalanceWith_error_unchanged ar f db c body code m hres]
    exact hinv
  | Success msg b =>
    have h : AddBalanceWith ar f db c body =
        (Response.Success msg b, (AddBalanceWith ar f db c body).2) := by
      rw [← hres]
    obtain ⟨hB, hT⟩ := hinv
    obtain ⟨userID, userRole, req, req2, -, -, -, hbind, hperm, -, hadd, -, -, hold, hnew, hlog,
      -, -⟩ := AddBalanceWith_success_shape ar f db _ c body msg b h
    obtain ⟨-, -, -, ha, -⟩ := checkPermission_fields f _ userID userRole req req2 hperm
    obtain ⟨raw, -, hdec, -, hvalid⟩ := ShouldBindJSONWith_ok ar body req hbind
    have hapos : 0 < req2.Amount := by
      rw [ha]
      simp only [AddBalanceRequest.valid, Bool.and_eq_true, decide_eq_true_eq] at hvalid
      exact hvalid.2.2
    rw [← ha] at hdec
    cases hfind : db.balanceOf req2.key with
    | some b0 =>
      obtain ⟨hb, hbal⟩ := hold b0 hfind
      have hmem : b0 ∈ db.balances := List.mem_of_find?_eq_some hfind
      have hid : b.ID = b0.ID := by rw [hb]
      have hfrozen : b.FrozenAmount = b0.FrozenAmount := by rw [hb]
      have hbpos : 0 < b.Amount := by
        rw [hfind] at hadd
        exact hpos raw.Amount b0.Amount req2.Amount b.Amount hdec hapos (hB b0 hmem).2.1.le hadd
      have hbin : b ∈ (AddBalanceWith ar f db c body).2.balances := by
        rw [hbal]
        exact List.mem_map.2 ⟨b0, hmem, by simp⟩
      constructor
      · intro row hrow
        rw [hbal] at hrow
        obtain ⟨row0, hrow0, hg⟩ := List.mem_map.1 hrow
        by_cases hr : row0.ID = b0.ID
        · rw [if_pos hr] at hg
          subst hg
          refine ⟨by rw [hfrozen]; exact (hB b0 hmem).1, hbpos, ?_⟩
          rw [hlog]
          exact ⟨_, List.mem_append_right _ (List.mem_singleton.2 rfl), rfl⟩
        · rw [if_neg hr] at hg
          subst hg
          obtain ⟨h1, h2, t, ht, htid⟩ := hB row0 hrow0
          refine ⟨h1, h2, t, ?_, htid⟩
          rw [hlog]
          exact List.mem_append_left _ ht
      · intro t ht
        rw [hlog] at ht
        rcases List.mem_append.1 ht with hold2 | hnew2
        · obtain ⟨⟨row, hrow, hrid⟩, h2, h3⟩ := hT t hold2
          refine ⟨?_, h2, h3⟩
          rw [hbal]
          by_cases hr : row.ID = b0.ID
          · exact ⟨b, List.mem_map.2 ⟨row, hrow, by simp [hr]⟩, by rw [hid, ← hr, hrid]⟩
          · exact ⟨row, List.mem_map.2 ⟨row, hrow, by simp [hr]⟩, hrid⟩
        · rw [List.mem_singleton] at hnew2
          subst hnew2
          exact ⟨⟨b, hbin, rfl⟩, rfl, hapos⟩
    | none =>
      obtain ⟨hb, hbal⟩ := hnew hfind
      have hfrozen : b.FrozenAmount = 0 := by rw [hb]; rfl
      have hbpos : 0 < b.Amount := by
        rw [hfind] at hadd
        exact hpos raw.Amount 0 req2.Amount b.Amount hdec hapos (le_refl 0) hadd
      have hbin : b ∈ (AddBalanceWith ar f db c body).2.balances := by
        rw [hbal]
        exact List.mem_append_right _ (List.mem_singleton.2 rfl)
      constructor
      · intro row hrow
        rw [hbal] at hrow
        rcases List.mem_append.1 hrow with hold2 | hnew2
        · obtain ⟨h1, h2, t, ht, htid⟩ := hB row hold2
          refine ⟨h1, h2, t, ?_, htid⟩
          rw [hlog]
          exact List.mem_append_left _ ht
        · rw [List.mem_singleton] at hnew2
          subst hnew2
          refine ⟨hfrozen, hbpos, ?_⟩
          rw [hlog]
          exact ⟨_, List.mem_append_right _ (List.mem_singleton.2 rfl), rfl⟩
      · intro t ht
        rw [hlog] at ht
        rcases List.mem_append.1 ht with hold2 | hnew2
        · obtain ⟨⟨row, hrow, hrid⟩, h2, h3⟩ := hT t hold2
          refine ⟨⟨row, ?_, hrid⟩, h2, h3⟩
          rw [hbal]
          exact List.mem_append_left _ hrow
        · rw [List.mem_singleton] at hnew2
          subst hnew2
          exact ⟨⟨b, hbin, rfl⟩, rfl, hapos⟩

/-- A successful call in `float64` arithmetic on a ledger that satisfies the
invariant: the decoded amount is positive, the returned amount is the rounded
sum of the old amount and the decoded amount, it is a `float64` value, it is not
below the old amount, and it is above the old amount when the sum is exact. -/
theorem AddBalanceFloat64_success (f : Faults) (db db2 : DB) (c : Context)
    (body : Option AddBalanceRequest) (msg : String) (b : Balance)
    (hinv : ledgerInvariantFloat64 db)
    (h : AddBalanceWith float64Arith f db c body = (Response.Success msg b, db2)) :
    ∃ raw amount, body = some raw ∧ roundFloat64 raw.Amount = some amount ∧ 0 < amount ∧
      roundFloat64 (((db.balanceOf b.key).map (·.Amount)).getD 0 + amount) = some b.Amount ∧
      roundFloat64 b.Amount = some b.Amount ∧
      ((db.balanceOf b.key).map (·.Amount)).getD 0 ≤ b.Amount ∧
      (roundFloat64 (((db.balanceOf b.key).map (·.Amount)).getD 0 + amount) =
          some (((db.balanceOf b.key).map (·.Amount)).getD 0 + amount) →
        ((db.balanceOf b.key).map (·.Amount)).getD 0 < b.Amount) ∧
      db2.balanceOf b.key = some b := by
  obtain ⟨⟨hB, -⟩, hfl⟩ := hinv
  obtain ⟨userID, userRole, req, req2, -, -, -, hbind, hperm, hkey, hadd, hrow, -, -, -, -,
    -, -⟩ := AddBalanceWith_success_shape float64Arith f db db2 c body msg b h
  obtain ⟨-, -, -, ha, -⟩ := checkPermission_fields f _ userID userRole req req2 hperm
  obtain ⟨raw, hbody, hdec, -, hvalid⟩ := ShouldBindJSONWith_ok float64Arith body req hbind
  have hapos : 0 < req2.Amount := by
    rw [ha]
    simp only [AddBalanceRequest.valid, Bool.and_eq_true, decide_eq_true_eq] at hvalid
    exact hvalid.2.2
  rw [← ha] at hdec
  rw [← hkey] at hadd hrow
  have hold0 : 0 ≤ ((db.balanceOf b.key).map (·.Amount)).getD 0 := by
    cases hfind : db.balanceOf b.key with
    | some b0 => exact (hB b0 (List.mem_of_find?_eq_some hfind)).2.1.le
    | none => exact le_refl 0
  have hmin := roundFloat64_pos_ge raw.Amount req2.Amount hdec hapos
  have hzpos : 0 < ((db.balanceOf b.key).map (·.Amount)).getD 0 + req2.Amount := by linarith
  have hbpos : 0 < b.Amount :=
    roundFloat64_pos _ b.Amount (by linarith) hadd
  refine ⟨raw, req2.Amount, hbody, hdec, hapos, hadd, roundFloat64_idem _ _ hzpos hadd, ?_, ?_,
    hrow⟩
  · cases hfind : db.balanceOf b.key with
    | some b0 =>
      have hmem : b0 ∈ db.balances := List.mem_of_find?_eq_some hfind
      rw [hfind] at hadd
      simp only [Option.map_some', Option.getD_some] at hadd ⊢
      exact roundFloat64_mono b0.Amount _ b.Amount (hB b0 hmem).2.1 (hfl b0 hmem)
        (by linarith) hadd
    | none => exact hbpos.le
  · intro hexact
    have hsum := hadd.symm.trans hexact
    simp only [Option.some.injEq] at hsum
    rw [hsum]
    linarith

/-- AddBalance in `float64` arithmetic keeps the invariant of the ledger tables
and keeps every amount a `float64` value. -/
theorem AddBalanceFloat64_keeps_invariant (f : Faults) (db : DB) (c : Context)
    (body : Option AddBalanceRequest) (hinv : ledgerInvariantFloat64 db) :
    ledgerInvariantFloat64 (AddBalanceWith float64Arith f db c body).2 := by
  refine ⟨AddBalanceWith_keeps_invariant float64Arith float64_add_pos f db c body hinv.1, ?_⟩
  cases hres : (AddBalanceWith float64Arith f db c body).1 with
  | Error code m =>
    rw [AddBalanceWith_error_unchanged float64Arith f db c body code m hres]
    exact hinv.2
  | Success msg b =>
    have h : AddBalanceWith float64Arith f db c body =
        (Response.Success msg b, (AddBalanceWith float64Arith f db c body).2) := by
      rw [← hres]
    obtain ⟨-, -, -, -, -, -, hbfl, -, -, -⟩ :=
      AddBalanceFloat64_success f db _ c body msg b hinv h
    obtain ⟨userID, userRole, req, req2, -, -, -, -, -, -, -, -, -, hold, hnew, -, -, -⟩ :=
      AddBalanceWith_success_shape float64Arith f db _ c body msg b h
    intro row hrow
    cases hfind : db.balanceOf req2.key with
    | some b0 =>
      obtain ⟨-, hbal⟩ := hold b0 hfind
      rw [hbal] at hrow
      obtain ⟨row0, hrow0, hg⟩ := List.mem_map.1 hrow
      by_cases hr : row0.ID = b0.ID
      · rw [if_pos hr] at hg
        subst hg
        exact hbfl
      · rw [if_neg hr] at hg
        subst hg
        exact hinv.2 row0 hrow0
    | none =>
      obtain ⟨-, hbal⟩ := hnew hfind
      rw [hbal] at hrow
      rcases List.mem_append.1 hrow with hold2 | hnew2
      · exact hinv.2 row hold2
      · rw [List.mem_singleton] at hnew2
        subst hnew2
        exact hbfl

/-- The studio handlers never write to the balances or to the log. -/
theorem studio_handlers_ledger (db : DB) :
    (∀ (fail : Bool) (c : Context) (id : Option Nat) (body : Option ProcessApplicationRequest)
        (now : Nat),
      (ProcessApplication fail db c id body now).2.balances = db.balances ∧
        (ProcessApplication fail db c id body now).2.balance_transactions =
          db.balance_transactions) ∧
    (∀ (f1 f2 : Bool) (c : Context) (id : Option Nat) (body : Option String) (now : Nat),
      (ApplyToJoinStudio f1 f2 db c id body now).2.balances = db.balances ∧
        (ApplyToJoinStudio f1 f2 db c id body now).2.balance_transactions =
          db.balance_transactions) ∧
    (∀ (f1 fail : Bool) (c : Context) (body : Option CreateStudioRequest),
      (CreateStudio f1 fail db c body).2.balances = db.balances ∧
        (CreateStudio f1 fail db c body).2.balance_transactions = db.balance_transactions) ∧
    (∀ (fail : Bool) (c : Context) (id : Option Nat) (body : Option CreateStudioRequest),
      (UpdateStudio fail db c id body).2.balances = db.balances ∧
        (UpdateStudio fail db c id body).2.balance_transactions = db.balance_transactions) := by
  refine ⟨?_, ?_, ?_, ?_⟩
  · intro fail c id body now
    rcases ProcessApplication_shape fail db c id body now with ⟨-, h⟩ | ⟨_, _, _, -, -, -, -, -, h⟩
    · rw [h]
      exact ⟨rfl, rfl⟩
    · rw [h]
      exact ⟨rfl, rfl⟩
  · intro f1 f2 c id body now
    unfold ApplyToJoinStudio
    repeat' split
    all_goals exact ⟨rfl, rfl⟩
  · intro f1 fail c body
    unfold CreateStudio
    repeat' split
    all_goals exact ⟨rfl, rfl⟩
  · intro fail c id body
    unfold UpdateStudio
    repeat' split
    all_goals exact ⟨rfl, rfl⟩

/-- One call of a writing handler in `float64` arithmetic keeps the invariant of
the ledger tables. -/
theorem Op_applyWith_keeps_invariant (db : DB) (op : Op) (hinv : ledgerInvariantFloat64 db) :
    ledgerInvariantFloat64 (op.applyWith float64Arith db) := by
  obtain ⟨h1, h2, h3, h4⟩ := studio_handlers_ledger db
  cases op with
  | addBalance f c body => exact AddBalanceFloat64_keeps_invariant f db c body hinv
  | processApplication fail c id body now =>
    simp only [Op.applyWith, ledgerInvariantFloat64, ledgerInvariant,
      (h1 fail c id body now).1, (h1 fail c id body now).2]
    exact hinv
  | applyToJoinStudio f1 f2 c id body now =>
    simp only [Op.applyWith, ledgerInvariantFloat64, ledgerInvariant,
      (h2 f1 f2 c id body now).1, (h2 f1 f2 c id body now).2]
    exact hinv
  | createStudio f1 fail c body =>
    simp only [Op.applyWith, ledgerInvariantFloat64, ledgerInvariant, (h3 f1 fail c body).1,
      (h3 f1 fail c body).2]
    exact hinv
  | updateStudio fail c id body =>
    simp only [Op.applyWith, ledgerInvariantFloat64, ledgerInvariant, (h4 fail c id body).1,
      (h4 fail c id body).2]
    exact hinv

/-- A sequence of calls of writing handlers in `float64` arithmetic keeps the
invariant of the ledger tables. -/
theorem runOpsWith_keeps_invariant (ops : List Op) :
    ∀ db : DB, ledgerInvariantFloat64 db →
      ledgerInvariantFloat64 (runOpsWith float64Arith db ops) := by
  induction ops with
  | nil =>
    intro db hinv
    exact hinv
  | cons op rest ih =>
    intro db hinv
    exact ih (op.applyWith float64Arith db) (Op_applyWith_keeps_invariant db op hinv)


/-- C23, counterexample: in `float64` arithmetic, from the empty ledger, provider
3 credits 1e16 to the tuple (7, 3, 0, money); a further credit of 1 to the same
tuple succeeds and returns the row with the amount 1e16, the amount the row
held before: the successful call does not increase the amount. -/
theorem C23_counterexample :
    (runOpsWith float64Arith emptyDB
        [Op.addBalance noFaults ⟨some 3, some RoleProvider⟩
          (some ⟨7, 3, 0, BalanceTypeMoney, 10000000000000000, ""⟩)]).balanceOf
        (7, 3, 0, BalanceTypeMoney) = some ⟨1, 7, 3, 0, BalanceTypeMoney, 10000000000000000, 0⟩ ∧
    (AddBalanceFloat64 noFaults
        (runOpsWith float64Arith emptyDB
          [Op.addBalance noFaults ⟨some 3, some RoleProvider⟩
            (some ⟨7, 3, 0, BalanceTypeMoney, 10000000000000000, ""⟩)])
        ⟨some 3, some RoleProvider⟩ (some ⟨7, 3, 0, BalanceTypeMoney, 1, ""⟩)).1 =
      Response.Success "Balance added successfully"
        ⟨1, 7, 3, 0, BalanceTypeMoney, 10000000000000000, 0⟩ ∧
    ¬ ((10000000000000000 : ℚ) < 10000000000000000) := by
  decide!

/-- C23, amended: reachable states of the ledger in `float64` arithmetic, as the
program computes.  Start from a database whose balances and transaction log are
empty (studios and relations are arbitrary).  After any sequence of calls of the
writing handlers, AddBalance calls with any request, any outcome and any fault
among them: (1) every balance row has frozen amount 0 and a positive amount, and
has a transaction; (2) every transaction refers to an existing balance row, has
type recharge and a positive amount; (3) every further successful AddBalance
call returns the row of its tuple, whose amount is the `float64` sum of the
amount that row held before (zero when there was none) and the decoded positive
amount of the request; that amount is not below the amount held before, and is
above it whenever the sum is exact. -/
theorem C23_reachable_ledger_invariant_float64 (db0 : DB) (ops : List Op)
    (hb : db0.balances = []) (ht : db0.balance_transactions = []) :
    (∀ b ∈ (runOpsWith float64Arith db0 ops).balances, b.FrozenAmount = 0 ∧ 0 < b.Amount ∧
      ∃ t ∈ (runOpsWith float64Arith db0 ops).balance_transactions, t.BalanceID = b.ID) ∧
    (∀ t ∈ (runOpsWith float64Arith db0 ops).balance_transactions,
      (∃ b ∈ (runOpsWith float64Arith db0 ops).balances, b.ID = t.BalanceID) ∧
        t.Typ = TransactionTypeRecharge ∧ 0 < t.Amount) ∧
    (∀ (f : Faults) (c : Context) (body : Option AddBalanceRequest) (msg : String) (b : Balance)
        (db2 : DB),
      AddBalanceWith float64Arith f (runOpsWith float64Arith db0 ops) c body =
        (Response.Success msg b, db2) →
      ∃ raw amount, body = some raw ∧ float64Arith.ofDecimal raw.Amount = some amount ∧
        0 < amount ∧
        float64Arith.add
            ((((runOpsWith float64Arith db0 ops).balanceOf b.key).map (·.Amount)).getD 0)
            amount = some b.Amount ∧
        (((runOpsWith float64Arith db0 ops).balanceOf b.key).map (·.Amount)).getD 0 ≤
          b.Amount ∧
        (b.Amount =
            (((runOpsWith float64Arith db0 ops).balanceOf b.key).map (·.Amount)).getD 0 +
              amount →
          (((runOpsWith float64Arith db0 ops).balanceOf b.key).map (·.Amount)).getD 0 <
            b.Amount) ∧
        db2.balanceOf b.key = some b) := by
  have h0 : ledgerInvariantFloat64 db0 := by
    refine ⟨⟨?_, ?_⟩, ?_⟩
    · intro b hbin
      rw [hb] at hbin
      cases hbin
    · intro t htin
      rw [ht] at htin
      cases htin
    · intro b hbin
      rw [hb] at hbin
      cases hbin
  have hinv := runOpsWith_keeps_invariant ops db0 h0
  refine ⟨hinv.1.1, hinv.1.2, ?_⟩
  intro f c body msg b db2 h
  obtain ⟨raw, amount, hbody, hdec, hpos, hadd, -, hle, -, hrow⟩ :=
    AddBalanceFloat64_success f (runOpsWith float64Arith db0 ops) db2 c body msg b hinv h
  refine ⟨raw, amount, hbody, hdec, hpos, hadd, hle, ?_, hrow⟩
  intro hexact
  rw [hexact]
  linarith

/-- C23, witness: in `float64` arithmetic, from the studio scenario with an empty
ledger, a credit of 0.1 by the owner, a credit whose save fails, a denied credit
by a player and a self-credit of provider 3. -/
theorem C23_reachable_ledger_invariant_float64_witness :
    (∀ b ∈ (runOpsWith float64Arith studioScenarioDB
        [Op.addBalance noFaults ⟨some 9, some RoleStudio⟩
            (some ⟨7, 3, 0, BalanceTypeMoney, 1 / 10, ""⟩),
          Op.addBalance { noFaults with balanceSave := true } ⟨some 9, some RoleStudio⟩
            (some ⟨7, 3, 0, BalanceTypeMoney, 50, ""⟩),
          Op.addBalance noFaults ⟨some 7, some RolePlayer⟩
            (some ⟨7, 3, 0, BalanceTypeMoney, 50, ""⟩),
          Op.addBalance noFaults ⟨some 3, some RoleProvider⟩
            (some ⟨7, 3, 0, BalanceTypeTime, 30, ""⟩)]).balances,
      b.FrozenAmount = 0 ∧ 0 < b.Amount ∧
      ∃ t ∈ (runOpsWith float64Arith studioScenarioDB
        [Op.addBalance noFaults ⟨some 9, some RoleStudio⟩
            (some ⟨7, 3, 0, BalanceTypeMoney, 1 / 10, ""⟩),
          Op.addBalance { noFaults with balanceSave := true } ⟨some 9, some RoleStudio⟩
            (some ⟨7, 3, 0, BalanceTypeMoney, 50, ""⟩),
          Op.addBalance noFaults ⟨some 7, some RolePlayer⟩
            (some ⟨7, 3, 0, BalanceTypeMoney, 50, ""⟩),
          Op.addBalance noFaults ⟨some 3, some RoleProvider⟩
            (some ⟨7, 3, 0, BalanceTypeTime, 30, ""⟩)]).balance_transactions,
        t.BalanceID = b.ID) ∧
    (runOpsWith float64Arith studioScenarioDB
        [Op.addBalance noFaults ⟨some 9, some RoleStudio⟩
            (some ⟨7, 3, 0, BalanceTypeMoney, 1 / 10, ""⟩),
          Op.addBalance { noFaults with balanceSave := true } ⟨some 9, some RoleStudio⟩
            (some ⟨7, 3, 0, BalanceTypeMoney, 50, ""⟩),
          Op.addBalance noFaults ⟨some 7, some RolePlayer⟩
            (some ⟨7, 3, 0, BalanceTypeMoney, 50, ""⟩),
          Op.addBalance noFaults ⟨some 3, some RoleProvider⟩
            (some ⟨7, 3, 0, BalanceTypeTime, 30, ""⟩)]).balances =
      [⟨1, 7, 3, 2, BalanceTypeMoney, 3602879701896397 / 36028797018963968, 0⟩,
        ⟨2, 7, 3, 0, BalanceTypeTime, 30, 0⟩] :=
  ⟨(C23_reachable_ledger_invariant_float64 studioScenarioDB
      [Op.addBalance noFaults ⟨some 9, some RoleStudio⟩
          (some ⟨7, 3, 0, BalanceTypeMoney, 1 / 10, ""⟩),
        Op.addBalance { noFaults with balanceSave := true } ⟨some 9, some RoleStudio⟩
          (some ⟨7, 3, 0, BalanceTypeMoney, 50, ""⟩),
        Op.addBalance noFaults ⟨some 7, some RolePlayer⟩
          (some ⟨7, 3, 0, BalanceTypeMoney, 50, ""⟩),
        Op.addBalance noFaults ⟨some 3, some RoleProvider⟩
          (some ⟨7, 3, 0, BalanceTypeTime, 30, ""⟩)] rfl rfl).1, by decide!⟩

end PlaymateTiming
